import Mathlib

/-!
Verification of the ai-devops orchestrator core against its specification.

The Python sources under `orchestrator/bin/` are shallowly embedded:
Python `str` becomes `List Char`, JSON payloads / Python dicts become an
inductive `Json` type with association-list objects, fallible parsing
returns `Except`, and filesystem effects become explicit state passing.
All definitions are translated from the source files
(`plan_schema.py`, `dispatch.py`, `monitor.py`, `zoe_tools.py`,
`planner_engine.py`); definitions whose names end in `Spec` are instead
transcriptions of the specification's wording, used for refinement
comparisons.

Modelling scope, stated once: Python's Unicode case folding and
whitespace classes are modelled on their ASCII fragments.  Every string
the orchestrator compares, lowercases or strips is ASCII or CJK
(CJK has no case and contains no exotic whitespace), so the fragment is
faithful on the reachable inputs.
-/

set_option maxHeartbeats 1000000

namespace AiDevops

/-- Python `str`, modelled as a list of characters (Python indexes and
measures strings by code points, as `List Char` does). -/
abbrev Str := List Char

/-- Coerce a Lean string literal into the model type. -/
def str (s : String) : Str := s.data

/-- ASCII fragment of Python's `str.lower` (see modelling scope above). -/
def pyLowerChar (c : Char) : Char :=
  if 'A' ≤ c ∧ c ≤ 'Z' then Char.ofNat (c.toNat + 32) else c

/-- ASCII fragment of Python's `str.upper`. -/
def pyUpperChar (c : Char) : Char :=
  if 'a' ≤ c ∧ c ≤ 'z' then Char.ofNat (c.toNat - 32) else c

/-- Python `s.lower()`. -/
def pyLower (s : Str) : Str := s.map pyLowerChar

/-- Python `s.upper()`. -/
def pyUpper (s : Str) : Str := s.map pyUpperChar

/-- ASCII fragment of Python's whitespace class used by `str.strip()`. -/
def isPySpace (c : Char) : Bool :=
  c = ' ' ∨ c = '\t' ∨ c = '\n' ∨ c = '\r' ∨ c = '\x0b' ∨ c = '\x0c'

/-- Python `s.strip()` (strip leading and trailing whitespace). -/
def pyStrip (s : Str) : Str :=
  ((s.dropWhile isPySpace).reverse.dropWhile isPySpace).reverse

/-- Python substring test `needle in haystack` starting exactly at `i`. -/
def matchesAt (haystack needle : Str) (i : Nat) : Bool :=
  needle.isPrefixOf (haystack.drop i)

/-- Python `needle in haystack` (substring containment). -/
def isSubstring (needle haystack : Str) : Bool :=
  (List.range (haystack.length + 1)).any (fun i => matchesAt haystack needle i)

/-- Python `sep.join(items)`. -/
def joinSep (sep : Str) (items : List Str) : Str :=
  match items with
  | [] => []
  | x :: xs => xs.foldl (fun acc item => acc ++ sep ++ item) x

theorem dropWhile_head_false {p : Char → Bool} :
    ∀ (l : Str) (a : Char) (t : Str), l.dropWhile p = a :: t → p a = false := by
  intro l
  induction l with
  | nil => intro a t h; simp [List.dropWhile] at h
  | cons x xs ih =>
      intro a t h
      by_cases hx : p x
      · rw [List.dropWhile_cons_of_pos hx] at h
        exact ih a t h
      · rw [List.dropWhile_cons_of_neg hx] at h
        cases h
        simpa using hx

theorem dropWhile_of_head_false {p : Char → Bool} (l : Str)
    (h : l = [] ∨ ∃ a t, l = a :: t ∧ p a = false) : l.dropWhile p = l := by
  rcases h with h | ⟨a, t, rfl, ha⟩
  · simp [h]
  · rw [List.dropWhile_cons_of_neg (by simp [ha])]

theorem dropWhile_shape {p : Char → Bool} (l : Str) :
    l.dropWhile p = [] ∨ ∃ a t, l.dropWhile p = a :: t ∧ p a = false := by
  cases h : l.dropWhile p with
  | nil => exact Or.inl rfl
  | cons a t => exact Or.inr ⟨a, t, rfl, dropWhile_head_false l a t h⟩

theorem dropWhile_idem {p : Char → Bool} (l : Str) :
    (l.dropWhile p).dropWhile p = l.dropWhile p :=
  dropWhile_of_head_false _ (dropWhile_shape l)

/-- `pyStrip` output neither starts nor ends with whitespace, so stripping
again is the identity. -/
theorem pyStrip_idem (s : Str) : pyStrip (pyStrip s) = pyStrip s := by
  unfold pyStrip
  set A := s.dropWhile isPySpace with hA
  set M := A.reverse.dropWhile isPySpace with hM
  -- `M.reverse` is a prefix of `A`.
  have hpref : M.reverse <+: A := by
    have hsuf : M <:+ A.reverse := hM ▸ List.dropWhile_suffix isPySpace
    have := List.reverse_prefix.mpr hsuf
    simpa using this
  -- The head of `M.reverse`, if any, is the head of `A`, which fails the
  -- whitespace predicate because `A` is a `dropWhile` output.
  have left : M.reverse.dropWhile isPySpace = M.reverse := by
    apply dropWhile_of_head_false
    cases hrev : M.reverse with
    | nil => exact Or.inl rfl
    | cons c cs =>
        right
        refine ⟨c, cs, rfl, ?_⟩
        obtain ⟨rest, hrest⟩ := hpref
        rw [hrev] at hrest
        rcases dropWhile_shape (p := isPySpace) s with hnil | ⟨b, u, hbu, hb⟩
        · rw [← hA] at hnil
          rw [hnil] at hrest
          simp at hrest
        · rw [← hA] at hbu
          rw [hbu] at hrest
          have hcb : c = b := (List.cons.injEq _ _ _ _ ▸ hrest).1
          rw [hcb]; exact hb
  rw [left, List.reverse_reverse, hM, dropWhile_idem]

/-! ## JSON / Python-value model

Plan payloads are Python dicts produced by `json.loads` or built in
`zoe_tools.py` / `planner_engine.py`.  They are modelled by `Json`;
objects are association lists (Python dicts never hold duplicate keys).
-/

inductive Json where
  | null
  | bool (b : Bool)
  | int (n : Int)
  | string (s : Str)
  | arr (items : List Json)
  | obj (fields : List (Str × Json))

abbrev JsonObj := List (Str × Json)

/-- Python `data.get(key)`; an absent key and a stored `None` both give
`None`, which `Json.null` models. -/
def pyGet (data : JsonObj) (key : Str) : Json :=
  match data.find? (fun kv => kv.1 = key) with
  | some kv => kv.2
  | none => Json.null

/-- Error taxonomy of `errors.py`. -/
inductive Err where
  | invalidPlan (msg : Str)
  | policyViolation (msg : Str)
  | dispatchError (msg : Str)
  | plannerError (msg : Str)

/-! ## plan_schema.py -/

def ALLOWED_AGENTS : List Str := [str ("codex"), str ("claude")]

def ALLOWED_EFFORTS : List Str := [str ("low"), str ("medium"), str ("high")]

def ALLOWED_WORKTREE_STRATEGIES : List Str := [str ("shared"), str ("isolated")]

def PROMPT_MAX_CHARS : Nat := 20000

def isIdentChar (c : Char) : Bool :=
  ('A' ≤ c ∧ c ≤ 'Z') ∨ ('a' ≤ c ∧ c ≤ 'z') ∨ ('0' ≤ c ∧ c ≤ '9') ∨ c = '_' ∨ c = '-'

def identFullMatch (s : Str) : Bool := !s.isEmpty && s.all isIdentChar

/-- `IDENTIFIER_RE.match(s)` with `^[A-Za-z0-9_-]+$`: Python's `$` also
matches just before a single trailing newline. -/
def identifier_match (s : Str) : Bool :=
  identFullMatch s || ((s.getLast? == some '\n') && identFullMatch s.dropLast)

/-- `re.sub(r"[^A-Za-z0-9_-]+", "-", s)`: each maximal run of
non-identifier characters becomes a single dash. -/
def collapseNonIdent : Str → Str
  | [] => []
  | c :: rest =>
      if isIdentChar c then c :: collapseNonIdent rest
      else '-' :: collapseNonIdent (rest.dropWhile (fun x => !isIdentChar x))
termination_by l => l.length
decreasing_by
  all_goals simp_wf
  all_goals
    have h := (List.dropWhile_suffix (l := rest) (fun x => !isIdentChar x)).length_le
    omega

/-- `re.sub(r"-{2,}", "-", s)`: each maximal run of dashes becomes a
single dash (runs of length one are unchanged either way). -/
def collapseDashes : Str → Str
  | [] => []
  | c :: rest =>
      if c = '-' then '-' :: collapseDashes (rest.dropWhile (fun x => x = '-'))
      else c :: collapseDashes rest
termination_by l => l.length
decreasing_by
  all_goals simp_wf
  all_goals
    have h := (List.dropWhile_suffix (l := rest) (fun x => decide (x = '-'))).length_le
    omega

def isDashOrUnderscore (c : Char) : Bool := c = '-' ∨ c = '_'

/-- Python `s.strip(chars)`. -/
def stripChars (p : Char → Bool) (s : Str) : Str :=
  ((s.dropWhile p).reverse.dropWhile p).reverse

/-- `plan_schema.sanitize_identifier`. -/
def sanitize_identifier (value : Str) : Str :=
  let sanitized := collapseNonIdent (pyStrip value)
  let sanitized2 := stripChars isDashOrUnderscore (collapseDashes sanitized)
  if sanitized2 = [] then str ("task") else sanitized2

/-- `plan_schema._require_string`. -/
def require_string (data : JsonObj) (key : Str) : Except Err Str :=
  match pyGet data key with
  | Json.string v =>
      if pyStrip v = [] then
        Except.error (Err.invalidPlan (str ("Missing or invalid string field: ") ++ key))
      else Except.ok (pyStrip v)
  | _ => Except.error (Err.invalidPlan (str ("Missing or invalid string field: ") ++ key))

/-- `plan_schema._optional_string`. -/
def optional_string (data : JsonObj) (key : Str) : Except Err (Option Str) :=
  match pyGet data key with
  | Json.null => Except.ok none
  | Json.string v =>
      if pyStrip v = [] then
        Except.error (Err.invalidPlan (str ("Invalid string field: ") ++ key))
      else Except.ok (some (pyStrip v))
  | _ => Except.error (Err.invalidPlan (str ("Invalid string field: ") ++ key))

/-- `plan_schema._optional_dict`. -/
def optional_dict (data : JsonObj) (key : Str) : Except Err JsonObj :=
  match pyGet data key with
  | Json.null => Except.ok []
  | Json.obj o => Except.ok o
  | _ => Except.error (Err.invalidPlan (str ("Invalid object field: ") ++ key))

/-- `plan_schema._optional_string_list`. -/
def optional_string_list (data : JsonObj) (key : Str) : Except Err (List Str) :=
  match pyGet data key with
  | Json.null => Except.ok []
  | Json.arr items =>
      if items.all (fun j => match j with
          | Json.string s => !(pyStrip s).isEmpty
          | _ => false) then
        Except.ok (items.filterMap (fun j => match j with
          | Json.string s => some (pyStrip s)
          | _ => none))
      else Except.error (Err.invalidPlan (str ("Invalid string array field: ") ++ key))
  | _ => Except.error (Err.invalidPlan (str ("Invalid string array field: ") ++ key))

structure RoutingDefaults where
  agent : Option Str
  model : Option Str
  effort : Option Str
deriving DecidableEq

/-- `RoutingDefaults.from_dict`. -/
def RoutingDefaults.from_dict (data : JsonObj) : Except Err RoutingDefaults := do
  let agent ← optional_string data (str ("agent"))
  let model ← optional_string data (str ("model"))
  let effort ← optional_string data (str ("effort"))
  -- `if agent and agent not in ALLOWED_AGENTS: raise`
  let () ← (match agent with
    | some a =>
        if a ≠ [] ∧ a ∉ ALLOWED_AGENTS then
          Except.error (Err.invalidPlan (str ("Unsupported routing.agent")))
        else Except.ok ()
    | none => Except.ok ())
  let () ← (match effort with
    | some e =>
        if e ≠ [] ∧ e ∉ ALLOWED_EFFORTS then
          Except.error (Err.invalidPlan (str ("Unsupported routing.effort")))
        else Except.ok ()
    | none => Except.ok ())
  pure { agent := agent, model := model, effort := effort }

/-- `RoutingDefaults.to_dict`: falsy (`None` or empty) fields are omitted. -/
def RoutingDefaults.to_dict (r : RoutingDefaults) : JsonObj :=
  (match r.agent with
    | some a => if a ≠ [] then [(str ("agent"), Json.string a)] else []
    | none => []) ++
  (match r.model with
    | some m => if m ≠ [] then [(str ("model"), Json.string m)] else []
    | none => []) ++
  (match r.effort with
    | some e => if e ≠ [] then [(str ("effort"), Json.string e)] else []
    | none => [])

structure Subtask where
  id : Str
  title : Str
  description : Str
  agent : Str
  model : Str
  effort : Str
  worktree_strategy : Str
  depends_on : List Str
  files_hint : List Str
  prompt : Str
  definition_of_done : List Str
deriving DecidableEq

/-- Python `first or second` on optional strings (`None` and `""` are
falsy). -/
def pyOrOpt (first second : Option Str) : Option Str :=
  match first with
  | some s => if s = [] then second else some s
  | none => second

/-- `Subtask.from_dict`. -/
def Subtask.from_dict (data : JsonObj) (routing : RoutingDefaults) : Except Err Subtask := do
  let subtask_id ← require_string data (str ("id"))
  let () ← (if !(identifier_match subtask_id) then
    Except.error (Err.invalidPlan (str ("Invalid subtask id: ") ++ subtask_id))
  else Except.ok ())
  let agentOpt ← optional_string data (str ("agent"))
  let modelOpt ← optional_string data (str ("model"))
  let effortOpt ← optional_string data (str ("effort"))
  -- `if not agent or agent not in ALLOWED_AGENTS: raise`
  let agent ← (match pyOrOpt agentOpt routing.agent with
    | some a =>
        if a ≠ [] ∧ a ∈ ALLOWED_AGENTS then Except.ok a
        else Except.error (Err.invalidPlan (str ("Invalid or missing agent for subtask ") ++ subtask_id))
    | none => Except.error (Err.invalidPlan (str ("Invalid or missing agent for subtask ") ++ subtask_id)))
  let model ← (match pyOrOpt modelOpt routing.model with
    | some m =>
        if m ≠ [] then Except.ok m
        else Except.error (Err.invalidPlan (str ("Missing model for subtask ") ++ subtask_id))
    | none => Except.error (Err.invalidPlan (str ("Missing model for subtask ") ++ subtask_id)))
  let effort ← (match pyOrOpt effortOpt routing.effort with
    | some e =>
        if e ≠ [] ∧ e ∈ ALLOWED_EFFORTS then Except.ok e
        else Except.error (Err.invalidPlan (str ("Invalid or missing effort for subtask ") ++ subtask_id))
    | none => Except.error (Err.invalidPlan (str ("Invalid or missing effort for subtask ") ++ subtask_id)))
  let worktree_strategy ← require_string data (str ("worktreeStrategy"))
  let () ← (if worktree_strategy ∉ ALLOWED_WORKTREE_STRATEGIES then
    Except.error (Err.invalidPlan (str ("Invalid worktreeStrategy for subtask ") ++ subtask_id))
  else Except.ok ())
  let prompt ← require_string data (str ("prompt"))
  let () ← (if prompt.length > PROMPT_MAX_CHARS then
    Except.error (Err.invalidPlan (str ("Prompt too long for subtask ") ++ subtask_id))
  else Except.ok ())
  let depends_on ← optional_string_list data (str ("dependsOn"))
  let files_hint ← optional_string_list data (str ("filesHint"))
  let definition_of_done ← optional_string_list data (str ("definitionOfDone"))
  let title ← require_string data (str ("title"))
  let description ← require_string data (str ("description"))
  pure { id := subtask_id, title := title, description := description,
         agent := agent, model := model, effort := effort,
         worktree_strategy := worktree_strategy, depends_on := depends_on,
         files_hint := files_hint, prompt := prompt,
         definition_of_done := definition_of_done }

/-- `Subtask.to_dict`. -/
def Subtask.to_dict (s : Subtask) : JsonObj :=
  [(str ("id"), Json.string s.id),
   (str ("title"), Json.string s.title),
   (str ("description"), Json.string s.description),
   (str ("agent"), Json.string s.agent),
   (str ("model"), Json.string s.model),
   (str ("effort"), Json.string s.effort),
   (str ("worktreeStrategy"), Json.string s.worktree_strategy),
   (str ("dependsOn"), Json.arr (s.depends_on.map Json.string)),
   (str ("filesHint"), Json.arr (s.files_hint.map Json.string)),
   (str ("prompt"), Json.string s.prompt),
   (str ("definitionOfDone"), Json.arr (s.definition_of_done.map Json.string))]

/-! ### Dependency validation and topological sorting (Kahn's algorithm)

`Plan._validate_dependencies` and `Plan.topologically_sorted_subtasks`
both run Kahn's algorithm; the only difference is the ready-queue
discipline (plain FIFO vs. re-sorting by original input index after each
pop).  The loop is embedded once, parameterized by the reorder step.
-/

/-- Adjacency lists: `adjacency[dep]` receives `s.id` once per occurrence
of `dep` in `s.depends_on`, in subtask order. -/
def adjacencyOf (nodes : List Subtask) (d : Str) : List Str :=
  nodes.flatMap (fun s => (s.depends_on.filter (fun dep => dep = d)).map (fun _ => s.id))

/-- One pop's child processing: `indegree[child] -= 1; if == 0: append`. -/
def kahnStepChildren (indeg : Str → Int) : List Str → (Str → Int) × List Str
  | [] => (indeg, [])
  | child :: rest =>
      let v := indeg child - 1
      let indeg' : Str → Int := fun x => if x = child then v else indeg x
      let next := kahnStepChildren indeg' rest
      if v = 0 then (next.1, child :: next.2) else next

/-- The Kahn loop.  The source loops while the queue is non-empty; each
iteration pops one id and every id enters the queue at most once, so
`nodes.length` iterations of fuel are exactly enough (proved below). -/
def kahnAux (adj : Str → List Str) (reorder : List Str → List Str) :
    Nat → (Str → Int) → List Str → List Str → List Str
  | 0, _, _, out => out
  | Nat.succ fuel, indeg, ready, out =>
      match ready with
      | [] => out
      | current :: rest =>
          let step := kahnStepChildren indeg (adj current)
          kahnAux adj reorder fuel step.1 (reorder (rest ++ step.2)) (out ++ [current])

/-- Indegrees as built by `_validate_dependencies` (one increment per
dependency occurrence, keyed by subtask id). -/
def validatorIndeg (nodes : List Subtask) (x : Str) : Int :=
  ((nodes.filter (fun s => s.id = x)).map (fun s => (s.depends_on.length : Int))).sum

/-- Initial FIFO queue of `_validate_dependencies`: indegree-zero ids in
original order. -/
def validator_ready0 (nodes : List Subtask) : List Str :=
  (nodes.map (fun s => s.id)).filter (fun x => validatorIndeg nodes x = 0)

/-- The FIFO pop order of `_validate_dependencies`. -/
def validator_out (nodes : List Subtask) : List Str :=
  kahnAux (adjacencyOf nodes) id nodes.length (validatorIndeg nodes)
    (validator_ready0 nodes) []

/-- The `visited` counter of `_validate_dependencies` after the loop. -/
def validator_visited (nodes : List Subtask) : Nat :=
  (validator_out nodes).length

/-- `Plan._validate_dependencies`. -/
def validate_dependencies (nodes : List Subtask) : Except Err Unit :=
  let subtask_ids := nodes.map (fun s => s.id)
  if ¬ subtask_ids.Nodup then
    Except.error (Err.invalidPlan (str ("Subtask ids must be unique inside a plan")))
  else if ¬ (nodes.all (fun s => s.depends_on.all (fun d => decide (d ∈ subtask_ids)))) then
    Except.error (Err.invalidPlan (str ("depends on unknown subtask")))
  else if validator_visited nodes ≠ nodes.length then
    Except.error (Err.invalidPlan (str ("Subtask dependency graph contains a cycle")))
  else Except.ok ()

structure Plan where
  plan_id : Str
  repo : Str
  title : Str
  requested_by : Str
  /-- `requestedAt` is stored as received; `isinstance(x, int)` admits
  both ints and bools (Python bools are ints), so the field keeps the
  `Json` payload value. -/
  requested_at : Json
  objective : Str
  constraints : JsonObj
  context : JsonObj
  subtasks : List Subtask
  routing : RoutingDefaults
  version : Str

/-- `Plan.from_dict`.  The source first checks that the payload is a
dict; the model's input type is that dict. -/
def Plan.from_dict (data : JsonObj) : Except Err Plan := do
  let plan_id ← require_string data (str ("planId"))
  let () ← (if !(identifier_match plan_id) then
    Except.error (Err.invalidPlan (str ("Invalid planId: ") ++ plan_id))
  else Except.ok ())
  let requested_at ← (match pyGet data (str ("requestedAt")) with
    | Json.int n => Except.ok (Json.int n)
    | Json.bool b => Except.ok (Json.bool b)
    | _ => Except.error (Err.invalidPlan (str ("requestedAt must be an integer in milliseconds"))))
  let routingObj ← optional_dict data (str ("routing"))
  let routing ← RoutingDefaults.from_dict routingObj
  let rawSubtasks ← (match pyGet data (str ("subtasks")) with
    | Json.arr items =>
        if items.isEmpty then
          Except.error (Err.invalidPlan (str ("subtasks must be a non-empty array")))
        else Except.ok items
    | _ => Except.error (Err.invalidPlan (str ("subtasks must be a non-empty array"))))
  -- the source parses the dict-shaped items, then compares counts
  let subtasks ← (rawSubtasks.filterMap (fun j => match j with
      | Json.obj o => some o
      | _ => none)).mapM (fun o => Subtask.from_dict o routing)
  let () ← (if subtasks.length ≠ rawSubtasks.length then
    Except.error (Err.invalidPlan (str ("Each subtask must be an object")))
  else Except.ok ())
  let () ← validate_dependencies subtasks
  let repo ← require_string data (str ("repo"))
  let title ← require_string data (str ("title"))
  let requested_by ← require_string data (str ("requestedBy"))
  let objective ← require_string data (str ("objective"))
  let constraints ← optional_dict data (str ("constraints"))
  let context ← optional_dict data (str ("context"))
  let version ← require_string data (str ("version"))
  pure { plan_id := plan_id, repo := repo, title := title,
         requested_by := requested_by, requested_at := requested_at,
         objective := objective, constraints := constraints,
         context := context, subtasks := subtasks, routing := routing,
         version := version }

/-- `Plan.subtasks_by_id`: a dict comprehension, so on (impossible for
validated plans) duplicate ids the later subtask wins — hence the
`find?` over the reversed list. -/
def subtasks_by_id (nodes : List Subtask) (x : Str) : Option Subtask :=
  nodes.reverse.find? (fun s => s.id = x)

/-- `original_order` of `topologically_sorted_subtasks` (`enumerate`
into a dict: the last occurrence of an id wins). -/
def origIndex (nodes : List Subtask) (x : Str) : Nat :=
  nodes.length - 1 - List.indexOf x (nodes.map (fun s => s.id)).reverse

/-- `ready.sort(key=original_order.get)`. -/
def sortByOrig (nodes : List Subtask) (l : List Str) : List Str :=
  l.mergeSort (fun a b => decide (origIndex nodes a ≤ origIndex nodes b))

/-- Sorter indegrees: `{s.id: len(s.depends_on)}` (later id wins). -/
def sorterIndeg (nodes : List Subtask) (x : Str) : Int :=
  match subtasks_by_id nodes x with
  | some s => (s.depends_on.length : Int)
  | none => 0

/-- Initial sorted ready list of `topologically_sorted_subtasks`. -/
def sorter_ready0 (nodes : List Subtask) : List Str :=
  sortByOrig nodes ((nodes.filter (fun s => sorterIndeg nodes s.id = 0)).map (fun s => s.id))

/-- `Plan.topologically_sorted_subtasks`.  A failed id lookup while
appending (a `KeyError` in the source, unreachable on validated plans)
is folded into the final length check. -/
def topologically_sorted_subtasks (nodes : List Subtask) : Except Err (List Subtask) :=
  let outIds := kahnAux (adjacencyOf nodes) (sortByOrig nodes) nodes.length
    (sorterIndeg nodes) (sorter_ready0 nodes) []
  let ordered := outIds.filterMap (subtasks_by_id nodes)
  if ordered.length ≠ nodes.length then
    Except.error (Err.invalidPlan (str ("Subtask dependency graph contains a cycle")))
  else Except.ok ordered

/-! ### Correctness of the Kahn loop -/

/-- The subtask ids of a plan, in input order. -/
def planIds (nodes : List Subtask) : List Str := nodes.map (fun s => s.id)

/-- Dependencies of the (first) subtask carrying a given id. -/
def depsOf (nodes : List Subtask) (x : Str) : List Str :=
  match nodes.find? (fun s => s.id = x) with
  | some s => s.depends_on
  | none => []

/-- The structural invariants `_validate_dependencies` checks before its
cycle detection. -/
structure KahnWF (nodes : List Subtask) : Prop where
  nodup : (planIds nodes).Nodup
  depsKnown : ∀ s ∈ nodes, ∀ d ∈ s.depends_on, d ∈ planIds nodes

/-- Every id in the sequence appears after all of its dependencies. -/
def DepsBefore (nodes : List Subtask) (out : List Str) : Prop :=
  ∀ pre c post, out = pre ++ c :: post → ∀ d ∈ depsOf nodes c, d ∈ pre

/-- Position of the first occurrence of `x` in `l` (length of `l` when
absent). -/
def idxIn (l : List Str) (x : Str) : Nat := l.findIdx (fun y => y = x)

theorem idxIn_cons (y : Str) (l : List Str) (x : Str) :
    idxIn (y :: l) x = if y = x then 0 else idxIn l x + 1 := by
  simp only [idxIn, List.findIdx_cons]
  by_cases h : y = x <;> simp [h]

theorem idxIn_cons_self (x : Str) (l : List Str) : idxIn (x :: l) x = 0 := by
  simp [idxIn_cons]

theorem idxIn_lt_length {l : List Str} {x : Str} (h : x ∈ l) :
    idxIn l x < l.length := by
  induction l with
  | nil => simp at h
  | cons a t ih =>
      rw [idxIn_cons]
      by_cases hax : a = x
      · simp [hax]
      · have : x ∈ t := by
          rcases List.mem_cons.mp h with h | h
          · exact absurd h.symm hax
          · exact h
        simp only [if_neg hax, List.length_cons]
        exact Nat.add_lt_add_right (ih this) 1

theorem idxIn_append_left {l₁ : List Str} (l₂ : List Str) {x : Str}
    (h : x ∈ l₁) : idxIn (l₁ ++ l₂) x = idxIn l₁ x := by
  induction l₁ with
  | nil => simp at h
  | cons a t ih =>
      rw [List.cons_append, idxIn_cons, idxIn_cons]
      by_cases hax : a = x
      · simp [hax]
      · have : x ∈ t := by
          rcases List.mem_cons.mp h with h | h
          · exact absurd h.symm hax
          · exact h
        rw [if_neg hax, if_neg hax, ih this]

theorem idxIn_append_right {l₁ : List Str} (l₂ : List Str) {x : Str}
    (h : x ∉ l₁) : idxIn (l₁ ++ l₂) x = l₁.length + idxIn l₂ x := by
  induction l₁ with
  | nil => simp
  | cons a t ih =>
      have hax : a ≠ x := fun he => h (he ▸ List.mem_cons_self a t)
      have hxt : x ∉ t := fun hm => h (List.mem_cons_of_mem _ hm)
      rw [List.cons_append, idxIn_cons, if_neg hax, ih hxt, List.length_cons]
      omega

/-- `T` enumerates (at least) all ids, placing every id strictly after
its dependencies; existence of such a `T` is the acyclicity of the
dependency graph. -/
def IsTopoOrder (nodes : List Subtask) (T : List Str) : Prop :=
  (∀ x ∈ planIds nodes, x ∈ T) ∧
  ∀ s ∈ nodes, ∀ d ∈ s.depends_on, idxIn T d < idxIn T s.id

/-- Loop invariant of the Kahn loop, at the top of an iteration. -/
structure KahnInv (nodes : List Subtask) (indeg : Str → Int)
    (ready out : List Str) : Prop where
  out_nodup : out.Nodup
  out_sub : ∀ x ∈ out, x ∈ planIds nodes
  ready_nodup : ready.Nodup
  ready_sub : ∀ x ∈ ready, x ∈ planIds nodes
  ready_disj : ∀ x ∈ ready, x ∉ out
  indeg_eq : ∀ x ∈ planIds nodes,
    indeg x = ((depsOf nodes x).countP (fun d => !(decide (d ∈ out))) : Int)
  ready_zero : ∀ x ∈ ready, indeg x = 0
  zero_ready : ∀ x ∈ planIds nodes, indeg x = 0 → x ∈ out ∨ x ∈ ready
  before : DepsBefore nodes out

theorem kahnStepChildren_indeg (children : List Str) :
    ∀ (indeg : Str → Int) (x : Str),
      (kahnStepChildren indeg children).1 x = indeg x - children.count x := by
  induction children with
  | nil => intro indeg x; simp [kahnStepChildren]
  | cons child rest ih =>
      intro indeg x
      unfold kahnStepChildren
      simp only []
      by_cases hv : indeg child - 1 = 0
      · rw [if_pos hv, ih]
        by_cases hx : x = child
        · subst hx; simp [List.count_cons]; omega
        · rw [List.count_cons_of_ne hx]; simp [hx]
      · rw [if_neg hv]
        show (kahnStepChildren _ rest).1 x = _
        rw [ih]
        by_cases hx : x = child
        · subst hx; simp [List.count_cons]; omega
        · rw [List.count_cons_of_ne hx]; simp [hx]

theorem kahnStepChildren_mem (children : List Str) :
    ∀ (indeg : Str → Int) (x : Str),
      x ∈ (kahnStepChildren indeg children).2 ↔
        1 ≤ indeg x ∧ indeg x ≤ children.count x := by
  induction children with
  | nil => intro indeg x; simp [kahnStepChildren]; omega
  | cons child rest ih =>
      intro indeg x
      unfold kahnStepChildren
      simp only []
      by_cases hv : indeg child - 1 = 0
      · rw [if_pos hv, List.mem_cons, ih]
        by_cases hx : x = child
        · subst hx; simp [List.count_cons]; omega
        · rw [List.count_cons_of_ne hx]
          simp only [hx, false_or]
          simp [hx]
      · rw [if_neg hv]
        show x ∈ (kahnStepChildren _ rest).2 ↔ _
        rw [ih]
        by_cases hx : x = child
        · subst hx; simp [List.count_cons]; omega
        · rw [List.count_cons_of_ne hx]; simp [hx]

theorem kahnStepChildren_nodup (children : List Str) :
    ∀ (indeg : Str → Int), (kahnStepChildren indeg children).2.Nodup := by
  induction children with
  | nil => intro indeg; simp [kahnStepChildren]
  | cons child rest ih =>
      intro indeg
      unfold kahnStepChildren
      simp only []
      by_cases hv : indeg child - 1 = 0
      · rw [if_pos hv]
        refine List.nodup_cons.mpr ⟨?_, ih _⟩
        rw [kahnStepChildren_mem]
        simp
        omega
      · rw [if_neg hv]
        exact ih _

theorem kahnStepChildren_sub (children : List Str) :
    ∀ (indeg : Str → Int) (x : Str),
      x ∈ (kahnStepChildren indeg children).2 → x ∈ children := by
  induction children with
  | nil => intro indeg x h; simp [kahnStepChildren] at h
  | cons child rest ih =>
      intro indeg x h
      unfold kahnStepChildren at h
      simp only [] at h
      by_cases hv : indeg child - 1 = 0
      · rw [if_pos hv] at h
        rcases List.mem_cons.mp h with h | h
        · simp [h]
        · exact List.mem_cons_of_mem _ (ih _ _ h)
      · rw [if_neg hv] at h
        exact List.mem_cons_of_mem _ (ih _ _ h)

theorem adjacencyOf_mem (nodes : List Subtask) (d x : Str)
    (h : x ∈ adjacencyOf nodes d) : x ∈ planIds nodes := by
  simp only [adjacencyOf, List.mem_flatMap, List.mem_map] at h
  obtain ⟨s, hs, ⟨dep, _, rfl⟩⟩ := h
  exact List.mem_map.mpr ⟨s, hs, rfl⟩

theorem count_map_const {α : Type} (l : List α) (a x : Str) :
    ((l.map (fun _ => a)).count x) = if a = x then l.length else 0 := by
  induction l with
  | nil => simp
  | cons b t ih =>
      simp only [List.map_cons, List.count_cons, ih]
      by_cases h : a = x <;> simp [h]

theorem depsOf_cons_self (s : Subtask) (rest : List Subtask) :
    depsOf (s :: rest) s.id = s.depends_on := by
  simp [depsOf, List.find?_cons_of_pos]

theorem depsOf_cons_ne (s : Subtask) (rest : List Subtask) (x : Str) (h : s.id ≠ x) :
    depsOf (s :: rest) x = depsOf rest x := by
  simp only [depsOf]
  rw [List.find?_cons_of_neg]
  simp [h]

theorem depsOf_not_mem (nodes : List Subtask) (x : Str)
    (h : x ∉ planIds nodes) : depsOf nodes x = [] := by
  simp only [depsOf]
  rw [List.find?_eq_none.mpr]
  intro s hs
  simp only [decide_eq_true_eq]
  intro hid
  exact h (List.mem_map.mpr ⟨s, hs, hid⟩)

theorem count_eq_countP_decide (l : List Str) (a : Str) :
    l.count a = l.countP (fun x => decide (x = a)) := by
  induction l with
  | nil => simp
  | cons b t ih =>
      simp only [List.count_cons, List.countP_cons, ih]
      by_cases h : b = a <;> simp [h]

theorem adjacencyOf_count (nodes : List Subtask)
    (hnd : (planIds nodes).Nodup) (cur x : Str) :
    (adjacencyOf nodes cur).count x = (depsOf nodes x).count cur := by
  induction nodes with
  | nil => simp [adjacencyOf, depsOf]
  | cons s rest ih =>
      simp only [planIds, List.map_cons, List.nodup_cons] at hnd
      obtain ⟨hs_notin, hnd_rest⟩ := hnd
      have hadj : adjacencyOf (s :: rest) cur =
          ((s.depends_on.filter (fun dep => dep = cur)).map (fun _ => s.id)) ++
            adjacencyOf rest cur := by
        simp [adjacencyOf]
      rw [hadj, List.count_append, count_map_const]
      by_cases hx : s.id = x
      · subst hx
        rw [depsOf_cons_self]
        have hzero : (adjacencyOf rest cur).count s.id = 0 := by
          rw [List.count_eq_zero]
          intro hmem
          exact hs_notin (adjacencyOf_mem rest cur s.id hmem)
        rw [hzero, if_pos rfl]
        rw [Nat.add_zero, count_eq_countP_decide, List.countP_eq_length_filter]
      · rw [if_neg hx, depsOf_cons_ne s rest x hx, Nat.zero_add]
        exact ih hnd_rest

/-- Removing one fresh element from the complement count: the counting
argument used when one pop of `cur` decrements indegrees. -/
theorem countP_append_singleton_count (l out : List Str) (cur : Str)
    (hcur : cur ∉ out) :
    l.countP (fun d => !(decide (d ∈ out ++ [cur]))) + l.count cur
      = l.countP (fun d => !(decide (d ∈ out))) := by
  induction l with
  | nil => simp
  | cons d t ih =>
      simp only [List.countP_cons, List.count_cons]
      by_cases hd : d = cur
      · subst hd
        have h₁ : (!(decide (d ∈ out ++ [d]))) = false := by simp
        have h₂ : (!(decide (d ∈ out))) = true := by simp [hcur]
        have h₃ : (d == d) = true := by simp
        rw [h₁, h₂, h₃]
        simp only [Bool.false_eq_true, if_false, if_true]
        omega
      · have h₁ : (decide (d ∈ out ++ [cur])) = (decide (d ∈ out)) := by
          simp [List.mem_append, hd]
        have h₂ : (d == cur) = false := beq_eq_false_iff_ne.mpr hd
        rw [h₁, h₂]
        simp only [Bool.false_eq_true, if_false]
        omega

theorem subtasks_by_id_eq_find? (nodes : List Subtask)
    (hnd : (planIds nodes).Nodup) (x : Str) :
    subtasks_by_id nodes x = nodes.find? (fun s => s.id = x) := by
  induction nodes with
  | nil => simp [subtasks_by_id]
  | cons s rest ih =>
      simp only [planIds, List.map_cons, List.nodup_cons] at hnd
      obtain ⟨hs_notin, hnd_rest⟩ := hnd
      simp only [subtasks_by_id, List.reverse_cons, List.find?_append]
      by_cases hx : s.id = x
      · have hnone : rest.reverse.find? (fun s => decide (s.id = x)) = none := by
          rw [List.find?_eq_none]
          intro a ha
          simp only [decide_eq_true_eq]
          intro haid
          exact hs_notin (List.mem_map.mpr ⟨a, List.mem_reverse.mp ha, by rw [haid, hx]⟩)
        rw [hnone]
        rw [List.find?_cons_of_pos _ (by simp [hx])]
        simp [hx]
      · have hsing : List.find? (fun s => decide (s.id = x)) [s] = none := by
          simp [hx]
        rw [hsing, Option.or_none]
        rw [List.find?_cons_of_neg _ (by simp [hx])]
        exact ih hnd_rest

theorem depsOf_of_mem (nodes : List Subtask) (hnd : (planIds nodes).Nodup)
    (s : Subtask) (hs : s ∈ nodes) : depsOf nodes s.id = s.depends_on := by
  unfold depsOf
  cases hf : nodes.find? (fun t => t.id = s.id) with
  | none =>
      rw [List.find?_eq_none] at hf
      exact absurd (by simp) (hf s hs)
  | some t =>
      have ht_mem : t ∈ nodes := List.mem_of_find?_eq_some hf
      have ht_id : t.id = s.id := by
        have := List.find?_some hf
        simpa using this
      have : t = s := List.inj_on_of_nodup_map hnd ht_mem hs ht_id
      rw [this]

theorem validatorIndeg_eq (nodes : List Subtask)
    (hnd : (planIds nodes).Nodup) (x : Str) :
    validatorIndeg nodes x = ((depsOf nodes x).length : Int) := by
  induction nodes with
  | nil => simp [validatorIndeg, depsOf]
  | cons s rest ih =>
      simp only [planIds, List.map_cons, List.nodup_cons] at hnd
      obtain ⟨hs_notin, hnd_rest⟩ := hnd
      by_cases hx : s.id = x
      · subst hx
        have hfilter : rest.filter (fun t => decide (t.id = s.id)) = [] := by
          rw [List.filter_eq_nil_iff]
          intro a ha
          simp only [decide_eq_true_eq]
          intro haid
          exact hs_notin (List.mem_map.mpr ⟨a, ha, haid⟩)
        simp only [validatorIndeg, List.filter_cons]
        rw [if_pos (by simp), hfilter]
        simp [depsOf_cons_self]
      · have h₁ : validatorIndeg (s :: rest) x = validatorIndeg rest x := by
          simp only [validatorIndeg, List.filter_cons]
          rw [if_neg (by simp [hx])]
        rw [h₁, depsOf_cons_ne s rest x hx]
        exact ih hnd_rest

theorem sorterIndeg_eq (nodes : List Subtask)
    (hnd : (planIds nodes).Nodup) (x : Str) :
    sorterIndeg nodes x = ((depsOf nodes x).length : Int) := by
  unfold sorterIndeg depsOf
  rw [subtasks_by_id_eq_find? nodes hnd x]
  cases h : nodes.find? (fun s => s.id = x) <;> simp

theorem append_singleton_decomp {out pre post : List Str} {c x : Str}
    (h : out ++ [c] = pre ++ x :: post) :
    (pre = out ∧ x = c ∧ post = []) ∨
      (∃ post', post = post' ++ [c] ∧ out = pre ++ x :: post') := by
  rcases List.append_eq_append_iff.mp h with ⟨a, ha₁, ha₂⟩ | ⟨b, hb₁, hb₂⟩
  · cases a with
    | nil =>
        simp only [List.nil_append] at ha₂
        obtain ⟨hc, hpost⟩ := List.cons.injEq _ _ _ _ ▸ ha₂
        exact Or.inl ⟨by simp [ha₁], hc.symm, hpost.symm⟩
    | cons y a' =>
        simp only [List.cons_append] at ha₂
        obtain ⟨_, htail⟩ := List.cons.injEq _ _ _ _ ▸ ha₂
        exact absurd htail.symm (by simp)
  · cases b with
    | nil =>
        simp only [List.nil_append] at hb₂
        obtain ⟨hx, hpost⟩ := List.cons.injEq _ _ _ _ ▸ hb₂
        refine Or.inl ⟨?_, hx, hpost⟩
        simp [hb₁]
    | cons y b' =>
        simp only [List.cons_append] at hb₂
        obtain ⟨hx, hpost⟩ := List.cons.injEq _ _ _ _ ▸ hb₂
        exact Or.inr ⟨b', hpost, by rw [hb₁, hx]⟩

theorem exists_min_image {l : List Str} (hl : l ≠ []) (f : Str → Nat) :
    ∃ b ∈ l, ∀ c ∈ l, f b ≤ f c := by
  induction l with
  | nil => exact absurd rfl hl
  | cons a t ih =>
      cases t with
      | nil =>
          refine ⟨a, by simp, ?_⟩
          intro c hc
          simp only [List.mem_singleton] at hc
          rw [hc]
      | cons a' t' =>
          obtain ⟨b, hb, hmin⟩ := ih (by simp)
          rcases le_total (f a) (f b) with hab | hab
          · refine ⟨a, by simp, ?_⟩
            intro c hc
            rcases List.mem_cons.mp hc with rfl | hc
            · exact le_refl _
            · exact le_trans hab (hmin c hc)
          · refine ⟨b, List.mem_cons_of_mem _ hb, ?_⟩
            intro c hc
            rcases List.mem_cons.mp hc with rfl | hc
            · exact hab
            · exact hmin c hc

theorem depsBefore_nil (nodes : List Subtask) : DepsBefore nodes [] := by
  intro pre c post h
  cases pre <;> simp at h

/-- The invariant holds at loop entry. -/
theorem kahnInv_init (nodes : List Subtask) (wf : KahnWF nodes)
    (indeg0 : Str → Int)
    (h0 : ∀ x, indeg0 x = ((depsOf nodes x).length : Int))
    (ready0 : List Str)
    (hperm : ready0.Perm ((planIds nodes).filter (fun x => decide (indeg0 x = 0)))) :
    KahnInv nodes indeg0 ready0 [] := by
  have hfilter_nodup : ((planIds nodes).filter (fun x => decide (indeg0 x = 0))).Nodup :=
    wf.nodup.filter _
  refine ⟨List.nodup_nil, by simp, hperm.symm.nodup hfilter_nodup, ?_, by simp, ?_, ?_, ?_, depsBefore_nil nodes⟩
  · intro x hx
    have := hperm.mem_iff.mp hx
    exact (List.mem_filter.mp this).1
  · intro x hx
    have h := h0 x
    have : ((depsOf nodes x).countP (fun d => !(decide (d ∈ ([] : List Str))))) =
        (depsOf nodes x).length := by
      simp
    rw [this, h]
  · intro x hx
    have := hperm.mem_iff.mp hx
    have hz := (List.mem_filter.mp this).2
    simpa using hz
  · intro x hx hz
    right
    rw [hperm.mem_iff]
    exact List.mem_filter.mpr ⟨hx, by simpa using hz⟩

/-- One pop preserves the invariant. -/
theorem kahnInv_step (nodes : List Subtask) (wf : KahnWF nodes)
    (reorder : List Str → List Str) (hre : ∀ l, (reorder l).Perm l)
    (indeg : Str → Int) (current : Str) (rest out : List Str)
    (inv : KahnInv nodes indeg (current :: rest) out) :
    KahnInv nodes (kahnStepChildren indeg (adjacencyOf nodes current)).1
      (reorder (rest ++ (kahnStepChildren indeg (adjacencyOf nodes current)).2))
      (out ++ [current]) := by
  have hcur_ids : current ∈ planIds nodes := inv.ready_sub current (List.mem_cons_self _ _)
  have hcur_zero : indeg current = 0 := inv.ready_zero current (List.mem_cons_self _ _)
  have hcur_out : current ∉ out := inv.ready_disj current (List.mem_cons_self _ _)
  have zero_deps : ∀ x ∈ planIds nodes, indeg x = 0 → ∀ d ∈ depsOf nodes x, d ∈ out := by
    intro x hx h0 d hd
    have heq := inv.indeg_eq x hx
    rw [h0] at heq
    have hc : (depsOf nodes x).countP (fun d => !(decide (d ∈ out))) = 0 := by
      exact_mod_cast heq.symm
    have := List.countP_eq_zero.mp hc d hd
    simpa using this
  have hdeps_cur : ∀ d ∈ depsOf nodes current, d ∈ out :=
    zero_deps current hcur_ids hcur_zero
  have hcount : ∀ x, (adjacencyOf nodes current).count x = (depsOf nodes x).count current :=
    fun x => adjacencyOf_count nodes wf.nodup current x
  have hind_eq : ∀ x, (kahnStepChildren indeg (adjacencyOf nodes current)).1 x
      = indeg x - ((depsOf nodes x).count current : Int) := by
    intro x
    rw [kahnStepChildren_indeg, hcount]
  have hnew_mem : ∀ x, x ∈ (kahnStepChildren indeg (adjacencyOf nodes current)).2 ↔
      1 ≤ indeg x ∧ indeg x ≤ ((depsOf nodes x).count current : Int) := by
    intro x
    rw [kahnStepChildren_mem, hcount]
  have hnew_ids : ∀ x ∈ (kahnStepChildren indeg (adjacencyOf nodes current)).2,
      x ∈ planIds nodes := by
    intro x hx
    exact adjacencyOf_mem nodes current x (kahnStepChildren_sub _ indeg x hx)
  have hout_zero : ∀ x ∈ out, x ∈ planIds nodes → indeg x = 0 := by
    intro x hx hids
    obtain ⟨pre, post, hdecomp⟩ := List.append_of_mem hx
    have hdeps := inv.before pre x post hdecomp
    rw [inv.indeg_eq x hids]
    have hcz : (depsOf nodes x).countP (fun d => !(decide (d ∈ out))) = 0 := by
      rw [List.countP_eq_zero]
      intro d hd
      have hdo : d ∈ out := by
        rw [hdecomp]
        exact List.mem_append_left _ (hdeps d hd)
      simp [hdo]
    simp [hcz]
  have hcount_le : ∀ x ∈ planIds nodes,
      ((depsOf nodes x).count current : Int) ≤ indeg x := by
    intro x hx
    rw [inv.indeg_eq x hx]
    have hle : (depsOf nodes x).count current ≤
        (depsOf nodes x).countP (fun d => !(decide (d ∈ out))) := by
      rw [count_eq_countP_decide]
      apply List.countP_mono_left
      intro d _ hdc
      have : d = current := of_decide_eq_true hdc
      subst this
      simp [hcur_out]
    exact_mod_cast hle
  have hnew_out : ∀ x ∈ (kahnStepChildren indeg (adjacencyOf nodes current)).2,
      x ∉ out := by
    intro x hx hxo
    have h1 := (hnew_mem x).mp hx
    have h2 := hout_zero x hxo (hnew_ids x hx)
    omega
  have hnew_cur : ∀ x ∈ (kahnStepChildren indeg (adjacencyOf nodes current)).2,
      x ≠ current := by
    intro x hx h
    have h1 := (hnew_mem x).mp hx
    rw [h, hcur_zero] at h1
    omega
  have hnew_rest : ∀ x ∈ (kahnStepChildren indeg (adjacencyOf nodes current)).2,
      x ∉ rest := by
    intro x hx hxr
    have h1 := (hnew_mem x).mp hx
    have h2 := inv.ready_zero x (List.mem_cons_of_mem _ hxr)
    omega
  have hready_mem : ∀ x, x ∈ reorder (rest ++ (kahnStepChildren indeg (adjacencyOf nodes current)).2) ↔
      x ∈ rest ∨ x ∈ (kahnStepChildren indeg (adjacencyOf nodes current)).2 := by
    intro x
    rw [(hre _).mem_iff, List.mem_append]
  have hrest_nodup : rest.Nodup := (List.nodup_cons.mp inv.ready_nodup).2
  have hcur_notin_rest : current ∉ rest := (List.nodup_cons.mp inv.ready_nodup).1
  refine ⟨?_, ?_, ?_, ?_, ?_, ?_, ?_, ?_, ?_⟩
  · rw [List.nodup_append]
    refine ⟨inv.out_nodup, List.nodup_singleton _, ?_⟩
    intro a ha hb
    rw [List.mem_singleton] at hb
    subst hb
    exact hcur_out ha
  · intro x hx
    rcases List.mem_append.mp hx with hx | hx
    · exact inv.out_sub x hx
    · rw [List.mem_singleton] at hx
      subst hx
      exact hcur_ids
  · apply (hre _).symm.nodup
    rw [List.nodup_append]
    exact ⟨hrest_nodup, kahnStepChildren_nodup _ indeg, fun a ha hb => hnew_rest a hb ha⟩
  · intro x hx
    rcases (hready_mem x).mp hx with hx | hx
    · exact inv.ready_sub x (List.mem_cons_of_mem _ hx)
    · exact hnew_ids x hx
  · intro x hx hmem
    rcases (hready_mem x).mp hx with hxr | hxn
    · rcases List.mem_append.mp hmem with h | h
      · exact inv.ready_disj x (List.mem_cons_of_mem _ hxr) h
      · rw [List.mem_singleton] at h
        exact hcur_notin_rest (h ▸ hxr)
    · rcases List.mem_append.mp hmem with h | h
      · exact hnew_out x hxn h
      · rw [List.mem_singleton] at h
        exact hnew_cur x hxn h
  · intro x hx
    rw [hind_eq x, inv.indeg_eq x hx]
    have harith := countP_append_singleton_count (depsOf nodes x) out current hcur_out
    omega
  · intro x hx
    rcases (hready_mem x).mp hx with hx | hx
    · have h0 := inv.ready_zero x (List.mem_cons_of_mem _ hx)
      have hsub := zero_deps x (inv.ready_sub x (List.mem_cons_of_mem _ hx)) h0
      have hcnt : (depsOf nodes x).count current = 0 := by
        rw [List.count_eq_zero]
        intro hmem
        exact hcur_out (hsub current hmem)
      rw [hind_eq x, h0, hcnt]
      simp
    · have h1 := (hnew_mem x).mp hx
      have h2 := hcount_le x (hnew_ids x hx)
      rw [hind_eq x]
      omega
  · intro x hx hz
    rw [hind_eq x] at hz
    have hle := hcount_le x hx
    by_cases hxo : x ∈ out
    · exact Or.inl (List.mem_append_left _ hxo)
    · by_cases hxc : x = current
      · subst hxc
        exact Or.inl (List.mem_append_right _ (List.mem_singleton.mpr rfl))
      · by_cases hcnt : (depsOf nodes x).count current = 0
        · have h0 : indeg x = 0 := by
            rw [hcnt] at hz
            omega
          rcases inv.zero_ready x hx h0 with h | h
          · exact absurd h hxo
          · rcases List.mem_cons.mp h with h | h
            · exact absurd h hxc
            · exact Or.inr ((hready_mem x).mpr (Or.inl h))
        · have : x ∈ (kahnStepChildren indeg (adjacencyOf nodes current)).2 := by
            rw [hnew_mem]
            omega
          exact Or.inr ((hready_mem x).mpr (Or.inr this))
  · intro pre c post hdecomp d hd
    rcases append_singleton_decomp hdecomp with ⟨hpre, hc, _⟩ | ⟨post', _, hout⟩
    · subst hpre
      subst hc
      exact hdeps_cur d hd
    · exact inv.before pre c post' hout d hd

/-- Master correctness of the Kahn loop under the invariant: the result
is a duplicate-free list of plan ids that respects dependencies, with the
stall property that any id left out still has an unemitted dependency. -/
theorem kahnAux_master (nodes : List Subtask) (wf : KahnWF nodes)
    (reorder : List Str → List Str) (hre : ∀ l, (reorder l).Perm l) :
    ∀ (fuel : Nat) (indeg : Str → Int) (ready out : List Str),
      KahnInv nodes indeg ready out →
      (planIds nodes).length ≤ fuel + out.length →
      (kahnAux (adjacencyOf nodes) reorder fuel indeg ready out).Nodup ∧
      (∀ x ∈ kahnAux (adjacencyOf nodes) reorder fuel indeg ready out, x ∈ planIds nodes) ∧
      DepsBefore nodes (kahnAux (adjacencyOf nodes) reorder fuel indeg ready out) ∧
      (∀ x ∈ planIds nodes, x ∉ kahnAux (adjacencyOf nodes) reorder fuel indeg ready out →
        ∃ d ∈ depsOf nodes x, d ∉ kahnAux (adjacencyOf nodes) reorder fuel indeg ready out) ∧
      out <+: kahnAux (adjacencyOf nodes) reorder fuel indeg ready out := by
  intro fuel
  induction fuel with
  | zero =>
      intro indeg ready out inv hfuel
      simp only [kahnAux]
      have hsubperm : out.Subperm (planIds nodes) :=
        List.subperm_of_subset inv.out_nodup (fun x hx => inv.out_sub x hx)
      have hperm : out.Perm (planIds nodes) :=
        hsubperm.perm_of_length_le (by omega)
      refine ⟨inv.out_nodup, fun x hx => inv.out_sub x hx, inv.before, ?_, List.prefix_refl _⟩
      intro x hx hnot
      exact absurd (hperm.mem_iff.mpr hx) hnot
  | succ fuel ih =>
      intro indeg ready out inv hfuel
      match ready with
      | [] =>
          simp only [kahnAux]
          refine ⟨inv.out_nodup, fun x hx => inv.out_sub x hx, inv.before, ?_, List.prefix_refl _⟩
          intro x hx hnot
          by_contra hno
          push_neg at hno
          have hcz : (depsOf nodes x).countP (fun d => !(decide (d ∈ out))) = 0 := by
            rw [List.countP_eq_zero]
            intro d hd
            simp [hno d hd]
          have h0 : indeg x = 0 := by
            rw [inv.indeg_eq x hx, hcz]
            simp
          rcases inv.zero_ready x hx h0 with h | h
          · exact hnot h
          · simp at h
      | current :: rest =>
          have hstep := kahnInv_step nodes wf reorder hre indeg current rest out inv
          have hres := ih _ _ _ hstep (by simp; omega)
          simp only [kahnAux]
          refine ⟨hres.1, hres.2.1, hres.2.2.1, hres.2.2.2.1, ?_⟩
          exact (List.prefix_append out [current]).trans hres.2.2.2.2

/-- On an acyclic graph the stall property forces full coverage: a
least-unfinished-id argument along the witnessing topological order. -/
theorem covers_of_topo (nodes : List Subtask) (wf : KahnWF nodes)
    (res : List Str)
    (hstall : ∀ x ∈ planIds nodes, x ∉ res → ∃ d ∈ depsOf nodes x, d ∉ res)
    (T : List Str) (hT : IsTopoOrder nodes T) :
    ∀ x ∈ planIds nodes, x ∈ res := by
  by_contra h
  push_neg at h
  obtain ⟨x, hx, hxr⟩ := h
  have hbad_ne : (planIds nodes).filter (fun y => !(decide (y ∈ res))) ≠ [] := by
    intro hnil
    have : x ∈ (planIds nodes).filter (fun y => !(decide (y ∈ res))) :=
      List.mem_filter.mpr ⟨hx, by simp [hxr]⟩
    rw [hnil] at this
    simp at this
  obtain ⟨b, hb, hmin⟩ := exists_min_image hbad_ne (fun y => idxIn T y)
  have hb_ids : b ∈ planIds nodes := (List.mem_filter.mp hb).1
  have hb_notres : b ∉ res := by
    have := (List.mem_filter.mp hb).2
    simpa using this
  obtain ⟨d, hd, hdr⟩ := hstall b hb_ids hb_notres
  have hnode : ∃ s ∈ nodes, s.id = b ∧ depsOf nodes b = s.depends_on := by
    unfold depsOf at hd ⊢
    cases hf : nodes.find? (fun s => s.id = b) with
    | none =>
        rw [hf] at hd
        simp at hd
    | some s =>
        refine ⟨s, List.mem_of_find?_eq_some hf, ?_, rfl⟩
        have := List.find?_some hf
        simpa using this
  obtain ⟨s, hs_mem, hs_id, hdeps⟩ := hnode
  have hd' : d ∈ s.depends_on := hdeps ▸ hd
  have hd_ids : d ∈ planIds nodes := wf.depsKnown s hs_mem d hd'
  have hd_bad : d ∈ (planIds nodes).filter (fun y => !(decide (y ∈ res))) :=
    List.mem_filter.mpr ⟨hd_ids, by simp [hdr]⟩
  have hlt : idxIn T d < idxIn T b := by
    have := hT.2 s hs_mem d hd'
    rw [hs_id] at this
    exact this
  have hge := hmin d hd_bad
  omega

/-- A complete, duplicate-free, dependency-respecting emission order is a
topological order. -/
theorem isTopoOrder_of_run (nodes : List Subtask) (wf : KahnWF nodes)
    (res : List Str) (hnodup : res.Nodup)
    (hcov : ∀ x ∈ planIds nodes, x ∈ res)
    (hbefore : DepsBefore nodes res) : IsTopoOrder nodes res := by
  refine ⟨hcov, ?_⟩
  intro s hs d hd
  have hsid_res : s.id ∈ res := hcov s.id (List.mem_map.mpr ⟨s, hs, rfl⟩)
  obtain ⟨pre, post, hdec⟩ := List.append_of_mem hsid_res
  have hdeps_pre : ∀ d' ∈ depsOf nodes s.id, d' ∈ pre := hbefore pre s.id post hdec
  have hdeps_eq : depsOf nodes s.id = s.depends_on := depsOf_of_mem nodes wf.nodup s hs
  have hd_pre : d ∈ pre := hdeps_pre d (hdeps_eq ▸ hd)
  have hsid_not_pre : s.id ∉ pre := by
    rw [hdec] at hnodup
    rcases List.nodup_append.mp hnodup with ⟨_, _, hdisj⟩
    intro hmem
    exact hdisj hmem (List.mem_cons_self _ _)
  rw [hdec]
  rw [idxIn_append_left _ hd_pre, idxIn_append_right _ hsid_not_pre,
    idxIn_cons_self]
  have := idxIn_lt_length hd_pre
  omega

theorem perm_planIds_of_cover (nodes : List Subtask)
    (hnd : (planIds nodes).Nodup) (res : List Str) (hnodup : res.Nodup)
    (hsub : ∀ x ∈ res, x ∈ planIds nodes)
    (hcov : ∀ x ∈ planIds nodes, x ∈ res) : res.Perm (planIds nodes) :=
  (List.perm_ext_iff_of_nodup hnodup hnd).mpr
    (fun a => ⟨fun h => hsub a h, fun h => hcov a h⟩)

theorem subtasks_by_id_some (nodes : List Subtask) (x : Str) (s : Subtask)
    (h : subtasks_by_id nodes x = some s) : s.id = x ∧ s ∈ nodes := by
  unfold subtasks_by_id at h
  refine ⟨?_, List.mem_reverse.mp (List.mem_of_find?_eq_some h)⟩
  have := List.find?_some h
  simpa using this

theorem subtasks_by_id_isSome (nodes : List Subtask) (x : Str)
    (h : x ∈ planIds nodes) : ∃ s, subtasks_by_id nodes x = some s := by
  unfold subtasks_by_id
  obtain ⟨s, hs, rfl⟩ := List.mem_map.mp h
  have : (nodes.reverse.find? (fun t => decide (t.id = s.id))).isSome = true :=
    List.find?_isSome.mpr ⟨s, List.mem_reverse.mpr hs, by simp⟩
  exact Option.isSome_iff_exists.mp this

theorem filterMap_byId_planIds (nodes : List Subtask)
    (hnd : (planIds nodes).Nodup) :
    (planIds nodes).filterMap (subtasks_by_id nodes) = nodes := by
  induction nodes with
  | nil => simp [planIds]
  | cons s rest ih =>
      have hnd' := hnd
      simp only [planIds, List.map_cons, List.nodup_cons] at hnd'
      obtain ⟨hs_notin, hnd_rest⟩ := hnd'
      have hhead : subtasks_by_id (s :: rest) s.id = some s := by
        rw [subtasks_by_id_eq_find? _ hnd, List.find?_cons_of_pos _ (by simp)]
      have htail : ∀ x ∈ planIds rest,
          subtasks_by_id (s :: rest) x = subtasks_by_id rest x := by
        intro x hx
        have hne : s.id ≠ x := fun he => hs_notin (he ▸ hx)
        rw [subtasks_by_id_eq_find? _ hnd,
          List.find?_cons_of_neg _ (by simp [hne]),
          subtasks_by_id_eq_find? _ hnd_rest]
      show List.filterMap (subtasks_by_id (s :: rest)) (s.id :: planIds rest) = s :: rest
      rw [List.filterMap_cons, hhead]
      rw [List.filterMap_congr htail, ih hnd_rest]

theorem map_id_filterMap (nodes : List Subtask) (res : List Str)
    (hsub : ∀ x ∈ res, x ∈ planIds nodes) :
    (res.filterMap (subtasks_by_id nodes)).map (fun s => s.id) = res := by
  induction res with
  | nil => simp
  | cons x t ih =>
      obtain ⟨s, hs⟩ := subtasks_by_id_isSome nodes x (hsub x (List.mem_cons_self _ _))
      obtain ⟨hsid, _⟩ := subtasks_by_id_some nodes x s hs
      rw [List.filterMap_cons, hs, List.map_cons, hsid,
        ih (fun y hy => hsub y (List.mem_cons_of_mem _ hy))]

/-- `_validate_dependencies` accepts exactly the structurally well-formed
acyclic plans: unique ids, known dependency targets, and existence of a
dependency-respecting enumeration. -/
theorem validate_ok_iff (nodes : List Subtask) :
    validate_dependencies nodes = Except.ok () ↔
      ((planIds nodes).Nodup ∧
        (∀ s ∈ nodes, ∀ d ∈ s.depends_on, d ∈ planIds nodes) ∧
        ∃ T, IsTopoOrder nodes T) := by
  constructor
  · intro h
    simp only [validate_dependencies] at h
    split_ifs at h with h₁ h₂ h₃
    have hnd : (planIds nodes).Nodup := h₁
    have hknown : ∀ s ∈ nodes, ∀ d ∈ s.depends_on, d ∈ planIds nodes := by
      rw [List.all_eq_true] at h₂
      intro s hs d hd
      have := h₂ s hs
      rw [List.all_eq_true] at this
      have := this d hd
      simpa [planIds] using this
    have hvis : validator_visited nodes = nodes.length := not_not.mp h₃
    have wf : KahnWF nodes := ⟨hnd, hknown⟩
    refine ⟨hnd, hknown, validator_out nodes, ?_⟩
    have inv0 : KahnInv nodes (validatorIndeg nodes) (validator_ready0 nodes) [] := by
      apply kahnInv_init nodes wf _ (validatorIndeg_eq nodes hnd) _
      exact List.Perm.refl _
    have master := kahnAux_master nodes wf id (fun l => List.Perm.refl l)
      nodes.length (validatorIndeg nodes) (validator_ready0 nodes) [] inv0
      (by simp [planIds])
    obtain ⟨hres_nodup, hres_sub, hres_before, hres_stall, _⟩ := master
    have hlen : (validator_out nodes).length = (planIds nodes).length := by
      simp only [validator_visited] at hvis
      simp [planIds, hvis]
    have hsubperm : (validator_out nodes).Subperm (planIds nodes) :=
      List.subperm_of_subset hres_nodup (fun x hx => hres_sub x hx)
    have hperm : (validator_out nodes).Perm (planIds nodes) :=
      hsubperm.perm_of_length_le (le_of_eq hlen.symm)
    exact isTopoOrder_of_run nodes wf _ hres_nodup
      (fun x hx => hperm.mem_iff.mpr hx) hres_before
  · rintro ⟨hnd, hknown, T, hT⟩
    have wf : KahnWF nodes := ⟨hnd, hknown⟩
    have inv0 : KahnInv nodes (validatorIndeg nodes) (validator_ready0 nodes) [] := by
      apply kahnInv_init nodes wf _ (validatorIndeg_eq nodes hnd) _
      exact List.Perm.refl _
    have master := kahnAux_master nodes wf id (fun l => List.Perm.refl l)
      nodes.length (validatorIndeg nodes) (validator_ready0 nodes) [] inv0
      (by simp [planIds])
    obtain ⟨hres_nodup, hres_sub, hres_before, hres_stall, _⟩ := master
    have hcov := covers_of_topo nodes wf _ hres_stall T hT
    have hperm : (validator_out nodes).Perm (planIds nodes) :=
      perm_planIds_of_cover nodes hnd _ hres_nodup (fun x hx => hres_sub x hx) hcov
    have hvis : validator_visited nodes = nodes.length := by
      simp only [validator_visited]
      rw [hperm.length_eq]
      simp [planIds]
    have hall : (nodes.all (fun s =>
        s.depends_on.all (fun d => decide (d ∈ nodes.map (fun s => s.id))))) = true := by
      rw [List.all_eq_true]
      intro s hs
      rw [List.all_eq_true]
      intro d hd
      have := hknown s hs d hd
      simpa [planIds] using this
    have hnd' : (List.map (fun s => s.id) nodes).Nodup := hnd
    simp [validate_dependencies, hnd', hall, hvis]
    intro s hs d hd
    have := hknown s hs d hd
    simpa [planIds] using this

theorem filter_map_id_comm (nodes : List Subtask) (p : Str → Bool) :
    (nodes.filter (fun s => p s.id)).map (fun s => s.id)
      = (nodes.map (fun s => s.id)).filter p := by
  induction nodes with
  | nil => simp
  | cons s rest ih =>
      simp only [List.filter_cons, List.map_cons]
      by_cases h : p s.id = true <;> simp [h, ih]

/-- `topologically_sorted_subtasks` on a validated plan: it succeeds, the
result is a permutation of the subtasks, and every subtask is emitted
after all the subtasks named in its `dependsOn`. -/
theorem topologically_sorted_ok (nodes : List Subtask)
    (hok : validate_dependencies nodes = Except.ok ()) :
    ∃ l, topologically_sorted_subtasks nodes = Except.ok l ∧ l.Perm nodes ∧
      ∀ pre s post, l = pre ++ s :: post → ∀ d ∈ s.depends_on,
        d ∈ pre.map (fun t => t.id) := by
  obtain ⟨hnd, hknown, T, hT⟩ := (validate_ok_iff nodes).mp hok
  have wf : KahnWF nodes := ⟨hnd, hknown⟩
  have hready0 : (sorter_ready0 nodes).Perm
      ((planIds nodes).filter (fun x => decide (sorterIndeg nodes x = 0))) := by
    unfold sorter_ready0 sortByOrig
    refine (List.mergeSort_perm _ _).trans ?_
    rw [filter_map_id_comm nodes (fun x => decide (sorterIndeg nodes x = 0))]
    exact List.Perm.refl _
  have inv0 : KahnInv nodes (sorterIndeg nodes) (sorter_ready0 nodes) [] :=
    kahnInv_init nodes wf _ (sorterIndeg_eq nodes hnd) _ hready0
  have master := kahnAux_master nodes wf (sortByOrig nodes)
    (fun l => List.mergeSort_perm l _) nodes.length (sorterIndeg nodes)
    (sorter_ready0 nodes) [] inv0 (by simp [planIds])
  obtain ⟨hres_nodup, hres_sub, hres_before, hres_stall, _⟩ := master
  have hcov := covers_of_topo nodes wf _ hres_stall T hT
  have hperm_ids : (kahnAux (adjacencyOf nodes) (sortByOrig nodes) nodes.length
      (sorterIndeg nodes) (sorter_ready0 nodes) []).Perm (planIds nodes) :=
    perm_planIds_of_cover nodes hnd _ hres_nodup (fun x hx => hres_sub x hx) hcov
  have hmap : ((kahnAux (adjacencyOf nodes) (sortByOrig nodes) nodes.length
      (sorterIndeg nodes) (sorter_ready0 nodes) []).filterMap
        (subtasks_by_id nodes)).map (fun s => s.id)
      = kahnAux (adjacencyOf nodes) (sortByOrig nodes) nodes.length
          (sorterIndeg nodes) (sorter_ready0 nodes) [] :=
    map_id_filterMap nodes _ (fun x hx => hres_sub x hx)
  have hfm_perm : ((kahnAux (adjacencyOf nodes) (sortByOrig nodes) nodes.length
      (sorterIndeg nodes) (sorter_ready0 nodes) []).filterMap
        (subtasks_by_id nodes)).Perm nodes := by
    have := hperm_ids.filterMap (subtasks_by_id nodes)
    rw [filterMap_byId_planIds nodes hnd] at this
    exact this
  have hlen := hfm_perm.length_eq
  refine ⟨_, ?_, hfm_perm, ?_⟩
  · simp only [topologically_sorted_subtasks]
    rw [if_neg (by simp [hlen])]
  · intro pre s post hdec d hd
    have hs_mem : s ∈ nodes := by
      rw [← hfm_perm.mem_iff]
      rw [hdec]
      exact List.mem_append_right _ (List.mem_cons_self _ _)
    have hdec_ids : kahnAux (adjacencyOf nodes) (sortByOrig nodes) nodes.length
        (sorterIndeg nodes) (sorter_ready0 nodes) []
        = pre.map (fun t => t.id) ++ s.id :: post.map (fun t => t.id) := by
      rw [← hmap, hdec]
      simp
    have hdeps := hres_before _ _ _ hdec_ids
    have hde : depsOf nodes s.id = s.depends_on := depsOf_of_mem nodes hnd s hs_mem
    exact hdeps d (hde ▸ hd)

theorem except_bind_ok {α β : Type} {e : Except Err α} {f : α → Except Err β}
    {b : β} (h : (e >>= f) = Except.ok b) :
    ∃ a, e = Except.ok a ∧ f a = Except.ok b := by
  cases e with
  | error err => simp [Bind.bind, Except.bind] at h
  | ok a => exact ⟨a, rfl, by simpa [Bind.bind, Except.bind] using h⟩

/-- A plan accepted by `Plan.from_dict` passed `_validate_dependencies`
on exactly its parsed subtask list. -/
theorem from_dict_ok_validate (data : JsonObj) (P : Plan)
    (h : Plan.from_dict data = Except.ok P) :
    validate_dependencies P.subtasks = Except.ok () := by
  simp only [Plan.from_dict] at h
  obtain ⟨plan_id, hpid, h⟩ := except_bind_ok h
  obtain ⟨u₁, hu₁, h⟩ := except_bind_ok h
  obtain ⟨requested_at, hra, h⟩ := except_bind_ok h
  obtain ⟨routingObj, hro, h⟩ := except_bind_ok h
  obtain ⟨routing, hr, h⟩ := except_bind_ok h
  obtain ⟨rawSubtasks, hrs, h⟩ := except_bind_ok h
  obtain ⟨subtasks, hsubs, h⟩ := except_bind_ok h
  obtain ⟨u₂, hu₂, h⟩ := except_bind_ok h
  obtain ⟨u₃, hval, h⟩ := except_bind_ok h
  obtain ⟨repo, hrepo, h⟩ := except_bind_ok h
  obtain ⟨title, htitle, h⟩ := except_bind_ok h
  obtain ⟨requested_by, hrb, h⟩ := except_bind_ok h
  obtain ⟨objective, hobj, h⟩ := except_bind_ok h
  obtain ⟨constraints, hcon, h⟩ := except_bind_ok h
  obtain ⟨context, hctx, h⟩ := except_bind_ok h
  obtain ⟨version, hver, h⟩ := except_bind_ok h
  simp only [pure, Except.pure, Except.ok.injEq] at h
  subst h
  cases u₃
  exact hval

/-- C1.  For every plan accepted by the validator (`Plan.from_dict`),
`topologically_sorted_subtasks` — whose definition above is the spec's
algorithm: indegree-zero seeds ordered by original input index, pop the
head, decrement successors, re-sort the newly-ready ids by original
index — returns a sequence holding exactly the plan's subtasks (a
permutation, hence the full length), in which every subtask appears
after all of the subtasks named in its `dependsOn`. -/
theorem claim_C1 (data : JsonObj) (P : Plan)
    (hacc : Plan.from_dict data = Except.ok P) :
    ∃ l, topologically_sorted_subtasks P.subtasks = Except.ok l ∧
      l.length = P.subtasks.length ∧ l.Perm P.subtasks ∧
      ∀ pre s post, l = pre ++ s :: post → ∀ d ∈ s.depends_on,
        d ∈ pre.map (fun t => t.id) := by
  have hval := from_dict_ok_validate data P hacc
  obtain ⟨l, hl, hperm, hdep⟩ := topologically_sorted_ok P.subtasks hval
  exact ⟨l, hl, hperm.length_eq, hperm, hdep⟩

/-- A small concrete payload: two subtasks, listed dependent-first. -/
def demoPlanPayload : JsonObj :=
  [(str ("planId"), Json.string (str ("plan-1"))),
   (str ("repo"), Json.string (str ("repo1"))),
   (str ("title"), Json.string (str ("Title"))),
   (str ("requestedBy"), Json.string (str ("alice"))),
   (str ("requestedAt"), Json.int 1730000000000),
   (str ("objective"), Json.string (str ("objective"))),
   (str ("version"), Json.string (str ("1.0"))),
   (str ("subtasks"), Json.arr
     [Json.obj
       [(str ("id"), Json.string (str ("S2"))),
        (str ("title"), Json.string (str ("second"))),
        (str ("description"), Json.string (str ("d2"))),
        (str ("agent"), Json.string (str ("codex"))),
        (str ("model"), Json.string (str ("m1"))),
        (str ("effort"), Json.string (str ("low"))),
        (str ("worktreeStrategy"), Json.string (str ("shared"))),
        (str ("dependsOn"), Json.arr [Json.string (str ("S1"))]),
        (str ("prompt"), Json.string (str ("p2")))],
      Json.obj
       [(str ("id"), Json.string (str ("S1"))),
        (str ("title"), Json.string (str ("first"))),
        (str ("description"), Json.string (str ("d1"))),
        (str ("agent"), Json.string (str ("codex"))),
        (str ("model"), Json.string (str ("m1"))),
        (str ("effort"), Json.string (str ("low"))),
        (str ("worktreeStrategy"), Json.string (str ("shared"))),
        (str ("prompt"), Json.string (str ("p1")))]])]

def demoSubtask2 : Subtask :=
  { id := str ("S2"), title := str ("second"), description := str ("d2"),
    agent := str ("codex"), model := str ("m1"), effort := str ("low"),
    worktree_strategy := str ("shared"), depends_on := [str ("S1")],
    files_hint := [], prompt := str ("p2"), definition_of_done := [] }

def demoSubtask1 : Subtask :=
  { id := str ("S1"), title := str ("first"), description := str ("d1"),
    agent := str ("codex"), model := str ("m1"), effort := str ("low"),
    worktree_strategy := str ("shared"), depends_on := [],
    files_hint := [], prompt := str ("p1"), definition_of_done := [] }

def demoPlan : Plan :=
  { plan_id := str ("plan-1"), repo := str ("repo1"), title := str ("Title"),
    requested_by := str ("alice"), requested_at := Json.int 1730000000000,
    objective := str ("objective"), constraints := [], context := [],
    subtasks := [demoSubtask2, demoSubtask1],
    routing := { agent := none, model := none, effort := none },
    version := str ("1.0") }

/-- Witness for C1 at the concrete two-subtask plan. -/
theorem claim_C1_witness :
    Plan.from_dict demoPlanPayload = Except.ok demoPlan ∧
    ∃ l, topologically_sorted_subtasks demoPlan.subtasks = Except.ok l ∧
      l.length = demoPlan.subtasks.length ∧ l.Perm demoPlan.subtasks ∧
      ∀ pre s post, l = pre ++ s :: post → ∀ d ∈ s.depends_on,
        d ∈ pre.map (fun t => t.id) :=
  ⟨rfl, claim_C1 demoPlanPayload demoPlan rfl⟩

/-- `Plan.to_dict` (the `routing` key is appended only when non-empty). -/
def Plan.to_dict (p : Plan) : JsonObj :=
  [(str ("planId"), Json.string p.plan_id),
   (str ("repo"), Json.string p.repo),
   (str ("title"), Json.string p.title),
   (str ("requestedBy"), Json.string p.requested_by),
   (str ("requestedAt"), p.requested_at),
   (str ("objective"), Json.string p.objective),
   (str ("constraints"), Json.obj p.constraints),
   (str ("context"), Json.obj p.context),
   (str ("subtasks"), Json.arr (p.subtasks.map (fun s => Json.obj s.to_dict))),
   (str ("version"), Json.string p.version)] ++
  (if p.routing.to_dict.isEmpty then [] else [(str ("routing"), Json.obj p.routing.to_dict)])

/-! ## monitor.py -/

/-- One entry of `statusCheckRollup`.  The source reads four keys with
`.get`; values are strings or absent (`None`). -/
structure CheckEntry where
  name : Option Str
  context : Option Str
  status : Option Str
  conclusion : Option Str
deriving DecidableEq

/-- Python `a or b` where `a` is an optional string and `b` a string. -/
def pyOrStr (a : Option Str) (b : Str) : Str :=
  match a with
  | some s => if s = [] then b else s
  | none => b

/-- `name = c.get("name") or c.get("context") or "check"`. -/
def checkName (c : CheckEntry) : Str :=
  pyOrStr c.name (pyOrStr c.context (str ("check")))

/-- `status = (c.get("status") or "").upper()`. -/
def check_status (c : CheckEntry) : Str := pyUpper (c.status.getD [])

/-- `conc = (c.get("conclusion") or "").upper()`. -/
def check_conclusion (c : CheckEntry) : Str := pyUpper (c.conclusion.getD [])

def check_is_pending (c : CheckEntry) : Bool :=
  decide (check_status c ≠ str ("COMPLETED")) && decide (check_conclusion c = [])

def FAILURE_CONCLUSIONS : List Str :=
  [str ("FAILURE"), str ("CANCELLED"), str ("TIMED_OUT"), str ("ACTION_REQUIRED")]

def check_is_failure (c : CheckEntry) : Bool :=
  decide (check_conclusion c ∈ FAILURE_CONCLUSIONS)

def check_failure_label (c : CheckEntry) : Str :=
  checkName c ++ str (":") ++ check_conclusion c

/-- Loop body of `analyze_checks` over `(pending, failures)`. -/
def analyzeFold (acc : Bool × List Str) (c : CheckEntry) : Bool × List Str :=
  if check_is_pending c then (true, acc.2)
  else if check_is_failure c then (acc.1, acc.2 ++ [check_failure_label c])
  else acc

/-- `monitor.analyze_checks`: returns `(passed, failure_summary, pending)`.
An absent or `None` rollup normalizes to `[]` at the call site
(`pr.get("statusCheckRollup") or []`). -/
def analyze_checks (rollup : List CheckEntry) : Bool × Option Str × Bool :=
  if rollup.isEmpty then (false, none, true)
  else
    let res := rollup.foldl analyzeFold (false, [])
    if res.1 then (false, none, true)
    else if !res.2.isEmpty then
      (false, some (joinSep (str ("; ")) res.2), false)
    else (true, none, false)

/-- The `mergeable` field as delivered by the hosting CLI: absent/null,
boolean, or an enum string (the shapes the source's own comment lists). -/
inductive GhVal where
  | missing
  | bool (b : Bool)
  | string (s : Str)
deriving DecidableEq

/-- Python `str()` on those shapes. -/
def pyStrOf : GhVal → Str
  | GhVal.missing => str ("None")
  | GhVal.bool true => str ("True")
  | GhVal.bool false => str ("False")
  | GhVal.string s => s

structure PRInfo where
  mergeable : GhVal
  mergeStateStatus : Option Str
deriving DecidableEq

/-- `monitor.merge_clean`. -/
def merge_clean (pr : PRInfo) : Bool :=
  let status := pyUpper (pr.mergeStateStatus.getD [])
  let mergeable_ok :=
    decide (pyLower (pyStrOf pr.mergeable) ∈ [str ("true"), str ("mergeable")])
  mergeable_ok && decide (status = str ("CLEAN"))

theorem analyzeFold_pending (rollup : List CheckEntry) :
    ∀ acc : Bool × List Str,
      (rollup.foldl analyzeFold acc).1 = (acc.1 || rollup.any check_is_pending) := by
  induction rollup with
  | nil => intro acc; simp
  | cons c t ih =>
      intro acc
      simp only [List.foldl_cons, List.any_cons]
      rw [ih]
      unfold analyzeFold
      by_cases hp : check_is_pending c
      · simp [hp]
      · by_cases hf : check_is_failure c <;> simp [hp, hf]

theorem analyzeFold_failures (rollup : List CheckEntry) :
    ∀ acc : Bool × List Str,
      (rollup.foldl analyzeFold acc).2 = acc.2 ++
        ((rollup.filter (fun c => !check_is_pending c && check_is_failure c)).map
          check_failure_label) := by
  induction rollup with
  | nil => intro acc; simp
  | cons c t ih =>
      intro acc
      simp only [List.foldl_cons, List.filter_cons]
      rw [ih]
      unfold analyzeFold
      by_cases hp : check_is_pending c
      · simp [hp]
      · by_cases hf : check_is_failure c <;> simp [hp, hf]

/-- C3 (amended).  The exhaustive behaviour of `analyze_checks`: empty
rollup → pending triple; any pending check → pending triple **even when
failures were collected**; otherwise failures → `(false, join("; ",
labels), false)` (separator is semicolon-space); otherwise success. -/
theorem claim_C3 (rollup : List CheckEntry) :
    (rollup = [] → analyze_checks rollup = (false, none, true)) ∧
    (rollup ≠ [] → (∃ c ∈ rollup, check_is_pending c) →
      analyze_checks rollup = (false, none, true)) ∧
    (rollup ≠ [] → (∀ c ∈ rollup, ¬ check_is_pending c) →
      (∃ c ∈ rollup, check_is_failure c) →
      analyze_checks rollup = (false,
        some (joinSep (str ("; "))
          ((rollup.filter check_is_failure).map check_failure_label)), false)) ∧
    (rollup ≠ [] → (∀ c ∈ rollup, ¬ check_is_pending c) →
      (∀ c ∈ rollup, ¬ check_is_failure c) →
      analyze_checks rollup = (true, none, false)) := by
  have hpend := analyzeFold_pending rollup (false, [])
  have hfail := analyzeFold_failures rollup (false, [])
  refine ⟨?_, ?_, ?_, ?_⟩
  · intro h; simp [analyze_checks, h]
  · intro hne hex
    have hany : rollup.any check_is_pending = true := List.any_eq_true.mpr hex
    simp [analyze_checks, hpend, hany, hne]
  · intro hne hnop hex
    have hany : rollup.any check_is_pending = false := by
      rw [List.any_eq_false]
      exact hnop
    have hfilter : rollup.filter (fun c => !check_is_pending c && check_is_failure c)
        = rollup.filter check_is_failure := by
      apply List.filter_congr
      intro c hc
      simp [hnop c hc]
    obtain ⟨c₀, hc₀, hc₀f⟩ := hex
    have hmem : check_failure_label c₀ ∈
        (rollup.filter check_is_failure).map check_failure_label :=
      List.mem_map.mpr ⟨c₀, List.mem_filter.mpr ⟨hc₀, hc₀f⟩, rfl⟩
    have hnonempty : ((rollup.filter check_is_failure).map check_failure_label).isEmpty = false := by
      cases hm : (rollup.filter check_is_failure).map check_failure_label with
      | nil => rw [hm] at hmem; simp at hmem
      | cons a t => simp
    simp [analyze_checks, hpend, hfail, hany, hfilter, hnonempty, hne]
  · intro hne hnop hnof
    have hany : rollup.any check_is_pending = false := by
      rw [List.any_eq_false]
      exact hnop
    have hfilter : rollup.filter (fun c => !check_is_pending c && check_is_failure c) = [] := by
      rw [List.filter_eq_nil_iff]
      intro c hc
      simp [hnof c hc]
    simp [analyze_checks, hpend, hfail, hany, hfilter, hne]

/-- The mixed rollup that separates the source from the claimed truth
table: one still-running check and one concluded failure. -/
def mixedRollup : List CheckEntry :=
  [{ name := none, context := none, status := some (str ("IN_PROGRESS")),
     conclusion := none },
   { name := some (str ("build")), context := none,
     status := some (str ("COMPLETED")), conclusion := some (str ("FAILURE")) }]

/-- C3 counterexample: with a pending check and a collected failure, the
source returns the pending triple `(false, None, true)` — not the failure
triple the claim requires — so the pending result is **not** returned
only when no failures were collected. -/
theorem claim_C3_counterexample :
    analyze_checks mixedRollup = (false, none, true) ∧
    (∃ c ∈ mixedRollup, check_is_failure c = true) ∧
    analyze_checks mixedRollup ≠ (false, some (str ("build:FAILURE")), false) := by
  refine ⟨by decide,
    ⟨{ name := some (str ("build")), context := none,
       status := some (str ("COMPLETED")), conclusion := some (str ("FAILURE")) },
      List.mem_cons_of_mem _ (List.mem_cons_self _ _), by decide⟩,
    by decide⟩

/-- Witness for C3 at concrete inputs: the all-success case. -/
theorem claim_C3_witness :
    analyze_checks
      [{ name := some (str ("build")), context := none,
         status := some (str ("COMPLETED")), conclusion := some (str ("SUCCESS")) }]
      = (true, none, false) :=
  (claim_C3 _).2.2.2 (by decide) (by decide) (by decide)

/-- C8.  `merge_clean` is true exactly when `mergeable` is boolean true
or a string lowercasing to `true` or `mergeable`, and `mergeStateStatus`
uppercases to `CLEAN`; every other combination gives false. -/
theorem claim_C8 (pr : PRInfo) :
    merge_clean pr = true ↔
      ((pr.mergeable = GhVal.bool true ∨
        ∃ s, pr.mergeable = GhVal.string s ∧
          pyLower s ∈ [str ("true"), str ("mergeable")]) ∧
       pyUpper (pr.mergeStateStatus.getD []) = str ("CLEAN")) := by
  unfold merge_clean
  cases pr with
  | mk mergeable mergeStateStatus =>
      simp only [Bool.and_eq_true, decide_eq_true_eq]
      constructor
      · rintro ⟨hok, hst⟩
        refine ⟨?_, hst⟩
        cases mergeable with
        | missing => exact absurd hok (by decide)
        | bool b =>
            cases b with
            | true => exact Or.inl rfl
            | false => exact absurd hok (by decide)
        | string s => exact Or.inr ⟨s, rfl, hok⟩
      · rintro ⟨hok, hst⟩
        refine ⟨?_, hst⟩
        rcases hok with h | ⟨s, hs, hl⟩
        · rw [h]; decide
        · rw [hs]; exact hl

/-- Witness for C8: boolean `true` plus `CLEAN` is merge-ready. -/
theorem claim_C8_witness :
    merge_clean { mergeable := GhVal.bool true,
                  mergeStateStatus := some (str ("CLEAN")) } = true :=
  (claim_C8 _).mpr ⟨Or.inl rfl, by decide⟩

/-! ## dispatch.py: subtask sidecar archive

The sidecar files under `tasks/<planId>/subtasks/<subtaskId>.json` are
JSON objects; the two writers below produce the new file content from
the optional existing content.
-/

/-- Python dict assignment `d[k] = v`: replace in place, or append. -/
def setKey {α : Type} (d : List (Str × α)) (k : Str) (v : α) : List (Str × α) :=
  if (d.find? (fun kv => kv.1 = k)).isSome then
    d.map (fun kv => if kv.1 = k then (k, v) else kv)
  else d ++ [(k, v)]

/-- Dict lookup returning the stored value (distinguishing absent from
a stored null, unlike `pyGet`). -/
def lookupKey {α : Type} (d : List (Str × α)) (k : Str) : Option α :=
  (d.find? (fun kv => kv.1 = k)).map (fun kv => kv.2)

/-- The fresh `dispatch` record `{planned, None, None}`. -/
def plannedDispatch : Json :=
  Json.obj [(str ("state"), Json.string (str ("planned"))),
            (str ("queuedTaskId"), Json.null),
            (str ("queuedAt"), Json.null)]

/-- File content written by `archive_subtasks` for one subtask, given
the existing sidecar content (if the file exists).  The existing
`dispatch` value is preserved (`existing.get("dispatch", {})`). -/
def archive_subtask_payload (planId : Str) (s : Subtask)
    (existing : Option JsonObj) : JsonObj :=
  let payload := setKey (Subtask.to_dict s) (str ("planId")) (Json.string planId)
  match existing with
  | some old =>
      setKey payload (str ("dispatch"))
        (match lookupKey old (str ("dispatch")) with
          | some v => v
          | none => Json.obj [])
  | none => setKey payload (str ("dispatch")) plannedDispatch

/-- File content written by `update_subtask_archive`, replacing only the
`dispatch` field of an existing sidecar. -/
def update_subtask_archive_payload (planId : Str) (s : Subtask)
    (existing : Option JsonObj) (dispatchRec : Json) : JsonObj :=
  match existing with
  | some payload => setKey payload (str ("dispatch")) dispatchRec
  | none =>
      setKey (setKey (Subtask.to_dict s) (str ("planId")) (Json.string planId))
        (str ("dispatch")) dispatchRec

theorem lookupKey_map_replace {α : Type} (d : List (Str × α)) (k : Str) (v : α) (x : Str) :
    lookupKey (d.map (fun kv => if kv.1 = k then (k, v) else kv)) x =
      if x = k then ((d.find? (fun kv => kv.1 = k)).map (fun _ => v))
      else lookupKey d x := by
  induction d with
  | nil => by_cases hx : x = k <;> simp [lookupKey, hx]
  | cons a t ih =>
      by_cases hx : x = k
      · subst hx
        rw [if_pos rfl] at ih ⊢
        simp only [List.map_cons, lookupKey]
        by_cases ha : a.1 = x
        · rw [if_pos ha]
          rw [List.find?_cons_of_pos _ (by simp),
            List.find?_cons_of_pos _ (by simpa using ha)]
          simp
        · rw [if_neg ha]
          rw [List.find?_cons_of_neg _ (by simpa using ha),
            List.find?_cons_of_neg _ (by simpa using ha)]
          simpa [lookupKey] using ih
      · rw [if_neg hx] at ih ⊢
        simp only [List.map_cons, lookupKey]
        by_cases ha : a.1 = k
        · have hkx : ((k, v) : Str × α).1 ≠ x := fun h => hx h.symm
          have hax : a.1 ≠ x := fun h => hx (ha.symm.trans h).symm
          rw [if_pos ha]
          rw [List.find?_cons_of_neg _ (by simpa using hkx),
            List.find?_cons_of_neg _ (by simpa using hax)]
          simpa [lookupKey] using ih
        · rw [if_neg ha]
          by_cases hax : a.1 = x
          · rw [List.find?_cons_of_pos _ (by simpa using hax),
              List.find?_cons_of_pos _ (by simpa using hax)]
          · rw [List.find?_cons_of_neg _ (by simpa using hax),
              List.find?_cons_of_neg _ (by simpa using hax)]
            simpa [lookupKey] using ih

theorem lookupKey_setKey {α : Type} (d : List (Str × α)) (k : Str) (v : α) (x : Str) :
    lookupKey (setKey d k v) x = if x = k then some v else lookupKey d x := by
  unfold setKey
  by_cases hmem : (d.find? (fun kv => kv.1 = k)).isSome
  · rw [if_pos hmem, lookupKey_map_replace]
    by_cases hx : x = k
    · obtain ⟨kv, hkv⟩ := Option.isSome_iff_exists.mp hmem
      simp [hx, hkv]
    · simp [hx]
  · rw [if_neg hmem]
    simp only [lookupKey, List.find?_append]
    by_cases hx : x = k
    · subst hx
      have hnone : d.find? (fun kv => kv.1 = x) = none := by
        cases h : d.find? (fun kv => kv.1 = x) with
        | none => rfl
        | some kv => rw [h] at hmem; simp at hmem
      rw [hnone]
      simp
    · have hsing : List.find? (fun kv => decide (kv.1 = x)) [(k, v)] = none := by
        simp [Ne.symm hx]
      rw [hsing, Option.or_none, if_neg hx]

/-- C9.  Sidecar writes after the initial archive touch only `dispatch`:
`update_subtask_archive` on an existing sidecar changes the `dispatch`
key and no other key, and re-running `archive_subtasks` over an existing
sidecar keeps its current `dispatch` value (instead of resetting it to
the planned default, which is used only when no sidecar exists). -/
theorem claim_C9 :
    (∀ (payload : JsonObj) (planId : Str) (s : Subtask) (rec : Json) (k : Str),
      k ≠ str ("dispatch") →
      lookupKey (update_subtask_archive_payload planId s (some payload) rec) k
        = lookupKey payload k) ∧
    (∀ (payload : JsonObj) (planId : Str) (s : Subtask) (rec : Json),
      lookupKey (update_subtask_archive_payload planId s (some payload) rec)
        (str ("dispatch")) = some rec) ∧
    (∀ (planId : Str) (s : Subtask) (old : JsonObj) (v : Json),
      lookupKey old (str ("dispatch")) = some v →
      lookupKey (archive_subtask_payload planId s (some old)) (str ("dispatch"))
        = some v) ∧
    (∀ (planId : Str) (s : Subtask),
      lookupKey (archive_subtask_payload planId s none) (str ("dispatch"))
        = some plannedDispatch) := by
  refine ⟨?_, ?_, ?_, ?_⟩
  · intro payload planId s rec k hk
    unfold update_subtask_archive_payload
    rw [lookupKey_setKey, if_neg hk]
  · intro payload planId s rec
    unfold update_subtask_archive_payload
    rw [lookupKey_setKey, if_pos rfl]
  · intro planId s old v hv
    simp [archive_subtask_payload, lookupKey_setKey, hv]
  · intro planId s
    simp [archive_subtask_payload, lookupKey_setKey]

/-- Witness for C9: a concrete sidecar keeps its `title` key and its
queued `dispatch` record. -/
theorem claim_C9_witness :
    lookupKey (update_subtask_archive_payload (str ("plan-1")) demoSubtask1
        (some [(str ("title"), Json.string (str ("first"))),
               (str ("dispatch"), plannedDispatch)])
        (Json.obj [(str ("state"), Json.string (str ("queued")))]))
      (str ("title")) = some (Json.string (str ("first"))) :=
  (claim_C9.1 [(str ("title"), Json.string (str ("first"))),
               (str ("dispatch"), plannedDispatch)]
    (str ("plan-1")) demoSubtask1
    (Json.obj [(str ("state"), Json.string (str ("queued")))])
    (str ("title")) (by decide)).trans rfl

/-! ## zoe_tools.py -/

/-- Case-insensitive literal match of `w` against the front of `s`. -/
def ciMatches : Str → Str → Bool
  | [], _ => true
  | _ :: _, [] => false
  | c :: w, d :: s => (pyLowerChar d = pyLowerChar c) && ciMatches w s

/-- The pattern literal `w` matches (case-insensitively) at offset `i`. -/
def pyMatchCI (s w : Str) (i : Nat) : Bool := ciMatches w (s.drop i)

/-- `g` regex-dot characters (anything but a newline) from offset
`start`; a too-short remainder is caught by the following literal. -/
def dotRun (s : Str) (start g : Nat) : Bool :=
  ((s.drop start).take g).all (fun c => c ≠ '\n')

/-- `k` whitespace characters from offset `start`. -/
def spaceRun (s : Str) (start k : Nat) : Bool :=
  ((s.drop start).take k).all isPySpace

def RISK1_VERBS : List Str :=
  [str ("exfiltrate"), str ("dump"), str ("print"), str ("show"), str ("cat")]

def RISK1_OBJECTS : List Str :=
  [str ("secret"), str ("token"), str ("env"), str ("environment"),
   str ("ssh"), str ("credential")]

/-- `RISK_PATTERNS["secret_exfiltration"]`:
`(exfiltrate|dump|print|show|cat).{0,40}(secret|token|env|environment|ssh|credential)`
with `re.IGNORECASE`, as a `search` (match anywhere). -/
def risk_secret_exfiltration (s : Str) : Bool :=
  (List.range (s.length + 1)).any (fun i =>
    RISK1_VERBS.any (fun w =>
      pyMatchCI s w i &&
      (List.range 41).any (fun g =>
        dotRun s (i + w.length) g &&
        RISK1_OBJECTS.any (fun o => pyMatchCI s o (i + w.length + g)))))

/-- `RISK_PATTERNS["dangerous_command"]`:
`(rm\s+-rf|chmod\s+777|curl.+\|\s*sh|wget.+\|\s*sh)` with
`re.IGNORECASE`, as a `search`. -/
def risk_dangerous_command (s : Str) : Bool :=
  (List.range (s.length + 1)).any (fun i =>
    (pyMatchCI s (str ("rm")) i &&
      (List.range (s.length + 1)).any (fun k =>
        decide (1 ≤ k) && spaceRun s (i + 2) k &&
        pyMatchCI s (str ("-rf")) (i + 2 + k))) ||
    (pyMatchCI s (str ("chmod")) i &&
      (List.range (s.length + 1)).any (fun k =>
        decide (1 ≤ k) && spaceRun s (i + 5) k &&
        pyMatchCI s (str ("777")) (i + 5 + k))) ||
    (pyMatchCI s (str ("curl")) i &&
      (List.range (s.length + 1)).any (fun m =>
        decide (1 ≤ m) && dotRun s (i + 4) m &&
        pyMatchCI s (str ("|")) (i + 4 + m) &&
        (List.range (s.length + 1)).any (fun k =>
          spaceRun s (i + 5 + m) k &&
          pyMatchCI s (str ("sh")) (i + 5 + m + k)))) ||
    (pyMatchCI s (str ("wget")) i &&
      (List.range (s.length + 1)).any (fun m =>
        decide (1 ≤ m) && dotRun s (i + 4) m &&
        pyMatchCI s (str ("|")) (i + 4 + m) &&
        (List.range (s.length + 1)).any (fun k =>
          spaceRun s (i + 5 + m) k &&
          pyMatchCI s (str ("sh")) (i + 5 + m + k)))))

/-- `zoe_tools.detect_risk_flags`: names of matching patterns, in the
dict's insertion order. -/
def detect_risk_flags (objective : Str) : List Str :=
  (if risk_secret_exfiltration objective then [str ("secret_exfiltration")] else []) ++
  (if risk_dangerous_command objective then [str ("dangerous_command")] else [])

/-- `zoe_tools.validate_task_policy`.  The source receives a dict and
reads `objective or description or ""`; the only caller inside
`build_plan_request` passes the already-resolved objective. -/
def validate_task_policy (objective : Str) : Except Err (List Str) :=
  let flags := detect_risk_flags objective
  if flags.isEmpty then Except.ok flags
  else Except.error (Err.policyViolation
    (str ("Task blocked by planner policy: ") ++ joinSep (str (", ")) flags))

/-- The caller-facing task input (camelCase/snake_case aliases folded
into one optional field each, as the source reads them with `or`). -/
structure TaskInput where
  repo : Option Str
  title : Option Str
  objective : Option Str
  description : Option Str
  requested_at : Option Int
  requested_by : Option Str
  planId : Option Str
  agent : Option Str
  model : Option Str
  effort : Option Str
  constraints : JsonObj
  context : JsonObj
  includeFailureContext : Bool

/-- `str(task_input.get("objective") or task_input.get("description") or "").strip()`. -/
def resolved_objective (t : TaskInput) : Str :=
  pyStrip ((pyOrOpt t.objective t.description).getD [])

def intToStr (n : Int) : Str := (toString n).data

/-- Python `s.replace("/", "-")`. -/
def replaceSlash (s : Str) : Str := s.map (fun c => if c = '/' then '-' else c)

/-- `zoe_tools.generate_plan_id`. -/
def generate_plan_id (repo title : Str) (requested_at_ms : Int) : Str :=
  let timestamp := intToStr requested_at_ms
  let repo_part := sanitize_identifier (replaceSlash repo)
  let slug := (sanitize_identifier (pyLower title)).take 48
  sanitize_identifier (timestamp ++ str ("-") ++ repo_part ++ str ("-") ++ slug)

/-- Python `d.setdefault(k, v)` (as a value: the updated dict). -/
def setdefault (d : JsonObj) (k : Str) (v : Json) : JsonObj :=
  if (d.find? (fun kv => kv.1 = k)).isSome then d else d ++ [(k, v)]

def SCHEMA_VERSION : Str := str ("1.0")

def systemPolicyDefault : Json :=
  Json.obj [(str ("secretsAccess"), Json.string (str ("forbidden"))),
            (str ("dangerousCommands"), Json.string (str ("forbidden"))),
            (str ("networkUsage"), Json.string (str ("explicitly justify before use")))]

def systemCapabilitiesValue : Json :=
  Json.obj [(str ("agents"), Json.arr
      [Json.obj [(str ("name"), Json.string (str ("codex"))),
                 (str ("models"), Json.arr [Json.string (str ("gpt-5.3-codex"))])],
       Json.obj [(str ("name"), Json.string (str ("claude"))),
                 (str ("models"), Json.arr [Json.string (str ("claude-sonnet-4"))])]]),
     (str ("worktreeStrategies"), Json.arr
       [Json.string (str ("shared")), Json.string (str ("isolated"))])]

/-- `zoe_tools.build_plan_request`; `now_ms` stands for
`int(time.time() * 1000)`. -/
def build_plan_request (now_ms : Int) (t : TaskInput) : Except Err JsonObj := do
  let requested_at₀ : Int := t.requested_at.getD 0
  let requested_at : Int := if requested_at₀ ≤ 0 then now_ms else requested_at₀
  let requested_by : Str := pyOrStr t.requested_by (str ("unknown"))
  let repo : Str := pyStrip (t.repo.getD [])
  let title : Str := pyStrip (t.title.getD [])
  let objective : Str := resolved_objective t
  let () ← (if repo = [] ∨ title = [] ∨ objective = [] then
      Except.error (Err.invalidPlan
        (str ("Task input must include repo, title, and description/objective")))
    else Except.ok ())
  let plan_id : Str := pyOrStr t.planId (generate_plan_id repo title requested_at)
  let routing : JsonObj :=
    [(str ("agent"), Json.string (pyStrip (pyOrStr t.agent (str ("codex"))))),
     (str ("model"), Json.string (pyStrip (pyOrStr t.model (str ("gpt-5.3-codex"))))),
     (str ("effort"), Json.string (pyStrip (pyOrStr t.effort (str ("medium")))))]
  let constraints : JsonObj :=
    setdefault t.constraints (str ("systemPolicy")) systemPolicyDefault
  let risk_flags ← validate_task_policy objective
  let context : JsonObj :=
    setdefault t.context (str ("riskFlags")) (Json.arr (risk_flags.map Json.string))
  Except.ok
    [(str ("planId"), Json.string plan_id),
     (str ("repo"), Json.string repo),
     (str ("title"), Json.string title),
     (str ("requestedBy"), Json.string requested_by),
     (str ("requestedAt"), Json.int requested_at),
     (str ("objective"), Json.string objective),
     (str ("constraints"), Json.obj constraints),
     (str ("context"), Json.obj context),
     (str ("routing"), Json.obj routing),
     (str ("version"), Json.string SCHEMA_VERSION),
     (str ("systemCapabilities"), systemCapabilitiesValue),
     (str ("includeFailureContext"), Json.bool t.includeFailureContext)]

/-! ### Filesystem model for the tool layer

Only the two trees the claims mention are modelled: files under
`tasks/` and files under `orchestrator/queue/`, each as path-keyed JSON
contents. -/

structure FS where
  tasks : List (Str × Json)
  queue : List (Str × Json)

def fsRead (files : List (Str × Json)) (path : Str) : Option Json :=
  (files.find? (fun kv => kv.1 = path)).map (fun kv => kv.2)

def plan_file_path (p : Plan) : Str :=
  str ("tasks/") ++ p.plan_id ++ str ("/plan.json")

def sidecar_path (p : Plan) (s : Subtask) : Str :=
  str ("tasks/") ++ p.plan_id ++ str ("/subtasks/") ++ s.id ++ str (".json")

/-- `dispatch.archive_subtasks` over the `tasks/` tree. -/
def archive_subtasks_fs (p : Plan) (tasks : List (Str × Json)) :
    List (Str × Json) :=
  p.subtasks.foldl (fun acc s =>
    let existing := match fsRead acc (sidecar_path p s) with
      | some (Json.obj o) => some o
      | _ => none
    setKey acc (sidecar_path p s)
      (Json.obj (archive_subtask_payload p.plan_id s existing))) tasks

/-- `zoe_tools.save_plan`: write `plan.json`, then the sidecars. -/
def save_plan_fs (fs : FS) (p : Plan) : FS :=
  { fs with tasks :=
      archive_subtasks_fs p (setKey fs.tasks (plan_file_path p) (Json.obj p.to_dict)) }

/-- `zoe_tools.plan_task` with the planner engine abstracted: the source
engine (`ZoePlannerEngine.plan`) only reads the repository tree and
performs no writes, so it is passed as a pure function of the request
and the filesystem snapshot. -/
def plan_task (engine : JsonObj → FS → Except Err Plan) (now_ms : Int)
    (fs : FS) (t : TaskInput) : Except Err Plan × FS :=
  match build_plan_request now_ms t with
  | Except.error e => (Except.error e, fs)
  | Except.ok req =>
      match engine req fs with
      | Except.error e => (Except.error e, fs)
      | Except.ok plan => (Except.ok plan, save_plan_fs fs plan)

theorem validate_ok_flags (objective : Str) (flags : List Str)
    (h : validate_task_policy objective = Except.ok flags) :
    flags = detect_risk_flags objective := by
  unfold validate_task_policy at h
  by_cases he : (detect_risk_flags objective).isEmpty
  · rw [if_pos he] at h
    exact (Except.ok.injEq _ _ ▸ h).symm
  · rw [if_neg he] at h
    simp at h

/-- C5.  `validate_task_policy` fails (with a `PolicyViolation` naming
the triggered categories) exactly when the objective matches a risk
pattern; otherwise `detect_risk_flags` is empty and `build_plan_request`
attaches it as `context.riskFlags` (when the caller did not already set
that key); and each pattern has a literal trigger phrase. -/
theorem claim_C5 :
    (∀ objective : Str,
      ((∃ e, validate_task_policy objective = Except.error e) ↔
        (risk_secret_exfiltration objective = true ∨
         risk_dangerous_command objective = true)) ∧
      (risk_secret_exfiltration objective = false →
       risk_dangerous_command objective = false →
       detect_risk_flags objective = [])) ∧
    (∀ (now_ms : Int) (t : TaskInput) (req : JsonObj),
      build_plan_request now_ms t = Except.ok req →
      lookupKey t.context (str ("riskFlags")) = none →
      pyGet req (str ("context")) = Json.obj (t.context ++
        [(str ("riskFlags"),
          Json.arr ((detect_risk_flags (resolved_objective t)).map Json.string))])) ∧
    risk_secret_exfiltration (str ("please dump the database secret tokens")) = true ∧
    risk_dangerous_command (str ("rm -rf build")) = true := by
  refine ⟨?_, ?_, by decide, by decide⟩
  · intro objective
    constructor
    · constructor
      · rintro ⟨e, he⟩
        unfold validate_task_policy at he
        by_cases hemp : (detect_risk_flags objective).isEmpty
        · rw [if_pos hemp] at he; simp at he
        · unfold detect_risk_flags at hemp
          by_cases h1 : risk_secret_exfiltration objective
          · exact Or.inl h1
          · by_cases h2 : risk_dangerous_command objective
            · exact Or.inr h2
            · simp [h1, h2] at hemp
      · intro h
        unfold validate_task_policy
        have hne : (detect_risk_flags objective).isEmpty = false := by
          unfold detect_risk_flags
          rcases h with h | h <;> simp [h]
        rw [if_neg (by simp [hne])]
        exact ⟨_, rfl⟩
    · intro h1 h2
      unfold detect_risk_flags
      simp [h1, h2]
  · intro now_ms t req hok hkey
    simp only [build_plan_request] at hok
    obtain ⟨u, hguard, hok⟩ := except_bind_ok hok
    obtain ⟨flags, hflags, hok⟩ := except_bind_ok hok
    have hreq := (Except.ok.injEq _ _ ▸ hok)
    subst hreq
    have hflags' := validate_ok_flags _ _ hflags
    subst hflags'
    have hsd : setdefault t.context (str ("riskFlags"))
        (Json.arr ((detect_risk_flags (resolved_objective t)).map Json.string))
        = t.context ++ [(str ("riskFlags"),
            Json.arr ((detect_risk_flags (resolved_objective t)).map Json.string))] := by
      unfold setdefault
      rw [if_neg]
      intro hsome
      obtain ⟨kv, hkv⟩ := Option.isSome_iff_exists.mp hsome
      unfold lookupKey at hkey
      rw [hkv] at hkey
      simp at hkey
    rw [← hsd]
    rfl

/-- Witness for C5: a harmless objective yields no flags, and a request
built from it carries `riskFlags: []`. -/
theorem claim_C5_witness :
    detect_risk_flags (str ("improve the landing page copy")) = [] ∧
    risk_secret_exfiltration (str ("please dump the database secret tokens")) = true :=
  ⟨(claim_C5.1 (str ("improve the landing page copy"))).2 (by decide) (by decide),
   claim_C5.2.2.1⟩

/-- Task input triggering the policy filter. -/
def policyTask : TaskInput :=
  { repo := some (str ("repo1")), title := some (str ("Title")),
    objective := some (str ("please dump the database secret tokens")),
    description := none, requested_at := some 1,
    requested_by := some (str ("alice")), planId := some (str ("p1")),
    agent := none, model := none, effort := none,
    constraints := [], context := [], includeFailureContext := false }

/-- Task input missing its repo. -/
def missingRepoTask : TaskInput :=
  { repo := none, title := some (str ("Title")),
    objective := some (str ("do something")),
    description := none, requested_at := some 1,
    requested_by := some (str ("alice")), planId := some (str ("p1")),
    agent := none, model := none, effort := none,
    constraints := [], context := [], includeFailureContext := false }

/-- C6.  `plan_task` fails before any write: whenever it returns an
error (in particular a `PolicyViolation` for the risk-matching objective,
or an `InvalidPlan` for a task input without repo/title/objective), the
filesystem state — the `tasks/` and `orchestrator/queue/` trees — is
returned unchanged. -/
theorem claim_C6 :
    (∀ (engine : JsonObj → FS → Except Err Plan) (now_ms : Int) (fs : FS)
        (t : TaskInput) (e : Err),
      (plan_task engine now_ms fs t).1 = Except.error e →
      (plan_task engine now_ms fs t).2 = fs) ∧
    (∀ (engine : JsonObj → FS → Except Err Plan) (now_ms : Int) (fs : FS),
      (∃ msg, (plan_task engine now_ms fs policyTask).1
        = Except.error (Err.policyViolation msg)) ∧
      (plan_task engine now_ms fs policyTask).2 = fs) ∧
    (∀ (engine : JsonObj → FS → Except Err Plan) (now_ms : Int) (fs : FS),
      (∃ msg, (plan_task engine now_ms fs missingRepoTask).1
        = Except.error (Err.invalidPlan msg)) ∧
      (plan_task engine now_ms fs missingRepoTask).2 = fs) := by
  refine ⟨?_, ?_, ?_⟩
  · intro engine now_ms fs t e herr
    unfold plan_task at herr ⊢
    cases hb : build_plan_request now_ms t with
    | error eb => simp [hb]
    | ok req =>
        cases hp : engine req fs with
        | error ep => simp [hb, hp]
        | ok plan =>
            rw [hb] at herr
            simp only [] at herr
            rw [hp] at herr
            simp at herr
  · intro engine now_ms fs
    exact ⟨⟨_, rfl⟩, rfl⟩
  · intro engine now_ms fs
    exact ⟨⟨_, rfl⟩, rfl⟩

/-- Witness for C6: a failing engine leaves a concrete filesystem
untouched. -/
theorem claim_C6_witness :
    (plan_task (fun _ _ => Except.error (Err.plannerError []))
      0 { tasks := [], queue := [] } policyTask).2
      = { tasks := [], queue := [] } :=
  claim_C6.1 (fun _ _ => Except.error (Err.plannerError [])) 0
    { tasks := [], queue := [] } policyTask _ rfl

/-! ## planner_engine.py: task profile -/

def CODE_CHANGE_TERMS : List Str :=
  [str ("implement"), str ("fix"), str ("build"), str ("create"),
   str ("add"), str ("update"), str ("refactor"), str ("migrate"),
   str ("wire"), str ("integrate"), str ("repair"), str ("ship"),
   str ("support"), str ("修复"), str ("实现"), str ("新增"), str ("重构")]

def FOUNDATION_SPLIT_TERMS : List Str :=
  [str ("refactor"), str ("migrate"), str ("extract"), str ("restructure"),
   str ("integrate"), str ("wire"), str ("multi-step"),
   str ("重构"), str ("迁移"), str ("拆分")]

def DOC_ACTION_TERMS : List Str :=
  [str ("document"), str ("documenter"), str ("write docs"),
   str ("update docs"), str ("update documentation"), str ("add docs"),
   str ("refresh readme"), str ("readme"), str ("changelog"),
   str ("guide"), str ("manual"), str ("更新文档"), str ("补充文档"),
   str ("完善文档"), str ("撰写文档"), str ("文档更新"), str ("说明文档"),
   str ("操作手册")]

def ANALYSIS_TERMS : List Str :=
  [str ("investigate"), str ("analyze"), str ("audit"), str ("review"),
   str ("triage"), str ("inspect"), str ("understand"), str ("progress"),
   str ("status"), str ("read"), str ("current state"), str ("confirm"),
   str ("survey"), str ("assess"), str ("inventory"), str ("分析"),
   str ("审查"), str ("排查"), str ("进度"), str ("阅读"), str ("确认"),
   str ("现状"), str ("调研"), str ("盘点")]

/-- `planner_engine._contains_any`. -/
def contains_any (text : Str) (terms : List Str) : Bool :=
  let lowered := pyLower text
  terms.any (fun term => isSubstring term lowered)

def pyStartswith (s pre : Str) : Bool := pre.isPrefixOf s

def pyEndswith (s suf : Str) : Bool := suf.isSuffixOf s

/-- `planner_engine._partition_files`: implementation / test / doc. -/
def partition_files (files_hint : List Str) : List Str × List Str × List Str :=
  files_hint.foldr (fun item (acc : List Str × List Str × List Str) =>
    let lowered := pyLower item
    if isSubstring (str ("tests/")) lowered ∨ pyStartswith lowered (str ("tests"))
        ∨ isSubstring (str ("test_")) lowered ∨ pyEndswith lowered (str ("_test.py"))
        ∨ isSubstring (str ("/spec")) lowered ∨ isSubstring (str ("__tests__")) lowered then
      (acc.1, item :: acc.2.1, acc.2.2)
    else if lowered = str ("readme.md") ∨ pyStartswith lowered (str ("docs/"))
        ∨ pyEndswith lowered (str (".md")) ∨ isSubstring (str ("changelog")) lowered then
      (acc.1, acc.2.1, item :: acc.2.2)
    else
      (item :: acc.1, acc.2.1, acc.2.2)) ([], [], [])

def CONJUNCTION_MARKERS : List Str :=
  [str (" and "), str (" then "), str (" also "), str (" plus "),
   str ("以及"), str ("并且")]

structure TaskProfile where
  files_hint : List Str
  implementation_files : List Str
  test_files : List Str
  doc_files : List Str
  docs_requested : Bool
  tests_requested : Bool
  docs_only : Bool
  analysis_only : Bool
  requires_foundation_split : Bool

/-- `planner_engine._build_task_profile`. -/
def build_task_profile (title objective : Str) (files_hint : List Str)
    (has_explicit_files_hint : Bool) (constraints : JsonObj) : TaskProfile :=
  let combined := title ++ str ("\n") ++ objective
  let parts := partition_files files_hint
  let impl_files := parts.1
  let test_files := parts.2.1
  let doc_files := parts.2.2
  let docs_requested := contains_any combined DOC_ACTION_TERMS
    || (has_explicit_files_hint && !doc_files.isEmpty)
  let code_requested := contains_any combined CODE_CHANGE_TERMS
    || (has_explicit_files_hint && !impl_files.isEmpty)
  let analysis_requested := contains_any combined ANALYSIS_TERMS
  let docs_only := docs_requested && !analysis_requested && !code_requested
    && test_files.isEmpty
  let analysis_only := analysis_requested && !code_requested && !docs_requested
  let complexity_score : Nat :=
    (if objective.length ≥ 140 then 1 else 0) +
    (if files_hint.length ≥ 3 then 1 else 0) +
    (if !constraints.isEmpty then 1 else 0) +
    (if contains_any combined FOUNDATION_SPLIT_TERMS then 1 else 0) +
    (if CONJUNCTION_MARKERS.any (fun token => isSubstring token (pyLower combined))
      then 1 else 0)
  let tests_requested := !docs_only && !analysis_only
  let requires_foundation_split := !docs_only && !analysis_only
    && (decide (complexity_score ≥ 3) || contains_any combined FOUNDATION_SPLIT_TERMS)
  { files_hint := files_hint, implementation_files := impl_files,
    test_files := test_files, doc_files := doc_files,
    docs_requested := docs_requested, tests_requested := tests_requested,
    docs_only := docs_only, analysis_only := analysis_only,
    requires_foundation_split := requires_foundation_split }

/-- Transcribed from the claim's wording: the complexity score adds 1
for each of objective length ≥ 140, ≥ 3 hinted files, non-empty
constraints, a structural verb, and a conjunction marker from the
claim's five-marker list (` and `, ` then `, ` also `, `以及`, `并且`). -/
def complexityScoreClaimSpec (title objective : Str) (files_hint : List Str)
    (constraints : JsonObj) : Nat :=
  (if objective.length ≥ 140 then 1 else 0) +
  (if files_hint.length ≥ 3 then 1 else 0) +
  (if !constraints.isEmpty then 1 else 0) +
  (if contains_any (title ++ str ("\n") ++ objective) FOUNDATION_SPLIT_TERMS
    then 1 else 0) +
  (if [str (" and "), str (" then "), str (" also "), str ("以及"), str ("并且")].any
      (fun token => isSubstring token (pyLower (title ++ str ("\n") ++ objective)))
    then 1 else 0)

/-- The amended score: identical except the conjunction-marker list also
holds ` plus `, as the source's inline tuple does. -/
def complexityScoreAmended (title objective : Str) (files_hint : List Str)
    (constraints : JsonObj) : Nat :=
  (if objective.length ≥ 140 then 1 else 0) +
  (if files_hint.length ≥ 3 then 1 else 0) +
  (if !constraints.isEmpty then 1 else 0) +
  (if contains_any (title ++ str ("\n") ++ objective) FOUNDATION_SPLIT_TERMS
    then 1 else 0) +
  (if CONJUNCTION_MARKERS.any
      (fun token => isSubstring token (pyLower (title ++ str ("\n") ++ objective)))
    then 1 else 0)

/-- C7 counterexample: a bare "refactor stuff" objective is neither
docs-only nor analysis-only and scores 1 < 3 on the claim's score, yet
the source sets `requiresFoundationSplit` because the text matches a
structural verb. -/
theorem claim_C7_counterexample :
    (build_task_profile (str ("t")) (str ("refactor stuff")) [] false
      []).requires_foundation_split = true ∧
    (build_task_profile (str ("t")) (str ("refactor stuff")) [] false
      []).docs_only = false ∧
    (build_task_profile (str ("t")) (str ("refactor stuff")) [] false
      []).analysis_only = false ∧
    complexityScoreClaimSpec (str ("t")) (str ("refactor stuff")) [] [] < 3 := by
  refine ⟨by decide, by decide, by decide, by decide⟩

/-- C7 (amended).  `requiresFoundationSplit` holds iff the request is
neither docs-only nor analysis-only AND (the complexity score is at
least 3 OR the text matches a structural verb), where the score's
conjunction-marker component also counts ` plus `. -/
theorem claim_C7 (title objective : Str) (files_hint : List Str)
    (has_explicit_files_hint : Bool) (constraints : JsonObj) :
    (build_task_profile title objective files_hint has_explicit_files_hint
      constraints).requires_foundation_split = true ↔
      ((build_task_profile title objective files_hint has_explicit_files_hint
          constraints).docs_only = false ∧
       (build_task_profile title objective files_hint has_explicit_files_hint
          constraints).analysis_only = false ∧
       (3 ≤ complexityScoreAmended title objective files_hint constraints ∨
        contains_any (title ++ str ("\n") ++ objective)
          FOUNDATION_SPLIT_TERMS = true)) := by
  unfold build_task_profile complexityScoreAmended
  simp only [Bool.and_eq_true, Bool.or_eq_true, Bool.not_eq_true',
    decide_eq_true_eq]
  constructor
  · rintro ⟨⟨hd, ha⟩, hs⟩
    exact ⟨hd, ha, hs⟩
  · rintro ⟨hd, ha, hs⟩
    exact ⟨⟨hd, ha⟩, hs⟩

/-- Witness for C7, at the no-hint "refactor stuff" request. -/
theorem claim_C7_witness :
    (build_task_profile (str ("t")) (str ("refactor stuff")) [] false
      []).requires_foundation_split = true :=
  (claim_C7 (str ("t")) (str ("refactor stuff")) [] false []).mpr
    ⟨by decide, by decide, Or.inr (by decide)⟩

/-! ## dispatch.py: ready-frontier dispatch -/

/-- One active-task registry entry, restricted to the keys
`dispatch_ready_subtasks` reads (`status`, `metadata.planId`,
`metadata.subtaskId`); a non-dict `metadata` or non-string value behaves
like an absent one and is modelled as `none`. -/
structure RegistryItem where
  status : Option Str
  metadataPlanId : Option Str
  metadataSubtaskId : Option Str

/-- `dispatch.ready_subtask_ids` (a set in the source; only membership
is consumed). -/
def ready_subtask_ids (plan_id : Str) (items : List RegistryItem) : List Str :=
  items.filterMap (fun item =>
    if item.metadataPlanId = some plan_id ∧ item.status = some (str ("ready")) then
      item.metadataSubtaskId
    else none)

/-- `dispatch.execution_task_id`. -/
def execution_task_id (plan_id subtask_id : Str) : Str :=
  sanitize_identifier (plan_id ++ str ("-") ++ subtask_id)

/-- The mutable `DispatchState.dispatched` record for one subtask. -/
structure DispatchRecord where
  state : Str
  queuedTaskId : Option Str
  queuedAt : Option Int
deriving DecidableEq

/-- `dispatched.get(subtask.id, {}).get("state") == "queued"`. -/
def dispatch_state_is_queued (d : List (Str × DispatchRecord)) (id : Str) : Bool :=
  match lookupKey d id with
  | some r => decide (r.state = str ("queued"))
  | none => false

/-- Loop body of `dispatch_ready_subtasks` over
`(queued_paths, dispatched)`; queue paths are identified by the task id
(the file is `queue/<taskId>.json`). -/
def dispatchStep (plan_id : Str) (completed : List Str) (now : Int)
    (acc : List Str × List (Str × DispatchRecord)) (s : Subtask) :
    List Str × List (Str × DispatchRecord) :=
  if dispatch_state_is_queued acc.2 s.id then acc
  else if s.depends_on.all (fun dep => decide (dep ∈ completed)) then
    (acc.1 ++ [execution_task_id plan_id s.id],
     setKey acc.2 s.id
       { state := str ("queued"),
         queuedTaskId := some (execution_task_id plan_id s.id),
         queuedAt := some now })
  else acc

/-- `dispatch.dispatch_ready_subtasks`, with the on-disk state passed
and returned explicitly: the loaded `dispatched` map comes in, the saved
one goes out along with the list of newly queued queue paths.  The
queue-file and sidecar write payloads are modelled separately. -/
def dispatch_ready_subtasks (plan : Plan) (registry_items : List RegistryItem)
    (dispatched0 : List (Str × DispatchRecord)) (now : Int) :
    Except Err (List Str × List (Str × DispatchRecord)) := do
  let completed := ready_subtask_ids plan.plan_id registry_items
  let sorted ← topologically_sorted_subtasks plan.subtasks
  Except.ok (sorted.foldl (dispatchStep plan.plan_id completed now) ([], dispatched0))

/-- The queueing condition of the claim, decided against the initial
dispatch state. -/
def dispatchCond (completed : List Str) (dispatched0 : List (Str × DispatchRecord))
    (s : Subtask) : Bool :=
  !dispatch_state_is_queued dispatched0 s.id &&
    s.depends_on.all (fun dep => decide (dep ∈ completed))

def queuedRecord (plan_id : Str) (now : Int) (s : Subtask) : DispatchRecord :=
  { state := str ("queued"),
    queuedTaskId := some (execution_task_id plan_id s.id),
    queuedAt := some now }

def queuedRecordId (plan_id : Str) (now : Int) (x : Str) : DispatchRecord :=
  { state := str ("queued"),
    queuedTaskId := some (execution_task_id plan_id x),
    queuedAt := some now }

theorem dispatchFold_spec (plan_id : Str) (completed : List Str) (now : Int)
    (dispatched0 : List (Str × DispatchRecord)) :
    ∀ (l : List Subtask) (acc : List Str × List (Str × DispatchRecord)),
      (planIds l).Nodup →
      (∀ s ∈ l, lookupKey acc.2 s.id = lookupKey dispatched0 s.id) →
      (l.foldl (dispatchStep plan_id completed now) acc).1
        = acc.1 ++ (l.filter (dispatchCond completed dispatched0)).map
            (fun s => execution_task_id plan_id s.id) ∧
      (∀ x, (∃ s ∈ l, s.id = x ∧ dispatchCond completed dispatched0 s = true) →
        lookupKey (l.foldl (dispatchStep plan_id completed now) acc).2 x
          = some (queuedRecordId plan_id now x)) ∧
      (∀ x, (¬ ∃ s ∈ l, s.id = x ∧ dispatchCond completed dispatched0 s = true) →
        lookupKey (l.foldl (dispatchStep plan_id completed now) acc).2 x
          = lookupKey acc.2 x) := by
  intro l
  induction l with
  | nil =>
      intro acc _ _
      refine ⟨by simp, ?_, ?_⟩
      · intro x hx
        simp at hx
      · intro x _
        simp
  | cons s t ih =>
      intro acc hnd h0
      have hnd' := hnd
      simp only [planIds, List.map_cons, List.nodup_cons] at hnd'
      obtain ⟨hs_notin, hnd_t⟩ := hnd'
      have hlook : lookupKey acc.2 s.id = lookupKey dispatched0 s.id :=
        h0 s (List.mem_cons_self _ _)
      have hqeq : dispatch_state_is_queued acc.2 s.id
          = dispatch_state_is_queued dispatched0 s.id := by
        unfold dispatch_state_is_queued
        rw [hlook]
      -- the step either queues `s` (when the claim's condition holds) or
      -- leaves the accumulator unchanged
      have hstep : List.foldl (dispatchStep plan_id completed now) acc (s :: t)
          = List.foldl (dispatchStep plan_id completed now)
              (if dispatchCond completed dispatched0 s then
                (acc.1 ++ [execution_task_id plan_id s.id],
                 setKey acc.2 s.id (queuedRecordId plan_id now s.id))
               else acc) t := by
        simp only [List.foldl_cons]
        congr 1
        unfold dispatchStep dispatchCond
        rw [hqeq]
        by_cases hq : dispatch_state_is_queued dispatched0 s.id
        · simp [hq]
        · by_cases hd : s.depends_on.all (fun dep => decide (dep ∈ completed))
          · simp [hq, hd, queuedRecordId]
          · simp [hq, hd]
      by_cases hc : dispatchCond completed dispatched0 s = true
      · rw [hstep, if_pos hc]
        have h0' : ∀ s' ∈ t,
            lookupKey (setKey acc.2 s.id (queuedRecordId plan_id now s.id)) s'.id
              = lookupKey dispatched0 s'.id := by
          intro s' hs'
          rw [lookupKey_setKey]
          have hne : s'.id ≠ s.id := by
            intro he
            exact hs_notin (List.mem_map.mpr ⟨s', hs', he⟩)
          rw [if_neg hne]
          exact h0 s' (List.mem_cons_of_mem _ hs')
        obtain ⟨ih1, ih2, ih3⟩ :=
          ih (acc.1 ++ [execution_task_id plan_id s.id],
              setKey acc.2 s.id (queuedRecordId plan_id now s.id)) hnd_t h0'
        refine ⟨?_, ?_, ?_⟩
        · rw [ih1]
          simp [List.filter_cons, hc]
        · intro x hx
          rcases hx with ⟨s', hs', hid, hcond⟩
          rcases List.mem_cons.mp hs' with rfl | hs'
          · have hnone : ¬ ∃ s'' ∈ t, s''.id = x ∧
                dispatchCond completed dispatched0 s'' = true := by
              rintro ⟨s'', hs'', hid'', _⟩
              exact hs_notin (List.mem_map.mpr ⟨s'', hs'', hid''.trans hid.symm⟩)
            rw [ih3 x hnone, lookupKey_setKey, if_pos hid.symm, hid]
          · exact ih2 x ⟨s', hs', hid, hcond⟩
        · intro x hx
          have hxt : ¬ ∃ s' ∈ t, s'.id = x ∧
              dispatchCond completed dispatched0 s' = true := by
            rintro ⟨s', hs', hid, hcond⟩
            exact hx ⟨s', List.mem_cons_of_mem _ hs', hid, hcond⟩
          rw [ih3 x hxt, lookupKey_setKey]
          have hne : x ≠ s.id := by
            intro he
            exact hx ⟨s, List.mem_cons_self _ _, he.symm, hc⟩
          rw [if_neg hne]
      · rw [hstep, if_neg hc]
        obtain ⟨ih1, ih2, ih3⟩ := ih _ hnd_t
          (fun s' hs' => h0 s' (List.mem_cons_of_mem _ hs'))
        refine ⟨?_, ?_, ?_⟩
        · rw [ih1]
          simp [List.filter_cons, hc]
        · intro x hx
          rcases hx with ⟨s', hs', hid, hcond⟩
          rcases List.mem_cons.mp hs' with rfl | hs'
          · rw [hcond] at hc
            exact absurd rfl hc
          · exact ih2 x ⟨s', hs', hid, hcond⟩
        · intro x hx
          apply ih3 x
          rintro ⟨s', hs', hid, hcond⟩
          exact hx ⟨s', List.mem_cons_of_mem _ hs', hid, hcond⟩

theorem foldl_fixed {β : Type} (f : (List Str × β) → Subtask → (List Str × β)) :
    ∀ (l : List Subtask) (acc : List Str × β),
      (∀ s ∈ l, f acc s = acc) → l.foldl f acc = acc := by
  intro l
  induction l with
  | nil => intro acc _; rfl
  | cons s t ih =>
      intro acc h
      simp only [List.foldl_cons, h s (List.mem_cons_self _ _)]
      exact ih acc (fun s' hs' => h s' (List.mem_cons_of_mem _ hs'))

/-- **C2.** For any plan accepted by `Plan.from_dict` and any registry
state, `dispatch_ready_subtasks` queues exactly the subtasks whose
`dispatched` entry does not already have state `"queued"` and whose every
`dependsOn` id is in the completed set (`ready_subtask_ids`: ids of
registry entries with status `"ready"` and matching `metadata.planId`):
the queued-path list enumerates precisely those subtasks (in topological
order) and their dispatch records become `queued`, all other records kept;
re-invoking with the resulting state and no new completions queues
nothing (idempotence). -/
theorem claim_C2 (data : JsonObj) (P : Plan)
    (hacc : Plan.from_dict data = Except.ok P)
    (registry : List RegistryItem) (dispatched0 : List (Str × DispatchRecord))
    (now now' : Int) :
    ∃ sorted queued dispatched1,
      topologically_sorted_subtasks P.subtasks = Except.ok sorted ∧
      sorted.Perm P.subtasks ∧
      dispatch_ready_subtasks P registry dispatched0 now
        = Except.ok (queued, dispatched1) ∧
      queued = (sorted.filter
          (dispatchCond (ready_subtask_ids P.plan_id registry) dispatched0)).map
            (fun s => execution_task_id P.plan_id s.id) ∧
      (∀ s ∈ P.subtasks,
        (dispatchCond (ready_subtask_ids P.plan_id registry) dispatched0 s = true →
          lookupKey dispatched1 s.id = some (queuedRecordId P.plan_id now s.id)) ∧
        (dispatchCond (ready_subtask_ids P.plan_id registry) dispatched0 s = false →
          lookupKey dispatched1 s.id = lookupKey dispatched0 s.id)) ∧
      dispatch_ready_subtasks P registry dispatched1 now' = Except.ok ([], dispatched1) := by
  have hval := from_dict_ok_validate data P hacc
  have hnd : (planIds P.subtasks).Nodup :=
    ((validate_ok_iff P.subtasks).mp hval).1
  obtain ⟨l, hl, hperm, _⟩ := topologically_sorted_ok P.subtasks hval
  have hndl : (planIds l).Nodup := by
    have hpm : (planIds P.subtasks).Perm (planIds l) := (hperm.map _).symm
    exact hpm.nodup hnd
  have hinj : ∀ x ∈ l, ∀ y ∈ l, x.id = y.id → x = y := by
    have := List.inj_on_of_nodup_map (f := fun (s : Subtask) => s.id) hndl
    intro x hx y hy hxy
    exact this hx hy hxy
  obtain ⟨hout, hset, hunset⟩ :=
    dispatchFold_spec P.plan_id (ready_subtask_ids P.plan_id registry) now
      dispatched0 l ([], dispatched0) hndl (fun _ _ => rfl)
  refine ⟨l,
    (l.foldl (dispatchStep P.plan_id (ready_subtask_ids P.plan_id registry) now)
      ([], dispatched0)).1,
    (l.foldl (dispatchStep P.plan_id (ready_subtask_ids P.plan_id registry) now)
      ([], dispatched0)).2,
    hl, hperm, ?_, by simpa using hout, ?_, ?_⟩
  · simp only [dispatch_ready_subtasks, hl]
    rfl
  · intro s hs
    have hsl : s ∈ l := hperm.mem_iff.mpr hs
    constructor
    · intro hc
      exact hset s.id ⟨s, hsl, rfl, hc⟩
    · intro hc
      apply hunset s.id
      rintro ⟨s', hs', hid, hcond⟩
      have : s' = s := hinj s' hs' s hsl hid
      rw [this, hc] at hcond
      exact absurd hcond (by simp)
  · simp only [dispatch_ready_subtasks, hl]
    have hfix :
        l.foldl (dispatchStep P.plan_id (ready_subtask_ids P.plan_id registry) now')
          ([], (l.foldl (dispatchStep P.plan_id (ready_subtask_ids P.plan_id registry) now)
            ([], dispatched0)).2)
        = ([], (l.foldl (dispatchStep P.plan_id (ready_subtask_ids P.plan_id registry) now)
            ([], dispatched0)).2) := by
      apply foldl_fixed
      intro s hs
      by_cases hc :
          dispatchCond (ready_subtask_ids P.plan_id registry) dispatched0 s = true
      · have hl1 := hset s.id ⟨s, hs, rfl, hc⟩
        have hq : dispatch_state_is_queued
            (l.foldl (dispatchStep P.plan_id (ready_subtask_ids P.plan_id registry) now)
              ([], dispatched0)).2 s.id = true := by
          unfold dispatch_state_is_queued
          rw [hl1]
          simp [queuedRecordId]
        simp [dispatchStep, hq]
      · have hno : ¬ ∃ s' ∈ l, s'.id = s.id ∧
            dispatchCond (ready_subtask_ids P.plan_id registry) dispatched0 s' = true := by
          rintro ⟨s', hs', hid, hcond⟩
          have : s' = s := hinj s' hs' s hs hid
          rw [this] at hcond
          exact hc hcond
        have hl0 := hunset s.id hno
        have hq : dispatch_state_is_queued
            (l.foldl (dispatchStep P.plan_id (ready_subtask_ids P.plan_id registry) now)
              ([], dispatched0)).2 s.id
            = dispatch_state_is_queued dispatched0 s.id := by
          unfold dispatch_state_is_queued
          rw [hl0]
        by_cases hq0 : dispatch_state_is_queued dispatched0 s.id = true
        · simp [dispatchStep, hq, hq0]
        · have ha : s.depends_on.all
              (fun dep => decide (dep ∈ ready_subtask_ids P.plan_id registry)) = false := by
            by_contra hav
            rw [Bool.not_eq_false] at hav
            apply hc
            have hq0' : dispatch_state_is_queued dispatched0 s.id = false :=
              Bool.eq_false_iff.mpr hq0
            unfold dispatchCond
            rw [hq0', hav]
            rfl
          simp [dispatchStep, hq, hq0, ha]
    exact congrArg Except.ok hfix

def demoRegistry : List RegistryItem :=
  [{ status := some (str ("ready")),
     metadataPlanId := some (str ("plan-1")),
     metadataSubtaskId := some (str ("S1")) }]

/-- Witness for C2 at the concrete two-subtask plan, with `S1` already
completed in the registry and an empty dispatch state. -/
theorem claim_C2_witness :
    Plan.from_dict demoPlanPayload = Except.ok demoPlan ∧
    ∃ sorted queued dispatched1,
      topologically_sorted_subtasks demoPlan.subtasks = Except.ok sorted ∧
      sorted.Perm demoPlan.subtasks ∧
      dispatch_ready_subtasks demoPlan demoRegistry [] 5
        = Except.ok (queued, dispatched1) ∧
      queued = (sorted.filter
          (dispatchCond (ready_subtask_ids demoPlan.plan_id demoRegistry) [])).map
            (fun s => execution_task_id demoPlan.plan_id s.id) ∧
      (∀ s ∈ demoPlan.subtasks,
        (dispatchCond (ready_subtask_ids demoPlan.plan_id demoRegistry) [] s = true →
          lookupKey dispatched1 s.id = some (queuedRecordId demoPlan.plan_id 5 s.id)) ∧
        (dispatchCond (ready_subtask_ids demoPlan.plan_id demoRegistry) [] s = false →
          lookupKey dispatched1 s.id = lookupKey ([] : List (Str × DispatchRecord)) s.id)) ∧
      dispatch_ready_subtasks demoPlan demoRegistry dispatched1 6
        = Except.ok ([], dispatched1) :=
  ⟨rfl, claim_C2 demoPlanPayload demoPlan rfl demoRegistry [] 5 6⟩

/-! ### C4: the acceptance conditions of `Plan.from_dict`, in the spec's terms

Each parsing helper is characterized by a predicate phrased from the
spec's rejection list ("required string is absent or blank", ...), and
`Plan.from_dict` is then proved to accept exactly the payloads passing
all of them.  The value extracted in the acceptance region is given by a
spec-side reading (`specStr`, `specOpt`, ...).
-/

theorem ok_bind {α β : Type} (a : α) (f : α → Except Err β) :
    (Except.ok a >>= f) = f a := rfl

/-- Spec: the required string field `key` is present, a string, and
non-blank. -/
def specRequiredString (data : JsonObj) (key : Str) : Prop :=
  ∃ v, pyGet data key = Json.string v ∧ pyStrip v ≠ []

/-- Spec: the optional string field `key` is absent, or a non-blank
string. -/
def specOptionalString (data : JsonObj) (key : Str) : Prop :=
  pyGet data key = Json.null ∨ ∃ v, pyGet data key = Json.string v ∧ pyStrip v ≠ []

/-- Spec: the optional object field `key` is absent or an object. -/
def specOptionalDict (data : JsonObj) (key : Str) : Prop :=
  pyGet data key = Json.null ∨ ∃ o, pyGet data key = Json.obj o

/-- Spec: the optional string-array field `key` is absent or an array of
non-blank strings. -/
def specOptionalStringList (data : JsonObj) (key : Str) : Prop :=
  pyGet data key = Json.null ∨
    ∃ items, pyGet data key = Json.arr items ∧
      ∀ j ∈ items, ∃ s, j = Json.string s ∧ pyStrip s ≠ []

/-- The stripped value of a string field (defaulting outside the
acceptance region). -/
def specStr (data : JsonObj) (key : Str) : Str :=
  match pyGet data key with
  | Json.string v => pyStrip v
  | _ => []

/-- The stripped value of an optional string field. -/
def specOpt (data : JsonObj) (key : Str) : Option Str :=
  match pyGet data key with
  | Json.string v => some (pyStrip v)
  | _ => none

/-- The value of an optional object field. -/
def specDict (data : JsonObj) (key : Str) : JsonObj :=
  match pyGet data key with
  | Json.obj o => o
  | _ => []

/-- The stripped values of an optional string-array field. -/
def specList (data : JsonObj) (key : Str) : List Str :=
  match pyGet data key with
  | Json.arr items => items.filterMap (fun j => match j with
      | Json.string s => some (pyStrip s)
      | _ => none)
  | _ => []

theorem require_string_char (data : JsonObj) (key : Str) (r : Str) :
    require_string data key = Except.ok r ↔
      specRequiredString data key ∧ r = specStr data key := by
  unfold require_string specRequiredString specStr
  cases hv : pyGet data key with
  | string v =>
      by_cases hs : pyStrip v = []
      · simp [hs]
      · simp [hs, eq_comm]
  | null => simp
  | bool b => simp
  | int n => simp
  | arr l => simp
  | obj o => simp

theorem optional_string_char (data : JsonObj) (key : Str) (r : Option Str) :
    optional_string data key = Except.ok r ↔
      specOptionalString data key ∧ r = specOpt data key := by
  unfold optional_string specOptionalString specOpt
  cases hv : pyGet data key with
  | string v =>
      by_cases hs : pyStrip v = []
      · simp [hs]
      · simp [hs, eq_comm]
  | null => simp [eq_comm]
  | bool b => simp
  | int n => simp
  | arr l => simp
  | obj o => simp

instance : Inhabited Json := ⟨Json.null⟩

theorem optional_dict_char (data : JsonObj) (key : Str) (r : JsonObj) :
    optional_dict data key = Except.ok r ↔
      specOptionalDict data key ∧ r = specDict data key := by
  unfold optional_dict specOptionalDict specDict
  cases hv : pyGet data key with
  | string v => simp
  | null => simp [eq_comm]
  | bool b => simp
  | int n => simp
  | arr l => simp
  | obj o => simp [eq_comm]

theorem optional_string_list_char (data : JsonObj) (key : Str) (r : List Str) :
    optional_string_list data key = Except.ok r ↔
      specOptionalStringList data key ∧ r = specList data key := by
  cases hv : pyGet data key with
  | arr items =>
      have hiff : (items.all (fun j => match j with
          | Json.string s => !(pyStrip s).isEmpty
          | _ => false) = true) ↔
          ∀ j ∈ items, ∃ s, j = Json.string s ∧ pyStrip s ≠ [] := by
        rw [List.all_eq_true]
        constructor
        · intro h j hj
          have := h j hj
          cases j <;> simp_all
        · intro h j hj
          obtain ⟨s, rfl, hs⟩ := h j hj
          simpa using hs
      have h1 : specOptionalStringList data key ↔
          ∀ j ∈ items, ∃ s, j = Json.string s ∧ pyStrip s ≠ [] := by
        unfold specOptionalStringList
        rw [hv]
        simp
      have h2 : specList data key = items.filterMap (fun j => match j with
          | Json.string s => some (pyStrip s)
          | _ => none) := by
        unfold specList
        rw [hv]
      have hbody : optional_string_list data key
          = (if items.all (fun j => match j with
              | Json.string s => !(pyStrip s).isEmpty
              | _ => false) then
            Except.ok (items.filterMap (fun j => match j with
              | Json.string s => some (pyStrip s)
              | _ => none))
          else Except.error
            (Err.invalidPlan (str ("Invalid string array field: ") ++ key))) := by
        unfold optional_string_list
        rw [hv]
      rw [hbody, h1, h2]
      split
      next hall =>
        constructor
        · intro h
          injection h with h'
          exact ⟨hiff.mp hall, h'.symm⟩
        · rintro ⟨-, hr⟩
          subst hr
          rfl
      next hall =>
        constructor
        · intro h
          simp at h
        · rintro ⟨hforall, -⟩
          exact absurd (hiff.mpr hforall) hall
  | null =>
      have h1 : specOptionalStringList data key := Or.inl hv
      have h2 : specList data key = [] := by
        unfold specList
        rw [hv]
      have hbody : optional_string_list data key = Except.ok [] := by
        unfold optional_string_list
        rw [hv]
      rw [hbody, h2]
      simp [h1, eq_comm]
  | bool b =>
      have hbody : optional_string_list data key = Except.error
          (Err.invalidPlan (str ("Invalid string array field: ") ++ key)) := by
        unfold optional_string_list
        rw [hv]
      rw [hbody]
      constructor
      · intro h
        simp at h
      · rintro ⟨hspec, -⟩
        rcases hspec with h | ⟨items, h, -⟩ <;> rw [hv] at h <;> cases h
  | int n =>
      have hbody : optional_string_list data key = Except.error
          (Err.invalidPlan (str ("Invalid string array field: ") ++ key)) := by
        unfold optional_string_list
        rw [hv]
      rw [hbody]
      constructor
      · intro h
        simp at h
      · rintro ⟨hspec, -⟩
        rcases hspec with h | ⟨items, h, -⟩ <;> rw [hv] at h <;> cases h
  | string v =>
      have hbody : optional_string_list data key = Except.error
          (Err.invalidPlan (str ("Invalid string array field: ") ++ key)) := by
        unfold optional_string_list
        rw [hv]
      rw [hbody]
      constructor
      · intro h
        simp at h
      · rintro ⟨hspec, -⟩
        rcases hspec with h | ⟨items, h, -⟩ <;> rw [hv] at h <;> cases h
  | obj o =>
      have hbody : optional_string_list data key = Except.error
          (Err.invalidPlan (str ("Invalid string array field: ") ++ key)) := by
        unfold optional_string_list
        rw [hv]
      rw [hbody]
      constructor
      · intro h
        simp at h
      · rintro ⟨hspec, -⟩
        rcases hspec with h | ⟨items, h, -⟩ <;> rw [hv] at h <;> cases h

theorem specOpt_eq_some (data : JsonObj) (key : Str) (a : Str)
    (h : specOpt data key = some a) :
    ∃ v, pyGet data key = Json.string v ∧ a = pyStrip v := by
  unfold specOpt at h
  cases hv : pyGet data key <;> rw [hv] at h <;> simp_all

/-- The routing defaults read off the payload (spec side). -/
def routingOf (r : JsonObj) : RoutingDefaults :=
  { agent := specOpt r (str ("agent")),
    model := specOpt r (str ("model")),
    effort := specOpt r (str ("effort")) }

/-- Spec: the routing block's fields are absent or non-blank strings, and
a present `agent`/`effort` lies inside its enumeration. -/
def specRoutingOk (r : JsonObj) : Prop :=
  specOptionalString r (str ("agent")) ∧
  specOptionalString r (str ("model")) ∧
  specOptionalString r (str ("effort")) ∧
  (∀ v, pyGet r (str ("agent")) = Json.string v → pyStrip v ∈ ALLOWED_AGENTS) ∧
  (∀ v, pyGet r (str ("effort")) = Json.string v → pyStrip v ∈ ALLOWED_EFFORTS)

theorem routing_from_dict_char (r : JsonObj) (rd : RoutingDefaults) :
    RoutingDefaults.from_dict r = Except.ok rd ↔
      specRoutingOk r ∧ rd = routingOf r := by
  constructor
  · intro h
    simp only [RoutingDefaults.from_dict] at h
    obtain ⟨agent, ha, h⟩ := except_bind_ok h
    obtain ⟨model, hm, h⟩ := except_bind_ok h
    obtain ⟨effort, he, h⟩ := except_bind_ok h
    obtain ⟨u1, hg1, h⟩ := except_bind_ok h
    obtain ⟨u2, hg2, h⟩ := except_bind_ok h
    obtain ⟨hsa, hva⟩ := (optional_string_char _ _ _).mp ha
    obtain ⟨hsm, hvm⟩ := (optional_string_char _ _ _).mp hm
    obtain ⟨hse, hve⟩ := (optional_string_char _ _ _).mp he
    refine ⟨⟨hsa, hsm, hse, ?_, ?_⟩, ?_⟩
    · intro v hv
      have hne : pyStrip v ≠ [] := by
        rcases hsa with hnull | ⟨v2, hv2, hne2⟩
        · rw [hv] at hnull
          cases hnull
        · rw [hv] at hv2
          cases hv2
          exact hne2
      have hsome : specOpt r (str ("agent")) = some (pyStrip v) := by
        unfold specOpt
        rw [hv]
      rw [hsome] at hva
      subst hva
      by_contra hnin
      have hg1' : (if pyStrip v ≠ [] ∧ pyStrip v ∉ ALLOWED_AGENTS then
          Except.error (Err.invalidPlan (str ("Unsupported routing.agent")))
        else Except.ok ()) = Except.ok u1 := hg1
      rw [if_pos ⟨hne, hnin⟩] at hg1'
      cases hg1' 
    · intro v hv
      have hne : pyStrip v ≠ [] := by
        rcases hse with hnull | ⟨v2, hv2, hne2⟩
        · rw [hv] at hnull
          cases hnull
        · rw [hv] at hv2
          cases hv2
          exact hne2
      have hsome : specOpt r (str ("effort")) = some (pyStrip v) := by
        unfold specOpt
        rw [hv]
      rw [hsome] at hve
      subst hve
      by_contra hnin
      have hg2' : (if pyStrip v ≠ [] ∧ pyStrip v ∉ ALLOWED_EFFORTS then
          Except.error (Err.invalidPlan (str ("Unsupported routing.effort")))
        else Except.ok ()) = Except.ok u2 := hg2
      rw [if_pos ⟨hne, hnin⟩] at hg2'
      cases hg2' 
    · simp only [pure, Except.pure] at h
      injection h with h2
      rw [← h2, hva, hvm, hve]
      rfl
  · rintro ⟨⟨hsa, hsm, hse, hea, hee⟩, rfl⟩
    have ha : optional_string r (str ("agent")) = Except.ok (specOpt r (str ("agent"))) :=
      (optional_string_char _ _ _).mpr ⟨hsa, rfl⟩
    have hm : optional_string r (str ("model")) = Except.ok (specOpt r (str ("model"))) :=
      (optional_string_char _ _ _).mpr ⟨hsm, rfl⟩
    have he : optional_string r (str ("effort")) = Except.ok (specOpt r (str ("effort"))) :=
      (optional_string_char _ _ _).mpr ⟨hse, rfl⟩
    simp only [RoutingDefaults.from_dict, ha, hm, he, ok_bind]
    cases hag : specOpt r (str ("agent")) with
    | none =>
        cases heg : specOpt r (str ("effort")) with
        | none => simp [routingOf, hag, heg, ok_bind]
        | some e =>
            obtain ⟨v, hv, rfl⟩ := specOpt_eq_some _ _ _ heg
            have hin := hee v hv
            simp [routingOf, hag, heg, hin, hv, ok_bind]
    | some a =>
        obtain ⟨va, hva, rfl⟩ := specOpt_eq_some _ _ _ hag
        have hina := hea va hva
        cases heg : specOpt r (str ("effort")) with
        | none => simp [routingOf, hag, heg, hina, hva, ok_bind]
        | some e =>
            obtain ⟨v, hv, rfl⟩ := specOpt_eq_some _ _ _ heg
            have hin := hee v hv
            simp [routingOf, hag, heg, hin, hina, hva, hv, ok_bind]

/-- The agent/model/effort value after falling back to the routing
default (spec side). -/
def specResolved (o : JsonObj) (key : Str) (dflt : Option Str) : Option Str :=
  match pyGet o key with
  | Json.string v => some (pyStrip v)
  | _ => dflt

theorem specResolved_eq (o : JsonObj) (key : Str) (dflt : Option Str)
    (hs : specOptionalString o key) :
    pyOrOpt (specOpt o key) dflt = specResolved o key dflt := by
  rcases hs with hnull | ⟨v, hv, hne⟩
  · unfold specOpt specResolved
    rw [hnull]
    rfl
  · unfold specOpt specResolved
    rw [hv]
    show (if pyStrip v = [] then dflt else some (pyStrip v)) = some (pyStrip v)
    rw [if_neg hne]

/-- Spec: one subtask object is accepted, given the plan's routing
defaults: required strings present and non-blank, the id matching the
identifier regex, optional strings well-shaped, the resolved agent /
model / effort present (with agent and effort inside their
enumerations), the worktree strategy enumerated, the prompt within the
20,000-character bound, and the three string-array fields well-shaped. -/
def specSubtaskOk (o : JsonObj) (routing : RoutingDefaults) : Prop :=
  specRequiredString o (str ("id")) ∧
  (∀ v, pyGet o (str ("id")) = Json.string v → identifier_match (pyStrip v) = true) ∧
  specOptionalString o (str ("agent")) ∧
  specOptionalString o (str ("model")) ∧
  specOptionalString o (str ("effort")) ∧
  (∃ a, specResolved o (str ("agent")) routing.agent = some a ∧
    a ≠ [] ∧ a ∈ ALLOWED_AGENTS) ∧
  (∃ m, specResolved o (str ("model")) routing.model = some m ∧ m ≠ []) ∧
  (∃ e, specResolved o (str ("effort")) routing.effort = some e ∧
    e ≠ [] ∧ e ∈ ALLOWED_EFFORTS) ∧
  specRequiredString o (str ("worktreeStrategy")) ∧
  (∀ v, pyGet o (str ("worktreeStrategy")) = Json.string v →
    pyStrip v ∈ ALLOWED_WORKTREE_STRATEGIES) ∧
  specRequiredString o (str ("prompt")) ∧
  (∀ v, pyGet o (str ("prompt")) = Json.string v →
    (pyStrip v).length ≤ PROMPT_MAX_CHARS) ∧
  specOptionalStringList o (str ("dependsOn")) ∧
  specOptionalStringList o (str ("filesHint")) ∧
  specOptionalStringList o (str ("definitionOfDone")) ∧
  specRequiredString o (str ("title")) ∧
  specRequiredString o (str ("description"))

/-- The subtask read off an accepted subtask object (spec side). -/
def specParseSubtask (o : JsonObj) (routing : RoutingDefaults) : Subtask :=
  { id := specStr o (str ("id")),
    title := specStr o (str ("title")),
    description := specStr o (str ("description")),
    agent := (specResolved o (str ("agent")) routing.agent).getD [],
    model := (specResolved o (str ("model")) routing.model).getD [],
    effort := (specResolved o (str ("effort")) routing.effort).getD [],
    worktree_strategy := specStr o (str ("worktreeStrategy")),
    depends_on := specList o (str ("dependsOn")),
    files_hint := specList o (str ("filesHint")),
    prompt := specStr o (str ("prompt")),
    definition_of_done := specList o (str ("definitionOfDone")) }

theorem subtask_from_dict_char (o : JsonObj) (routing : RoutingDefaults) (s : Subtask) :
    Subtask.from_dict o routing = Except.ok s ↔
      specSubtaskOk o routing ∧ s = specParseSubtask o routing := by
  constructor
  · intro h
    simp only [Subtask.from_dict] at h
    obtain ⟨sid, h1, h⟩ := except_bind_ok h
    obtain ⟨u1, hg1, h⟩ := except_bind_ok h
    obtain ⟨aOpt, h2, h⟩ := except_bind_ok h
    obtain ⟨mOpt, h3, h⟩ := except_bind_ok h
    obtain ⟨eOpt, h4, h⟩ := except_bind_ok h
    obtain ⟨agent, h5, h⟩ := except_bind_ok h
    obtain ⟨model, h6, h⟩ := except_bind_ok h
    obtain ⟨effort, h7, h⟩ := except_bind_ok h
    obtain ⟨wts, h8, h⟩ := except_bind_ok h
    obtain ⟨u2, hg2, h⟩ := except_bind_ok h
    obtain ⟨prompt, h9, h⟩ := except_bind_ok h
    obtain ⟨u3, hg3, h⟩ := except_bind_ok h
    obtain ⟨dep, h10, h⟩ := except_bind_ok h
    obtain ⟨fh, h11, h⟩ := except_bind_ok h
    obtain ⟨dod, h12, h⟩ := except_bind_ok h
    obtain ⟨title, h13, h⟩ := except_bind_ok h
    obtain ⟨descr, h14, h⟩ := except_bind_ok h
    obtain ⟨hrid, hvid⟩ := (require_string_char _ _ _).mp h1
    obtain ⟨hsa, hva⟩ := (optional_string_char _ _ _).mp h2
    obtain ⟨hsm, hvm⟩ := (optional_string_char _ _ _).mp h3
    obtain ⟨hseff, hveff⟩ := (optional_string_char _ _ _).mp h4
    obtain ⟨hw_s, hw_v⟩ := (require_string_char _ _ _).mp h8
    obtain ⟨hp_s, hp_v⟩ := (require_string_char _ _ _).mp h9
    obtain ⟨hdep_s, hdep_v⟩ := (optional_string_list_char _ _ _).mp h10
    obtain ⟨hfh_s, hfh_v⟩ := (optional_string_list_char _ _ _).mp h11
    obtain ⟨hdod_s, hdod_v⟩ := (optional_string_list_char _ _ _).mp h12
    obtain ⟨ht_s, ht_v⟩ := (require_string_char _ _ _).mp h13
    obtain ⟨hd_s, hd_v⟩ := (require_string_char _ _ _).mp h14
    have him : identifier_match sid = true := by
      by_cases him : identifier_match sid
      · exact him
      · rw [if_pos (by simpa using him)] at hg1
        cases hg1
    rw [hva, specResolved_eq o (str ("agent")) routing.agent hsa] at h5
    rw [hvm, specResolved_eq o (str ("model")) routing.model hsm] at h6
    rw [hveff, specResolved_eq o (str ("effort")) routing.effort hseff] at h7
    have hresa : ∃ a, specResolved o (str ("agent")) routing.agent = some a ∧
        a ≠ [] ∧ a ∈ ALLOWED_AGENTS ∧ agent = a := by
      cases hres : specResolved o (str ("agent")) routing.agent with
      | none =>
          rw [hres] at h5
          cases h5
      | some a =>
          rw [hres] at h5
          have h5' : (if a ≠ [] ∧ a ∈ ALLOWED_AGENTS then Except.ok a
              else Except.error (Err.invalidPlan
                (str ("Invalid or missing agent for subtask ") ++ sid))) = Except.ok agent := h5
          by_cases hcond : a ≠ [] ∧ a ∈ ALLOWED_AGENTS
          · rw [if_pos hcond] at h5'
            injection h5' with h5e
            exact ⟨a, rfl, hcond.1, hcond.2, h5e.symm⟩
          · rw [if_neg hcond] at h5'
            cases h5'
    have hresm : ∃ m, specResolved o (str ("model")) routing.model = some m ∧
        m ≠ [] ∧ model = m := by
      cases hres : specResolved o (str ("model")) routing.model with
      | none =>
          rw [hres] at h6
          cases h6
      | some m =>
          rw [hres] at h6
          have h6' : (if m ≠ [] then Except.ok m
              else Except.error (Err.invalidPlan
                (str ("Missing model for subtask ") ++ sid))) = Except.ok model := h6
          by_cases hcond : m ≠ []
          · rw [if_pos hcond] at h6'
            injection h6' with h6e
            exact ⟨m, rfl, hcond, h6e.symm⟩
          · rw [if_neg hcond] at h6'
            cases h6'
    have hrese : ∃ e, specResolved o (str ("effort")) routing.effort = some e ∧
        e ≠ [] ∧ e ∈ ALLOWED_EFFORTS ∧ effort = e := by
      cases hres : specResolved o (str ("effort")) routing.effort with
      | none =>
          rw [hres] at h7
          cases h7
      | some e =>
          rw [hres] at h7
          have h7' : (if e ≠ [] ∧ e ∈ ALLOWED_EFFORTS then Except.ok e
              else Except.error (Err.invalidPlan
                (str ("Invalid or missing effort for subtask ") ++ sid))) = Except.ok effort := h7
          by_cases hcond : e ≠ [] ∧ e ∈ ALLOWED_EFFORTS
          · rw [if_pos hcond] at h7'
            injection h7' with h7e
            exact ⟨e, rfl, hcond.1, hcond.2, h7e.symm⟩
          · rw [if_neg hcond] at h7'
            cases h7'
    have hwin : wts ∈ ALLOWED_WORKTREE_STRATEGIES := by
      by_cases hwin : wts ∈ ALLOWED_WORKTREE_STRATEGIES
      · exact hwin
      · rw [if_pos hwin] at hg2
        cases hg2
    have hplen : prompt.length ≤ PROMPT_MAX_CHARS := by
      by_cases hp : prompt.length > PROMPT_MAX_CHARS
      · rw [if_pos hp] at hg3
        cases hg3
      · omega
    simp only [pure, Except.pure] at h
    injection h with hrec
    obtain ⟨a, hres_a, hne_a, hin_a, rfl⟩ := hresa
    obtain ⟨m, hres_m, hne_m, rfl⟩ := hresm
    obtain ⟨e, hres_e, hne_e, hin_e, rfl⟩ := hrese
    refine ⟨⟨hrid, ?_, hsa, hsm, hseff,
        ⟨_, hres_a, hne_a, hin_a⟩, ⟨_, hres_m, hne_m⟩, ⟨_, hres_e, hne_e, hin_e⟩,
        hw_s, ?_, hp_s, ?_, hdep_s, hfh_s, hdod_s, ht_s, hd_s⟩, ?_⟩
    · intro v hv
      have : specStr o (str ("id")) = pyStrip v := by
        unfold specStr
        rw [hv]
      rw [← this, ← hvid]
      exact him
    · intro v hv
      have : specStr o (str ("worktreeStrategy")) = pyStrip v := by
        unfold specStr
        rw [hv]
      rw [← this, ← hw_v]
      exact hwin
    · intro v hv
      have : specStr o (str ("prompt")) = pyStrip v := by
        unfold specStr
        rw [hv]
      rw [← this, ← hp_v]
      exact hplen
    · rw [← hrec]
      unfold specParseSubtask
      rw [hres_a, hres_m, hres_e]
      subst hvid ht_v hd_v hw_v hdep_v hfh_v hdod_v hp_v
      rfl
  · rintro ⟨⟨c1, c2, c3, c4, c5, ⟨a, hres_a, hne_a, hin_a⟩, ⟨m, hres_m, hne_m⟩,
      ⟨e, hres_e, hne_e, hin_e⟩, c9, c10, c11, c12, c13, c14, c15, c16, c17⟩, rfl⟩
    have h1 : require_string o (str ("id")) = Except.ok (specStr o (str ("id"))) :=
      (require_string_char _ _ _).mpr ⟨c1, rfl⟩
    have h2 : optional_string o (str ("agent")) = Except.ok (specOpt o (str ("agent"))) :=
      (optional_string_char _ _ _).mpr ⟨c3, rfl⟩
    have h3 : optional_string o (str ("model")) = Except.ok (specOpt o (str ("model"))) :=
      (optional_string_char _ _ _).mpr ⟨c4, rfl⟩
    have h4 : optional_string o (str ("effort")) = Except.ok (specOpt o (str ("effort"))) :=
      (optional_string_char _ _ _).mpr ⟨c5, rfl⟩
    have h8 : require_string o (str ("worktreeStrategy"))
        = Except.ok (specStr o (str ("worktreeStrategy"))) :=
      (require_string_char _ _ _).mpr ⟨c9, rfl⟩
    have h9 : require_string o (str ("prompt")) = Except.ok (specStr o (str ("prompt"))) :=
      (require_string_char _ _ _).mpr ⟨c11, rfl⟩
    have h10 : optional_string_list o (str ("dependsOn"))
        = Except.ok (specList o (str ("dependsOn"))) :=
      (optional_string_list_char _ _ _).mpr ⟨c13, rfl⟩
    have h11 : optional_string_list o (str ("filesHint"))
        = Except.ok (specList o (str ("filesHint"))) :=
      (optional_string_list_char _ _ _).mpr ⟨c14, rfl⟩
    have h12 : optional_string_list o (str ("definitionOfDone"))
        = Except.ok (specList o (str ("definitionOfDone"))) :=
      (optional_string_list_char _ _ _).mpr ⟨c15, rfl⟩
    have h13 : require_string o (str ("title")) = Except.ok (specStr o (str ("title"))) :=
      (require_string_char _ _ _).mpr ⟨c16, rfl⟩
    have h14 : require_string o (str ("description"))
        = Except.ok (specStr o (str ("description"))) :=
      (require_string_char _ _ _).mpr ⟨c17, rfl⟩
    have him : identifier_match (specStr o (str ("id"))) = true := by
      obtain ⟨v, hv, hne⟩ := c1
      have : specStr o (str ("id")) = pyStrip v := by
        unfold specStr
        rw [hv]
      rw [this]
      exact c2 v hv
    have hwin : specStr o (str ("worktreeStrategy")) ∈ ALLOWED_WORKTREE_STRATEGIES := by
      obtain ⟨v, hv, hne⟩ := c9
      have : specStr o (str ("worktreeStrategy")) = pyStrip v := by
        unfold specStr
        rw [hv]
      rw [this]
      exact c10 v hv
    have hplen : ¬ (specStr o (str ("prompt"))).length > PROMPT_MAX_CHARS := by
      obtain ⟨v, hv, hne⟩ := c11
      have : specStr o (str ("prompt")) = pyStrip v := by
        unfold specStr
        rw [hv]
      rw [this]
      have := c12 v hv
      omega
    simp [Subtask.from_dict, h1, h2, h3, h4, h8, h9, h10, h11, h12, h13, h14, ok_bind,
      him, hwin, hplen, specResolved_eq o (str ("agent")) routing.agent c3,
      specResolved_eq o (str ("model")) routing.model c4,
      specResolved_eq o (str ("effort")) routing.effort c5,
      hres_a, hres_m, hres_e, hne_a, hin_a, hne_m, hne_e, hin_e, specParseSubtask]
theorem mapM_subtasks_char (routing : RoutingDefaults) :
    ∀ (l : List JsonObj) (res : List Subtask),
      l.mapM (fun obj => Subtask.from_dict obj routing) = Except.ok res ↔
        (∀ obj ∈ l, specSubtaskOk obj routing) ∧
        res = l.map (fun obj => specParseSubtask obj routing) := by
  intro l
  induction l with
  | nil =>
      intro res
      constructor
      · intro h
        injection h with h'
        exact ⟨by simp, by simp [← h']⟩
      · rintro ⟨-, rfl⟩
        rfl
  | cons o t ih =>
      intro res
      rw [List.mapM_cons]
      constructor
      · intro h
        obtain ⟨s1, hs1, h⟩ := except_bind_ok h
        obtain ⟨rest, hrest, h⟩ := except_bind_ok h
        obtain ⟨hok1, hv1⟩ := (subtask_from_dict_char _ _ _).mp hs1
        obtain ⟨hokt, hvt⟩ := (ih rest).mp hrest
        simp only [pure, Except.pure] at h
        injection h with h2
        refine ⟨?_, ?_⟩
        · intro obj hobj
          rcases List.mem_cons.mp hobj with rfl | hobj
          · exact hok1
          · exact hokt obj hobj
        · rw [← h2, hv1, hvt]
          simp
      · rintro ⟨hall, rfl⟩
        have hs1 : Subtask.from_dict o routing = Except.ok (specParseSubtask o routing) :=
          (subtask_from_dict_char _ _ _).mpr ⟨hall o (List.mem_cons_self _ _), rfl⟩
        have hrest : t.mapM (fun obj => Subtask.from_dict obj routing)
            = Except.ok (t.map (fun obj => specParseSubtask obj routing)) :=
          (ih _).mpr ⟨fun obj hobj => hall obj (List.mem_cons_of_mem _ hobj), rfl⟩
        rw [hs1, ok_bind, hrest, ok_bind]
        rfl

theorem filterMap_le_length {α β : Type} (f : α → Option β) :
    ∀ (l : List α), (l.filterMap f).length ≤ l.length := by
  intro l
  induction l with
  | nil => simp
  | cons a t ih =>
      rw [List.filterMap_cons]
      cases f a <;> simp <;> omega

theorem filterMap_length_eq {α β : Type} (f : α → Option β) :
    ∀ (l : List α), ((l.filterMap f).length = l.length ↔ ∀ a ∈ l, (f a).isSome = true) := by
  intro l
  induction l with
  | nil => simp
  | cons a t ih =>
      rw [List.filterMap_cons]
      cases hf : f a with
      | none =>
          have hle := filterMap_le_length f t
          constructor
          · intro h
            simp at h
            omega
          · intro h
            have := h a (List.mem_cons_self _ _)
            rw [hf] at this
            cases this
      | some b =>
          simp only [List.length_cons]
          constructor
          · intro h
            intro x hx
            rcases List.mem_cons.mp hx with rfl | hx
            · rw [hf]
              rfl
            · exact (ih.mp (by simpa using h)) x hx
          · intro h
            have := ih.mpr (fun x hx => h x (List.mem_cons_of_mem _ hx))
            simpa using this

/-- The subtask objects of the payload (spec side). -/
def specSubtasksRaw (data : JsonObj) : List JsonObj :=
  match pyGet data (str ("subtasks")) with
  | Json.arr items => items.filterMap (fun j => match j with
      | Json.obj o => some o
      | _ => none)
  | _ => []

/-- The plan's routing defaults (spec side). -/
def specRouting (data : JsonObj) : RoutingDefaults :=
  routingOf (specDict data (str ("routing")))

/-- The parsed subtasks of the payload (spec side). -/
def specSubtasks (data : JsonObj) : List Subtask :=
  (specSubtasksRaw data).map (fun o => specParseSubtask o (specRouting data))

/-- Spec: `requestedAt` is an integer (a Python bool is an `int`). -/
def specIntLike (j : Json) : Prop :=
  (∃ n, j = Json.int n) ∨ ∃ b, j = Json.bool b

/-- Spec: the whole payload is accepted. -/
def specPlanOk (data : JsonObj) : Prop :=
  specRequiredString data (str ("planId")) ∧
  (∀ v, pyGet data (str ("planId")) = Json.string v → identifier_match (pyStrip v) = true) ∧
  specIntLike (pyGet data (str ("requestedAt"))) ∧
  specOptionalDict data (str ("routing")) ∧
  specRoutingOk (specDict data (str ("routing"))) ∧
  (∃ items, pyGet data (str ("subtasks")) = Json.arr items ∧ items ≠ [] ∧
    ∀ j ∈ items, ∃ o, j = Json.obj o ∧ specSubtaskOk o (specRouting data)) ∧
  (planIds (specSubtasks data)).Nodup ∧
  (∀ s ∈ specSubtasks data, ∀ d ∈ s.depends_on, d ∈ planIds (specSubtasks data)) ∧
  (∃ T, IsTopoOrder (specSubtasks data) T) ∧
  specRequiredString data (str ("repo")) ∧
  specRequiredString data (str ("title")) ∧
  specRequiredString data (str ("requestedBy")) ∧
  specRequiredString data (str ("objective")) ∧
  specOptionalDict data (str ("constraints")) ∧
  specOptionalDict data (str ("context")) ∧
  specRequiredString data (str ("version"))

/-- The plan read off an accepted payload (spec side). -/
def specParsePlan (data : JsonObj) : Plan :=
  { plan_id := specStr data (str ("planId")),
    repo := specStr data (str ("repo")),
    title := specStr data (str ("title")),
    requested_by := specStr data (str ("requestedBy")),
    requested_at := pyGet data (str ("requestedAt")),
    objective := specStr data (str ("objective")),
    constraints := specDict data (str ("constraints")),
    context := specDict data (str ("context")),
    subtasks := specSubtasks data,
    routing := specRouting data,
    version := specStr data (str ("version")) }

theorem json_isSome_obj (j : Json) :
    (match j with
      | Json.obj o => some o
      | _ => none).isSome = true ↔ ∃ o, j = Json.obj o := by
  cases j <;> simp

theorem plan_from_dict_char (data : JsonObj) (P : Plan) :
    Plan.from_dict data = Except.ok P ↔
      specPlanOk data ∧ P = specParsePlan data := by
  constructor
  · intro h
    simp only [Plan.from_dict] at h
    obtain ⟨plan_id, h1, k1⟩ := except_bind_ok h
    obtain ⟨u1, hg1, k2⟩ := except_bind_ok k1
    obtain ⟨requested_at, h2, k3⟩ := except_bind_ok k2
    obtain ⟨routingObj, h3, k4⟩ := except_bind_ok k3
    obtain ⟨routing, h4, k5⟩ := except_bind_ok k4
    obtain ⟨rawSubtasks, h5, k6⟩ := except_bind_ok k5
    obtain ⟨subtasks, h6, k7⟩ := except_bind_ok k6
    obtain ⟨u2, hg2, k8⟩ := except_bind_ok k7
    obtain ⟨u3, hval, k9⟩ := except_bind_ok k8
    obtain ⟨repo, h7, k10⟩ := except_bind_ok k9
    obtain ⟨title, h8, k11⟩ := except_bind_ok k10
    obtain ⟨rby, h9, k12⟩ := except_bind_ok k11
    obtain ⟨objective, h10, k13⟩ := except_bind_ok k12
    obtain ⟨constraints, h11, k14⟩ := except_bind_ok k13
    obtain ⟨context, h12, k15⟩ := except_bind_ok k14
    obtain ⟨version, h13, hfin⟩ := except_bind_ok k15
    obtain ⟨hs1, hv1⟩ := (require_string_char _ _ _).mp h1
    obtain ⟨hs3, hv3⟩ := (optional_dict_char _ _ _).mp h3
    obtain ⟨hs7, hv7⟩ := (require_string_char _ _ _).mp h7
    obtain ⟨hs8, hv8⟩ := (require_string_char _ _ _).mp h8
    obtain ⟨hs9, hv9⟩ := (require_string_char _ _ _).mp h9
    obtain ⟨hs10, hv10⟩ := (require_string_char _ _ _).mp h10
    obtain ⟨hs11, hv11⟩ := (optional_dict_char _ _ _).mp h11
    obtain ⟨hs12, hv12⟩ := (optional_dict_char _ _ _).mp h12
    obtain ⟨hs13, hv13⟩ := (require_string_char _ _ _).mp h13
    subst hv3
    obtain ⟨hs4, hv4⟩ := (routing_from_dict_char _ _).mp h4
    have hv4' : routing = specRouting data := hv4
    have him : identifier_match plan_id = true := by
      by_cases him : identifier_match plan_id
      · exact him
      · rw [if_pos (by simpa using him)] at hg1
        cases hg1
    have hra : specIntLike (pyGet data (str ("requestedAt"))) ∧
        requested_at = pyGet data (str ("requestedAt")) := by
      cases hr : pyGet data (str ("requestedAt"))
      case int n =>
          rw [hr] at h2
          have h2' : (Except.ok (Json.int n) : Except Err Json) = Except.ok requested_at := h2
          injection h2' with h2e
          exact ⟨Or.inl ⟨n, rfl⟩, h2e.symm⟩
      case bool b =>
          rw [hr] at h2
          have h2' : (Except.ok (Json.bool b) : Except Err Json) = Except.ok requested_at := h2
          injection h2' with h2e
          exact ⟨Or.inr ⟨b, rfl⟩, h2e.symm⟩
      case null =>
          rw [hr] at h2
          cases h2
      case string v =>
          rw [hr] at h2
          cases h2
      case arr l =>
          rw [hr] at h2
          cases h2
      case obj ob =>
          rw [hr] at h2
          cases h2
    have hsubs : ∃ items, pyGet data (str ("subtasks")) = Json.arr items ∧
        items ≠ [] ∧ rawSubtasks = items := by
      cases hr : pyGet data (str ("subtasks"))
      case arr items =>
          rw [hr] at h5
          have h5' : (if items.isEmpty then
              Except.error (Err.invalidPlan (str ("subtasks must be a non-empty array")))
            else Except.ok items) = Except.ok rawSubtasks := h5
          by_cases hemp : items.isEmpty
          · rw [if_pos hemp] at h5'
            cases h5'
          · rw [if_neg hemp] at h5'
            injection h5' with h5e
            refine ⟨items, rfl, ?_, h5e.symm⟩
            intro hnil
            rw [hnil] at hemp
            exact hemp rfl
      case null => rw [hr] at h5; cases h5
      case bool b => rw [hr] at h5; cases h5
      case int n => rw [hr] at h5; cases h5
      case string v => rw [hr] at h5; cases h5
      case obj ob => rw [hr] at h5; cases h5
    obtain ⟨items, hitems, hne, rfl⟩ := hsubs
    obtain ⟨hall6, hv6⟩ := (mapM_subtasks_char routing _ _).mp h6
    have hcount : subtasks.length = rawSubtasks.length := by
      by_cases hc : subtasks.length ≠ rawSubtasks.length
      · rw [if_pos hc] at hg2
        cases hg2
      · omega
    have hraw : specSubtasksRaw data = rawSubtasks.filterMap (fun j => match j with
        | Json.obj o => some o
        | _ => none) := by
      unfold specSubtasksRaw
      rw [hitems]
    have hsubsdata : specSubtasks data = subtasks := by
      unfold specSubtasks
      rw [hraw, ← hv4', hv6]
    have hallobj : ∀ j ∈ rawSubtasks, ∃ o, j = Json.obj o ∧
        specSubtaskOk o (specRouting data) := by
      have hlen : (rawSubtasks.filterMap (fun j => match j with
          | Json.obj o => some o
          | _ => none)).length = rawSubtasks.length := by
        rw [hv6] at hcount
        simpa using hcount
      intro j hj
      have hsome := (filterMap_length_eq _ rawSubtasks).mp hlen j hj
      obtain ⟨o, ho⟩ := (json_isSome_obj j).mp hsome
      refine ⟨o, ho, ?_⟩
      have : o ∈ rawSubtasks.filterMap (fun j => match j with
          | Json.obj o => some o
          | _ => none) := by
        rw [List.mem_filterMap]
        exact ⟨j, hj, by rw [ho]⟩
      rw [hv4'] at hall6
      exact hall6 o this
    obtain ⟨hnd, hknown, htopo⟩ := (validate_ok_iff subtasks).mp hval
    have h' : (Except.ok ⟨plan_id, repo, title, rby, requested_at, objective,
        constraints, context, subtasks, routing, version⟩ : Except Err Plan)
        = Except.ok P := hfin
    injection h' with hrec
    refine ⟨⟨hs1, ?_, hra.1, hs3, hs4, ⟨rawSubtasks, hitems, hne, hallobj⟩,
        by rw [hsubsdata]; exact hnd,
        by rw [hsubsdata]; exact hknown,
        by rw [hsubsdata]; exact htopo,
        hs7, hs8, hs9, hs10, hs11, hs12, hs13⟩, ?_⟩
    · intro v hv
      have : specStr data (str ("planId")) = pyStrip v := by
        unfold specStr
        rw [hv]
      rw [← this, ← hv1]
      exact him
    · rw [← hrec]
      unfold specParsePlan
      rw [← hsubsdata, ← hv4']
      subst hv1 hv7 hv8 hv9 hv10 hv11 hv12 hv13
      rw [hra.2]
  · rintro ⟨⟨c1, c2, c3, c4, c5, ⟨items, hitems, hne, hallobj⟩, c7, c8, c9,
      c10, c11, c12, c13, c14, c15, c16⟩, rfl⟩
    have h1 : require_string data (str ("planId"))
        = Except.ok (specStr data (str ("planId"))) :=
      (require_string_char _ _ _).mpr ⟨c1, rfl⟩
    have h3 : optional_dict data (str ("routing"))
        = Except.ok (specDict data (str ("routing"))) :=
      (optional_dict_char _ _ _).mpr ⟨c4, rfl⟩
    have h4 : RoutingDefaults.from_dict (specDict data (str ("routing")))
        = Except.ok (specRouting data) :=
      (routing_from_dict_char _ _).mpr ⟨c5, rfl⟩
    have h7 : require_string data (str ("repo"))
        = Except.ok (specStr data (str ("repo"))) :=
      (require_string_char _ _ _).mpr ⟨c10, rfl⟩
    have h8 : require_string data (str ("title"))
        = Except.ok (specStr data (str ("title"))) :=
      (require_string_char _ _ _).mpr ⟨c11, rfl⟩
    have h9 : require_string data (str ("requestedBy"))
        = Except.ok (specStr data (str ("requestedBy"))) :=
      (require_string_char _ _ _).mpr ⟨c12, rfl⟩
    have h10 : require_string data (str ("objective"))
        = Except.ok (specStr data (str ("objective"))) :=
      (require_string_char _ _ _).mpr ⟨c13, rfl⟩
    have h11 : optional_dict data (str ("constraints"))
        = Except.ok (specDict data (str ("constraints"))) :=
      (optional_dict_char _ _ _).mpr ⟨c14, rfl⟩
    have h12 : optional_dict data (str ("context"))
        = Except.ok (specDict data (str ("context"))) :=
      (optional_dict_char _ _ _).mpr ⟨c15, rfl⟩
    have h13 : require_string data (str ("version"))
        = Except.ok (specStr data (str ("version"))) :=
      (require_string_char _ _ _).mpr ⟨c16, rfl⟩
    have him : identifier_match (specStr data (str ("planId"))) = true := by
      obtain ⟨v, hv, hnev⟩ := c1
      have : specStr data (str ("planId")) = pyStrip v := by
        unfold specStr
        rw [hv]
      rw [this]
      exact c2 v hv
    have hraw : specSubtasksRaw data = items.filterMap (fun j => match j with
        | Json.obj o => some o
        | _ => none) := by
      unfold specSubtasksRaw
      rw [hitems]
    have hallok : ∀ obj ∈ items.filterMap (fun j => match j with
        | Json.obj o => some o
        | _ => none), specSubtaskOk obj (specRouting data) := by
      intro obj hobj
      rw [List.mem_filterMap] at hobj
      obtain ⟨j, hj, hjo⟩ := hobj
      obtain ⟨o, rfl, hok⟩ := hallobj j hj
      have : obj = o := by
        injection hjo with hjo'
        exact hjo'.symm
      rw [this]
      exact hok
    have hmap : (items.filterMap (fun j => match j with
        | Json.obj o => some o
        | _ => none)).mapM (fun obj => Subtask.from_dict obj (specRouting data))
        = Except.ok (specSubtasks data) := by
      rw [(mapM_subtasks_char _ _ _)]
      refine ⟨hallok, ?_⟩
      unfold specSubtasks
      rw [hraw]
    have hmap2 : List.mapM.loop (fun obj => Subtask.from_dict obj (specRouting data))
        (items.filterMap (fun j => match j with
          | Json.obj o => some o
          | _ => none)) [] = Except.ok (specSubtasks data) := hmap
    have hlenfm : (items.filterMap (fun j => match j with
        | Json.obj o => some o
        | _ => none)).length = items.length :=
      (filterMap_length_eq _ items).mpr (fun j hj => (json_isSome_obj j).mpr
        (by obtain ⟨o, ho, -⟩ := hallobj j hj; exact ⟨o, ho⟩))
    have hlen : (specSubtasks data).length = items.length := by
      unfold specSubtasks
      rw [hraw, List.length_map]
      exact hlenfm
    have hemp : items.isEmpty = false := by
      cases items with
      | nil => exact absurd rfl hne
      | cons a t => rfl
    have hval : validate_dependencies (specSubtasks data) = Except.ok () :=
      (validate_ok_iff _).mpr ⟨c7, c8, c9⟩
    rcases c3 with ⟨n, hradata⟩ | ⟨b, hradata⟩ <;>
      simp [Plan.from_dict, h1, h3, h4, h7, h8, h9, h10, h11, h12, h13, ok_bind, him,
        hradata, hitems, hemp, hmap, hmap2, hlen, hval, specParsePlan, hraw]

/-! Every rejection of `Plan.from_dict` carries an `InvalidPlan` error
(the Python code raises only that exception class). -/

def InvOnly {α : Type} (x : Except Err α) : Prop :=
  ∀ e, x = Except.error e → ∃ m, e = Err.invalidPlan m

theorem invOnly_ok {α : Type} (a : α) : InvOnly (Except.ok a) := by
  intro e h
  cases h

theorem invOnly_error {α : Type} (m : Str) :
    InvOnly (Except.error (Err.invalidPlan m) : Except Err α) := by
  intro e h
  injection h with h2
  exact ⟨m, h2.symm⟩

theorem invOnly_bind {α β : Type} {e : Except Err α} {f : α → Except Err β}
    (he : InvOnly e) (hf : ∀ a, InvOnly (f a)) : InvOnly (e >>= f) := by
  intro err h
  cases e with
  | error e0 =>
      have h2 : (Except.error e0 : Except Err β) = Except.error err := h
      injection h2 with h3
      exact h3 ▸ he e0 rfl
  | ok a => exact hf a err h

theorem invOnly_ite {α : Type} (c : Prop) [Decidable c] (x y : Except Err α)
    (hx : InvOnly x) (hy : InvOnly y) : InvOnly (if c then x else y) := by
  by_cases h : c
  · rw [if_pos h]
    exact hx
  · rw [if_neg h]
    exact hy

theorem require_string_invOnly (data : JsonObj) (key : Str) :
    InvOnly (require_string data key) := by
  unfold require_string
  cases pyGet data key <;> first
    | exact invOnly_ite _ _ _ (invOnly_error _) (invOnly_ok _)
    | exact invOnly_error _

theorem optional_string_invOnly (data : JsonObj) (key : Str) :
    InvOnly (optional_string data key) := by
  unfold optional_string
  cases pyGet data key <;> first
    | exact invOnly_ite _ _ _ (invOnly_error _) (invOnly_ok _)
    | exact invOnly_ok _
    | exact invOnly_error _

theorem optional_dict_invOnly (data : JsonObj) (key : Str) :
    InvOnly (optional_dict data key) := by
  unfold optional_dict
  cases pyGet data key <;> first
    | exact invOnly_ok _
    | exact invOnly_error _

theorem optional_string_list_invOnly (data : JsonObj) (key : Str) :
    InvOnly (optional_string_list data key) := by
  unfold optional_string_list
  cases pyGet data key <;> first
    | exact invOnly_ite _ _ _ (invOnly_ok _) (invOnly_error _)
    | exact invOnly_ok _
    | exact invOnly_error _

theorem routing_from_dict_invOnly (r : JsonObj) :
    InvOnly (RoutingDefaults.from_dict r) := by
  unfold RoutingDefaults.from_dict
  refine invOnly_bind (optional_string_invOnly _ _) (fun agent => ?_)
  refine invOnly_bind (optional_string_invOnly _ _) (fun model => ?_)
  refine invOnly_bind (optional_string_invOnly _ _) (fun effort => ?_)
  refine invOnly_bind ?_ (fun u1 => ?_)
  · cases agent with
    | none => exact invOnly_ok _
    | some a => exact invOnly_ite _ _ _ (invOnly_error _) (invOnly_ok _)
  · refine invOnly_bind ?_ (fun u2 => ?_)
    · cases effort with
      | none => exact invOnly_ok _
      | some e => exact invOnly_ite _ _ _ (invOnly_error _) (invOnly_ok _)
    · exact invOnly_ok _

theorem subtask_from_dict_invOnly (o : JsonObj) (routing : RoutingDefaults) :
    InvOnly (Subtask.from_dict o routing) := by
  unfold Subtask.from_dict
  refine invOnly_bind (require_string_invOnly _ _) (fun sid => ?_)
  refine invOnly_bind (invOnly_ite _ _ _ (invOnly_error _) (invOnly_ok _)) (fun u1 => ?_)
  refine invOnly_bind (optional_string_invOnly _ _) (fun aOpt => ?_)
  refine invOnly_bind (optional_string_invOnly _ _) (fun mOpt => ?_)
  refine invOnly_bind (optional_string_invOnly _ _) (fun eOpt => ?_)
  refine invOnly_bind ?_ (fun agent => ?_)
  · cases pyOrOpt aOpt routing.agent with
    | none => exact invOnly_error _
    | some a => exact invOnly_ite _ _ _ (invOnly_ok _) (invOnly_error _)
  refine invOnly_bind ?_ (fun model => ?_)
  · cases pyOrOpt mOpt routing.model with
    | none => exact invOnly_error _
    | some m => exact invOnly_ite _ _ _ (invOnly_ok _) (invOnly_error _)
  refine invOnly_bind ?_ (fun effort => ?_)
  · cases pyOrOpt eOpt routing.effort with
    | none => exact invOnly_error _
    | some e => exact invOnly_ite _ _ _ (invOnly_ok _) (invOnly_error _)
  refine invOnly_bind (require_string_invOnly _ _) (fun wts => ?_)
  refine invOnly_bind (invOnly_ite _ _ _ (invOnly_error _) (invOnly_ok _)) (fun u2 => ?_)
  refine invOnly_bind (require_string_invOnly _ _) (fun prompt => ?_)
  refine invOnly_bind (invOnly_ite _ _ _ (invOnly_error _) (invOnly_ok _)) (fun u3 => ?_)
  refine invOnly_bind (optional_string_list_invOnly _ _) (fun dep => ?_)
  refine invOnly_bind (optional_string_list_invOnly _ _) (fun fh => ?_)
  refine invOnly_bind (optional_string_list_invOnly _ _) (fun dod => ?_)
  refine invOnly_bind (require_string_invOnly _ _) (fun title => ?_)
  refine invOnly_bind (require_string_invOnly _ _) (fun descr => ?_)
  exact invOnly_ok _

theorem validate_dependencies_invOnly (nodes : List Subtask) :
    InvOnly (validate_dependencies nodes) := by
  unfold validate_dependencies
  exact invOnly_ite _ _ _ (invOnly_error _)
    (invOnly_ite _ _ _ (invOnly_error _)
      (invOnly_ite _ _ _ (invOnly_error _) (invOnly_ok _)))

theorem mapM_subtask_invOnly (routing : RoutingDefaults) :
    ∀ l : List JsonObj, InvOnly (l.mapM (fun o => Subtask.from_dict o routing)) := by
  intro l
  induction l with
  | nil => exact invOnly_ok _
  | cons o t ih =>
      rw [List.mapM_cons]
      exact invOnly_bind (subtask_from_dict_invOnly _ _)
        (fun s => invOnly_bind ih (fun rest => invOnly_ok _))

theorem plan_from_dict_invOnly (data : JsonObj) : InvOnly (Plan.from_dict data) := by
  unfold Plan.from_dict
  refine invOnly_bind (require_string_invOnly _ _) (fun plan_id => ?_)
  refine invOnly_bind (invOnly_ite _ _ _ (invOnly_error _) (invOnly_ok _)) (fun u1 => ?_)
  refine invOnly_bind ?_ (fun requested_at => ?_)
  · cases pyGet data (str ("requestedAt")) <;> first
      | exact invOnly_ok _
      | exact invOnly_error _
  refine invOnly_bind (optional_dict_invOnly _ _) (fun routingObj => ?_)
  refine invOnly_bind (routing_from_dict_invOnly _) (fun routing => ?_)
  refine invOnly_bind ?_ (fun rawSubtasks => ?_)
  · cases pyGet data (str ("subtasks")) <;> first
      | exact invOnly_ite _ _ _ (invOnly_error _) (invOnly_ok _)
      | exact invOnly_error _
  refine invOnly_bind (mapM_subtask_invOnly routing _) (fun subtasks => ?_)
  refine invOnly_bind (invOnly_ite _ _ _ (invOnly_error _) (invOnly_ok _)) (fun u2 => ?_)
  refine invOnly_bind (validate_dependencies_invOnly _) (fun u3 => ?_)
  refine invOnly_bind (require_string_invOnly _ _) (fun repo => ?_)
  refine invOnly_bind (require_string_invOnly _ _) (fun title => ?_)
  refine invOnly_bind (require_string_invOnly _ _) (fun rby => ?_)
  refine invOnly_bind (require_string_invOnly _ _) (fun objective => ?_)
  refine invOnly_bind (optional_dict_invOnly _ _) (fun constraints => ?_)
  refine invOnly_bind (optional_dict_invOnly _ _) (fun context => ?_)
  refine invOnly_bind (require_string_invOnly _ _) (fun version => ?_)
  exact invOnly_ok _

theorem field_forall (data : JsonObj) (key : Str) (Q : Str → Prop) (v : Str)
    (hv : pyGet data key = Json.string v) (hq : Q (pyStrip v)) :
    ∀ w, pyGet data key = Json.string w → Q (pyStrip w) := by
  intro w hw
  rw [hv] at hw
  injection hw with h
  rw [← h]
  exact hq

/-- **C4 (amended).** `Plan.from_dict` accepts a payload exactly when all
of `specPlanOk` holds — the claim's conditions plus: the resolved agent /
model / effort of every subtask (its own field, else the routing default)
must be present, and every wrongly-typed field (non-string required
field, non-object `routing`/`constraints`/`context`, non-array or
blank-entry string-list field, non-object subtask entry, non-array
`subtasks`) is also rejected.  Every rejection carries an `InvalidPlan`
error. -/
theorem claim_C4 (data : JsonObj) :
    ((∃ P, Plan.from_dict data = Except.ok P) ↔ specPlanOk data) ∧
    ∀ e, Plan.from_dict data = Except.error e → ∃ m, e = Err.invalidPlan m := by
  constructor
  · constructor
    · rintro ⟨P, hP⟩
      exact ((plan_from_dict_char data P).mp hP).1
    · intro hspec
      exact ⟨specParsePlan data, (plan_from_dict_char data _).mpr ⟨hspec, rfl⟩⟩
  · exact plan_from_dict_invOnly data

/-- Witness for C4: the demo payload is accepted, so it satisfies every
spec-side acceptance condition. -/
theorem claim_C4_witness : specPlanOk demoPlanPayload :=
  (claim_C4 demoPlanPayload).1.mp ⟨demoPlan, rfl⟩

/-- The conditions the original claim lists for one subtask object:
required strings present and non-blank, the id matching the identifier
regex, present agent / effort / worktreeStrategy values inside their
enumerations, the prompt within the 20,000-character bound, and
well-shaped optional fields.  (No condition about the model or about
agent/effort being present after applying routing defaults.) -/
def claimSubtaskOk (o : JsonObj) : Prop :=
  specRequiredString o (str ("id")) ∧
  (∀ v, pyGet o (str ("id")) = Json.string v → identifier_match (pyStrip v) = true) ∧
  specOptionalString o (str ("agent")) ∧
  specOptionalString o (str ("model")) ∧
  specOptionalString o (str ("effort")) ∧
  (∀ v, pyGet o (str ("agent")) = Json.string v → pyStrip v ∈ ALLOWED_AGENTS) ∧
  (∀ v, pyGet o (str ("effort")) = Json.string v → pyStrip v ∈ ALLOWED_EFFORTS) ∧
  specRequiredString o (str ("worktreeStrategy")) ∧
  (∀ v, pyGet o (str ("worktreeStrategy")) = Json.string v →
    pyStrip v ∈ ALLOWED_WORKTREE_STRATEGIES) ∧
  specRequiredString o (str ("prompt")) ∧
  (∀ v, pyGet o (str ("prompt")) = Json.string v →
    (pyStrip v).length ≤ PROMPT_MAX_CHARS) ∧
  specOptionalStringList o (str ("dependsOn")) ∧
  specOptionalStringList o (str ("filesHint")) ∧
  specOptionalStringList o (str ("definitionOfDone")) ∧
  specRequiredString o (str ("title")) ∧
  specRequiredString o (str ("description"))

/-- The original claim's full acceptance condition: no listed rejection
condition holds. -/
def claimPlanOk (data : JsonObj) : Prop :=
  specRequiredString data (str ("planId")) ∧
  (∀ v, pyGet data (str ("planId")) = Json.string v → identifier_match (pyStrip v) = true) ∧
  specIntLike (pyGet data (str ("requestedAt"))) ∧
  specOptionalDict data (str ("routing")) ∧
  specRoutingOk (specDict data (str ("routing"))) ∧
  (∃ items, pyGet data (str ("subtasks")) = Json.arr items ∧ items ≠ [] ∧
    ∀ j ∈ items, ∃ o, j = Json.obj o ∧ claimSubtaskOk o) ∧
  (planIds (specSubtasks data)).Nodup ∧
  (∀ s ∈ specSubtasks data, ∀ d ∈ s.depends_on, d ∈ planIds (specSubtasks data)) ∧
  (∃ T, IsTopoOrder (specSubtasks data) T) ∧
  specRequiredString data (str ("repo")) ∧
  specRequiredString data (str ("title")) ∧
  specRequiredString data (str ("requestedBy")) ∧
  specRequiredString data (str ("objective")) ∧
  specOptionalDict data (str ("constraints")) ∧
  specOptionalDict data (str ("context")) ∧
  specRequiredString data (str ("version"))

/-- A payload that is complete and well-formed except that its only
subtask names no model and there is no routing default to fall back
to. -/
def noModelSubtaskObj : JsonObj :=
  [(str ("id"), Json.string (str ("T1"))),
   (str ("title"), Json.string (str ("only"))),
   (str ("description"), Json.string (str ("d"))),
   (str ("agent"), Json.string (str ("codex"))),
   (str ("effort"), Json.string (str ("low"))),
   (str ("worktreeStrategy"), Json.string (str ("shared"))),
   (str ("prompt"), Json.string (str ("p")))]

def noModelPayload : JsonObj :=
  [(str ("planId"), Json.string (str ("plan-2"))),
   (str ("repo"), Json.string (str ("repo1"))),
   (str ("title"), Json.string (str ("Title"))),
   (str ("requestedBy"), Json.string (str ("bob"))),
   (str ("requestedAt"), Json.int 1730000000001),
   (str ("objective"), Json.string (str ("objective"))),
   (str ("version"), Json.string (str ("1.0"))),
   (str ("subtasks"), Json.arr [Json.obj noModelSubtaskObj])]

/-- **C4, counterexample to the original claim.**  `noModelPayload`
violates none of the claim's listed rejection conditions, yet
`Plan.from_dict` rejects it ("Missing model for subtask T1"): the list of
rejection conditions is incomplete. -/
theorem claim_C4_counterexample :
    claimPlanOk noModelPayload ∧
    Plan.from_dict noModelPayload
      = Except.error (Err.invalidPlan
          (str ("Missing model for subtask ") ++ str ("T1"))) := by
  constructor
  · refine ⟨⟨str ("plan-2"), rfl, by decide⟩,
      field_forall noModelPayload (str ("planId"))
        (fun w => identifier_match w = true) (str ("plan-2")) rfl (by decide),
      Or.inl ⟨1730000000001, rfl⟩,
      Or.inl rfl,
      ⟨Or.inl rfl, Or.inl rfl, Or.inl rfl, ?_, ?_⟩,
      ⟨[Json.obj noModelSubtaskObj], rfl, by simp, ?_⟩,
      by decide, by decide, ⟨[str ("T1")], by exact ⟨by decide, by decide⟩⟩,
      ⟨str ("repo1"), rfl, by decide⟩,
      ⟨str ("Title"), rfl, by decide⟩,
      ⟨str ("bob"), rfl, by decide⟩,
      ⟨str ("objective"), rfl, by decide⟩,
      Or.inl rfl, Or.inl rfl,
      ⟨str ("1.0"), rfl, by decide⟩⟩
    · intro v hv
      cases hv
    · intro v hv
      cases hv
    · intro j hj
      have hj' : j = Json.obj noModelSubtaskObj := by
        simpa using hj
      refine ⟨noModelSubtaskObj, hj', ?_⟩
      refine ⟨⟨str ("T1"), rfl, by decide⟩,
        field_forall noModelSubtaskObj (str ("id"))
          (fun w => identifier_match w = true) (str ("T1")) rfl (by decide),
        Or.inr ⟨str ("codex"), rfl, by decide⟩,
        Or.inl rfl,
        Or.inr ⟨str ("low"), rfl, by decide⟩,
        field_forall noModelSubtaskObj (str ("agent"))
          (fun w => w ∈ ALLOWED_AGENTS) (str ("codex")) rfl (by decide),
        field_forall noModelSubtaskObj (str ("effort"))
          (fun w => w ∈ ALLOWED_EFFORTS) (str ("low")) rfl (by decide),
        ⟨str ("shared"), rfl, by decide⟩,
        field_forall noModelSubtaskObj (str ("worktreeStrategy"))
          (fun w => w ∈ ALLOWED_WORKTREE_STRATEGIES) (str ("shared")) rfl (by decide),
        ⟨str ("p"), rfl, by decide⟩,
        field_forall noModelSubtaskObj (str ("prompt"))
          (fun w => w.length ≤ PROMPT_MAX_CHARS) (str ("p")) rfl (by decide),
        Or.inl rfl, Or.inl rfl, Or.inl rfl,
        ⟨str ("only"), rfl, by decide⟩,
        ⟨str ("d"), rfl, by decide⟩⟩
  · rfl

/-! ### C10: serialization round-trip -/

/-- Invariants of the routing defaults of an accepted plan: every present
field is non-blank, already stripped, and (agent/effort) enumerated. -/
def RoutingWF (r : RoutingDefaults) : Prop :=
  (∀ a, r.agent = some a → a ≠ [] ∧ pyStrip a = a ∧ a ∈ ALLOWED_AGENTS) ∧
  (∀ m, r.model = some m → m ≠ [] ∧ pyStrip m = m) ∧
  (∀ e, r.effort = some e → e ≠ [] ∧ pyStrip e = e ∧ e ∈ ALLOWED_EFFORTS)

theorem routingWF_of_spec (rd : JsonObj) (h : specRoutingOk rd) :
    RoutingWF (routingOf rd) := by
  obtain ⟨hsa, hsm, hse, hea, hee⟩ := h
  refine ⟨?_, ?_, ?_⟩
  · intro a ha
    obtain ⟨v, hv, hav⟩ := specOpt_eq_some _ _ _ ha
    have hne : pyStrip v ≠ [] := by
      rcases hsa with hnull | ⟨v2, hv2, hne2⟩
      · rw [hv] at hnull
        cases hnull
      · rw [hv] at hv2
        injection hv2 with h2
        rw [h2]
        exact hne2
    subst hav
    exact ⟨hne, pyStrip_idem v, hea v hv⟩
  · intro m hm
    obtain ⟨v, hv, hmv⟩ := specOpt_eq_some _ _ _ hm
    have hne : pyStrip v ≠ [] := by
      rcases hsm with hnull | ⟨v2, hv2, hne2⟩
      · rw [hv] at hnull
        cases hnull
      · rw [hv] at hv2
        injection hv2 with h2
        rw [h2]
        exact hne2
    subst hmv
    exact ⟨hne, pyStrip_idem v⟩
  · intro e he
    obtain ⟨v, hv, hev⟩ := specOpt_eq_some _ _ _ he
    have hne : pyStrip v ≠ [] := by
      rcases hse with hnull | ⟨v2, hv2, hne2⟩
      · rw [hv] at hnull
        cases hnull
      · rw [hv] at hv2
        injection hv2 with h2
        rw [h2]
        exact hne2
    subst hev
    exact ⟨hne, pyStrip_idem v, hee v hv⟩

theorem routing_to_dict_roundtrip (r : RoutingDefaults) (hwf : RoutingWF r) :
    specRoutingOk (RoutingDefaults.to_dict r) ∧
    routingOf (RoutingDefaults.to_dict r) = r ∧
    ((RoutingDefaults.to_dict r).isEmpty = true →
      r = { agent := none, model := none, effort := none }) := by
  obtain ⟨hwa, hwm, hwe⟩ := hwf
  obtain ⟨agent, model, effort⟩ := r
  cases agent with
  | some a =>
    obtain ⟨hnea, hsta, hina⟩ := hwa a rfl
    cases model with
    | some m =>
      obtain ⟨hnem, hstm⟩ := hwm m rfl
      cases effort with
      | some e =>
        obtain ⟨hnee, hste, hine⟩ := hwe e rfl
        refine ⟨⟨Or.inr ⟨a, ?_, ?_⟩, Or.inr ⟨m, ?_, ?_⟩, Or.inr ⟨e, ?_, ?_⟩, ?_, ?_⟩, ?_, ?_⟩ <;>
          simp [RoutingDefaults.to_dict, specOpt, routingOf, pyGet, hnea, hnem, hnee,
            hsta, hstm, hste, str] <;>
          first
            | exact hina
            | exact hine
            | skip
      | none =>
        refine ⟨⟨Or.inr ⟨a, ?_, ?_⟩, Or.inr ⟨m, ?_, ?_⟩, Or.inl ?_, ?_, ?_⟩, ?_, ?_⟩ <;>
          simp [RoutingDefaults.to_dict, specOpt, routingOf, pyGet, hnea, hnem,
            hsta, hstm, str] <;>
          first
            | exact hina
            | exact hine
            | skip
    | none =>
      cases effort with
      | some e =>
        obtain ⟨hnee, hste, hine⟩ := hwe e rfl
        refine ⟨⟨Or.inr ⟨a, ?_, ?_⟩, Or.inl ?_, Or.inr ⟨e, ?_, ?_⟩, ?_, ?_⟩, ?_, ?_⟩ <;>
          simp [RoutingDefaults.to_dict, specOpt, routingOf, pyGet, hnea, hnee,
            hsta, hste, str] <;>
          first
            | exact hina
            | exact hine
            | skip
      | none =>
        refine ⟨⟨Or.inr ⟨a, ?_, ?_⟩, Or.inl ?_, Or.inl ?_, ?_, ?_⟩, ?_, ?_⟩ <;>
          simp [RoutingDefaults.to_dict, specOpt, routingOf, pyGet, hnea, hsta, str] <;>
          first
            | exact hina
            | exact hine
            | skip
  | none =>
    cases model with
    | some m =>
      obtain ⟨hnem, hstm⟩ := hwm m rfl
      cases effort with
      | some e =>
        obtain ⟨hnee, hste, hine⟩ := hwe e rfl
        refine ⟨⟨Or.inl ?_, Or.inr ⟨m, ?_, ?_⟩, Or.inr ⟨e, ?_, ?_⟩, ?_, ?_⟩, ?_, ?_⟩ <;>
          simp [RoutingDefaults.to_dict, specOpt, routingOf, pyGet, hnem, hnee,
            hstm, hste, str] <;>
          first
            | exact hina
            | exact hine
            | skip
      | none =>
        refine ⟨⟨Or.inl ?_, Or.inr ⟨m, ?_, ?_⟩, Or.inl ?_, ?_, ?_⟩, ?_, ?_⟩ <;>
          simp [RoutingDefaults.to_dict, specOpt, routingOf, pyGet, hnem, hstm, str]
    | none =>
      cases effort with
      | some e =>
        obtain ⟨hnee, hste, hine⟩ := hwe e rfl
        refine ⟨⟨Or.inl ?_, Or.inl ?_, Or.inr ⟨e, ?_, ?_⟩, ?_, ?_⟩, ?_, ?_⟩ <;>
          simp [RoutingDefaults.to_dict, specOpt, routingOf, pyGet, hnee, hste, str] <;>
          first
            | exact hina
            | exact hine
            | skip
      | none =>
        refine ⟨⟨Or.inl ?_, Or.inl ?_, Or.inl ?_, ?_, ?_⟩, ?_, ?_⟩ <;>
          simp [RoutingDefaults.to_dict, specOpt, routingOf, pyGet, str]

/-- Invariants of a subtask of an accepted plan: every string field is
non-blank (lists: their entries), already stripped, enumerations
respected, prompt within bound. -/
def SubtaskWF (s : Subtask) : Prop :=
  s.id ≠ [] ∧ pyStrip s.id = s.id ∧ identifier_match s.id = true ∧
  s.title ≠ [] ∧ pyStrip s.title = s.title ∧
  s.description ≠ [] ∧ pyStrip s.description = s.description ∧
  s.agent ≠ [] ∧ pyStrip s.agent = s.agent ∧ s.agent ∈ ALLOWED_AGENTS ∧
  s.model ≠ [] ∧ pyStrip s.model = s.model ∧
  s.effort ≠ [] ∧ pyStrip s.effort = s.effort ∧ s.effort ∈ ALLOWED_EFFORTS ∧
  s.worktree_strategy ≠ [] ∧ pyStrip s.worktree_strategy = s.worktree_strategy ∧
    s.worktree_strategy ∈ ALLOWED_WORKTREE_STRATEGIES ∧
  s.prompt ≠ [] ∧ pyStrip s.prompt = s.prompt ∧ s.prompt.length ≤ PROMPT_MAX_CHARS ∧
  (∀ d ∈ s.depends_on, d ≠ [] ∧ pyStrip d = d) ∧
  (∀ f ∈ s.files_hint, f ≠ [] ∧ pyStrip f = f) ∧
  (∀ x ∈ s.definition_of_done, x ≠ [] ∧ pyStrip x = x)

theorem specStr_wf (o : JsonObj) (key : Str) (h : specRequiredString o key) :
    specStr o key ≠ [] ∧ pyStrip (specStr o key) = specStr o key := by
  obtain ⟨v, hv, hne⟩ := h
  have hs : specStr o key = pyStrip v := by
    unfold specStr
    rw [hv]
  rw [hs]
  exact ⟨hne, pyStrip_idem v⟩

theorem specStr_prop (o : JsonObj) (key : Str) (Q : Str → Prop)
    (h : specRequiredString o key)
    (hq : ∀ v, pyGet o key = Json.string v → Q (pyStrip v)) : Q (specStr o key) := by
  obtain ⟨v, hv, hne⟩ := h
  have hs : specStr o key = pyStrip v := by
    unfold specStr
    rw [hv]
  rw [hs]
  exact hq v hv

theorem specResolved_strip (o : JsonObj) (key : Str) (dflt : Option Str) (a : Str)
    (hd : ∀ x, dflt = some x → pyStrip x = x)
    (h : specResolved o key dflt = some a) : pyStrip a = a := by
  unfold specResolved at h
  cases hv : pyGet o key <;> rw [hv] at h
  case string v =>
      injection h with h2
      rw [← h2]
      exact pyStrip_idem v
  all_goals exact hd a h

theorem specList_wf (o : JsonObj) (key : Str) (h : specOptionalStringList o key) :
    ∀ d ∈ specList o key, d ≠ [] ∧ pyStrip d = d := by
  intro d hd
  unfold specList at hd
  rcases h with hnull | ⟨items, hv, hall⟩
  · rw [hnull] at hd
    have hd2 : d ∈ ([] : List Str) := hd
    cases hd2
  · rw [hv] at hd
    have hd2 : d ∈ items.filterMap (fun j => match j with
        | Json.string s2 => some (pyStrip s2)
        | _ => none) := hd
    rw [List.mem_filterMap] at hd2
    obtain ⟨j, hj, hjd⟩ := hd2
    obtain ⟨s2, rfl, hs2⟩ := hall j hj
    have hjd2 : some (pyStrip s2) = some d := hjd
    injection hjd2 with h3
    rw [← h3]
    exact ⟨hs2, pyStrip_idem s2⟩

theorem subtaskWF_of_spec (o : JsonObj) (routing : RoutingDefaults)
    (hwf : RoutingWF routing) (h : specSubtaskOk o routing) :
    SubtaskWF (specParseSubtask o routing) := by
  obtain ⟨c1, c2, c3, c4, c5, ⟨a, hra, hnea, hina⟩, ⟨m, hrm, hnem⟩,
    ⟨e, hre, hnee, hine⟩, c9, c10, c11, c12, c13, c14, c15, c16, c17⟩ := h
  obtain ⟨hwa, hwm, hwe⟩ := hwf
  unfold specParseSubtask
  refine ⟨(specStr_wf _ _ c1).1, (specStr_wf _ _ c1).2,
    specStr_prop _ _ (fun w => identifier_match w = true) c1 c2,
    (specStr_wf _ _ c16).1, (specStr_wf _ _ c16).2,
    (specStr_wf _ _ c17).1, (specStr_wf _ _ c17).2,
    ?_, ?_, ?_, ?_, ?_, ?_, ?_, ?_,
    (specStr_wf _ _ c9).1, (specStr_wf _ _ c9).2,
    specStr_prop _ _ (fun w => w ∈ ALLOWED_WORKTREE_STRATEGIES) c9 c10,
    (specStr_wf _ _ c11).1, (specStr_wf _ _ c11).2,
    specStr_prop _ _ (fun w => w.length ≤ PROMPT_MAX_CHARS) c11 c12,
    specList_wf _ _ c13, specList_wf _ _ c14, specList_wf _ _ c15⟩
  · rw [hra]
    simpa using hnea
  · rw [hra]
    simpa using specResolved_strip _ _ _ a (fun x hx => (hwa x hx).2.1) hra
  · rw [hra]
    simpa using hina
  · rw [hrm]
    simpa using hnem
  · rw [hrm]
    simpa using specResolved_strip _ _ _ m (fun x hx => (hwm x hx).2) hrm
  · rw [hre]
    simpa using hnee
  · rw [hre]
    simpa using specResolved_strip _ _ _ e (fun x hx => (hwe x hx).2.1) hre
  · rw [hre]
    simpa using hine

theorem specList_map_string (l : List Str) :
    (List.map Json.string l).filterMap (fun j => match j with
      | Json.string s2 => some (pyStrip s2)
      | _ => none) = l.map pyStrip := by
  induction l with
  | nil => rfl
  | cons d t ih => simp [List.filterMap_cons, ih]

theorem map_pyStrip_id (l : List Str) (h : ∀ d ∈ l, pyStrip d = d) :
    l.map pyStrip = l := by
  induction l with
  | nil => rfl
  | cons d t ih =>
      rw [List.map_cons, h d (List.mem_cons_self _ _),
        ih (fun x hx => h x (List.mem_cons_of_mem _ hx))]

theorem subtask_to_dict_roundtrip (s : Subtask) (hwf : SubtaskWF s)
    (routing : RoutingDefaults) :
    specSubtaskOk (Subtask.to_dict s) routing ∧
    specParseSubtask (Subtask.to_dict s) routing = s := by
  obtain ⟨hid1, hid2, hid3, ht1, ht2, hd1, hd2, ha1, ha2, ha3, hm1, hm2,
    he1, he2, he3, hw1, hw2, hw3, hp1, hp2, hp3, hdep, hfh, hdod⟩ := hwf
  have hRa : specResolved (Subtask.to_dict s) (str ("agent")) routing.agent
      = some s.agent := by
    have h0 : specResolved (Subtask.to_dict s) (str ("agent")) routing.agent
        = some (pyStrip s.agent) := rfl
    rw [h0, ha2]
  have hRm : specResolved (Subtask.to_dict s) (str ("model")) routing.model
      = some s.model := by
    have h0 : specResolved (Subtask.to_dict s) (str ("model")) routing.model
        = some (pyStrip s.model) := rfl
    rw [h0, hm2]
  have hRe : specResolved (Subtask.to_dict s) (str ("effort")) routing.effort
      = some s.effort := by
    have h0 : specResolved (Subtask.to_dict s) (str ("effort")) routing.effort
        = some (pyStrip s.effort) := rfl
    rw [h0, he2]
  constructor
  · refine ⟨⟨s.id, rfl, by rw [hid2]; exact hid1⟩,
      field_forall (Subtask.to_dict s) (str ("id"))
        (fun w => identifier_match w = true) s.id rfl (by rw [hid2]; exact hid3),
      Or.inr ⟨s.agent, rfl, by rw [ha2]; exact ha1⟩,
      Or.inr ⟨s.model, rfl, by rw [hm2]; exact hm1⟩,
      Or.inr ⟨s.effort, rfl, by rw [he2]; exact he1⟩,
      ⟨s.agent, hRa, ha1, ha3⟩,
      ⟨s.model, hRm, hm1⟩,
      ⟨s.effort, hRe, he1, he3⟩,
      ⟨s.worktree_strategy, rfl, by rw [hw2]; exact hw1⟩,
      field_forall (Subtask.to_dict s) (str ("worktreeStrategy"))
        (fun w => w ∈ ALLOWED_WORKTREE_STRATEGIES) s.worktree_strategy rfl
        (by rw [hw2]; exact hw3),
      ⟨s.prompt, rfl, by rw [hp2]; exact hp1⟩,
      field_forall (Subtask.to_dict s) (str ("prompt"))
        (fun w => w.length ≤ PROMPT_MAX_CHARS) s.prompt rfl
        (by rw [hp2]; exact hp3),
      Or.inr ⟨s.depends_on.map Json.string, rfl, ?_⟩,
      Or.inr ⟨s.files_hint.map Json.string, rfl, ?_⟩,
      Or.inr ⟨s.definition_of_done.map Json.string, rfl, ?_⟩,
      ⟨s.title, rfl, by rw [ht2]; exact ht1⟩,
      ⟨s.description, rfl, by rw [hd2]; exact hd1⟩⟩
    · intro j hj
      rw [List.mem_map] at hj
      obtain ⟨d, hd, rfl⟩ := hj
      exact ⟨d, rfl, by rw [(hdep d hd).2]; exact (hdep d hd).1⟩
    · intro j hj
      rw [List.mem_map] at hj
      obtain ⟨f, hf, rfl⟩ := hj
      exact ⟨f, rfl, by rw [(hfh f hf).2]; exact (hfh f hf).1⟩
    · intro j hj
      rw [List.mem_map] at hj
      obtain ⟨x, hx, rfl⟩ := hj
      exact ⟨x, rfl, by rw [(hdod x hx).2]; exact (hdod x hx).1⟩
  · have hLd : specList (Subtask.to_dict s) (str ("dependsOn")) = s.depends_on := by
      have h0 : specList (Subtask.to_dict s) (str ("dependsOn"))
          = (s.depends_on.map Json.string).filterMap (fun j => match j with
            | Json.string s2 => some (pyStrip s2)
            | _ => none) := rfl
      rw [h0, specList_map_string, map_pyStrip_id _ (fun d hd => (hdep d hd).2)]
    have hLf : specList (Subtask.to_dict s) (str ("filesHint")) = s.files_hint := by
      have h0 : specList (Subtask.to_dict s) (str ("filesHint"))
          = (s.files_hint.map Json.string).filterMap (fun j => match j with
            | Json.string s2 => some (pyStrip s2)
            | _ => none) := rfl
      rw [h0, specList_map_string, map_pyStrip_id _ (fun f hf => (hfh f hf).2)]
    have hLx : specList (Subtask.to_dict s) (str ("definitionOfDone"))
        = s.definition_of_done := by
      have h0 : specList (Subtask.to_dict s) (str ("definitionOfDone"))
          = (s.definition_of_done.map Json.string).filterMap (fun j => match j with
            | Json.string s2 => some (pyStrip s2)
            | _ => none) := rfl
      rw [h0, specList_map_string, map_pyStrip_id _ (fun x hx => (hdod x hx).2)]
    have hSid : specStr (Subtask.to_dict s) (str ("id")) = s.id := by
      have h0 : specStr (Subtask.to_dict s) (str ("id")) = pyStrip s.id := rfl
      rw [h0, hid2]
    have hSt : specStr (Subtask.to_dict s) (str ("title")) = s.title := by
      have h0 : specStr (Subtask.to_dict s) (str ("title")) = pyStrip s.title := rfl
      rw [h0, ht2]
    have hSd : specStr (Subtask.to_dict s) (str ("description")) = s.description := by
      have h0 : specStr (Subtask.to_dict s) (str ("description"))
          = pyStrip s.description := rfl
      rw [h0, hd2]
    have hSw : specStr (Subtask.to_dict s) (str ("worktreeStrategy"))
        = s.worktree_strategy := by
      have h0 : specStr (Subtask.to_dict s) (str ("worktreeStrategy"))
          = pyStrip s.worktree_strategy := rfl
      rw [h0, hw2]
    have hSp : specStr (Subtask.to_dict s) (str ("prompt")) = s.prompt := by
      have h0 : specStr (Subtask.to_dict s) (str ("prompt")) = pyStrip s.prompt := rfl
      rw [h0, hp2]
    unfold specParseSubtask
    rw [hSid, hSt, hSd, hRa, hRm, hRe, hSw, hLd, hLf, hSp, hLx]
    rfl

theorem map_eq_self {α : Type} (l : List α) (f : α → α) (h : ∀ a ∈ l, f a = a) :
    l.map f = l := by
  induction l with
  | nil => rfl
  | cons a t ih =>
      rw [List.map_cons, h a (List.mem_cons_self _ _),
        ih (fun x hx => h x (List.mem_cons_of_mem _ hx))]

theorem filterMap_obj_map (l : List Subtask) :
    (l.map (fun s => Json.obj (Subtask.to_dict s))).filterMap (fun j => match j with
      | Json.obj o => some o
      | _ => none) = l.map Subtask.to_dict := by
  induction l with
  | nil => rfl
  | cons s t ih => simp [List.filterMap_cons, ih]

theorem specRoutingOk_nil : specRoutingOk [] := by
  refine ⟨Or.inl rfl, Or.inl rfl, Or.inl rfl, ?_, ?_⟩ <;>
    intro v hv <;> cases hv

/-- **C10.** For every plan `P` accepted by `Plan.from_dict`, parsing
`P.to_dict` succeeds and returns a plan equal to `P` in every field. -/
theorem claim_C10 (data : JsonObj) (P : Plan)
    (hacc : Plan.from_dict data = Except.ok P) :
    Plan.from_dict (Plan.to_dict P) = Except.ok P := by
  obtain ⟨hspec, hP⟩ := (plan_from_dict_char data P).mp hacc
  obtain ⟨c1, c2, c3, c4, c5, ⟨items, hitems, hne, hallobj⟩, c7, c8, c9,
    c10, c11, c12, c13, c14, c15, c16⟩ := hspec
  have hrawd : specSubtasksRaw data = items.filterMap (fun j => match j with
      | Json.obj ob => some ob
      | _ => none) := by
    unfold specSubtasksRaw
    rw [hitems]
  have hrwfd : RoutingWF (specRouting data) :=
    routingWF_of_spec (specDict data (str ("routing"))) c5
  have hrwf : RoutingWF P.routing := by
    rw [hP]
    exact hrwfd
  have hswf : ∀ s ∈ P.subtasks, SubtaskWF s := by
    intro s hs
    rw [hP] at hs
    have hs2 : s ∈ (specSubtasksRaw data).map
        (fun o => specParseSubtask o (specRouting data)) := hs
    rw [List.mem_map] at hs2
    obtain ⟨o, ho, rfl⟩ := hs2
    have hok : specSubtaskOk o (specRouting data) := by
      rw [hrawd] at ho
      rw [List.mem_filterMap] at ho
      obtain ⟨j, hj, hjo⟩ := ho
      obtain ⟨ob, rfl, hok2⟩ := hallobj j hj
      have h3 : some ob = some o := hjo
      injection h3 with h4
      rw [← h4]
      exact hok2
    exact subtaskWF_of_spec o _ hrwfd hok
  have hpid : P.plan_id ≠ [] ∧ pyStrip P.plan_id = P.plan_id := by
    rw [hP]
    exact specStr_wf _ _ c1
  have hpidm : identifier_match P.plan_id = true := by
    rw [hP]
    exact specStr_prop _ _ (fun w => identifier_match w = true) c1 c2
  have hira : specIntLike P.requested_at := by
    rw [hP]
    exact c3
  have hrepo : P.repo ≠ [] ∧ pyStrip P.repo = P.repo := by
    rw [hP]
    exact specStr_wf _ _ c10
  have htitle : P.title ≠ [] ∧ pyStrip P.title = P.title := by
    rw [hP]
    exact specStr_wf _ _ c11
  have hrby : P.requested_by ≠ [] ∧ pyStrip P.requested_by = P.requested_by := by
    rw [hP]
    exact specStr_wf _ _ c12
  have hobj : P.objective ≠ [] ∧ pyStrip P.objective = P.objective := by
    rw [hP]
    exact specStr_wf _ _ c13
  have hver : P.version ≠ [] ∧ pyStrip P.version = P.version := by
    rw [hP]
    exact specStr_wf _ _ c16
  have hnd : (planIds P.subtasks).Nodup := by
    rw [hP]
    exact c7
  have hknown : ∀ s ∈ P.subtasks, ∀ d ∈ s.depends_on, d ∈ planIds P.subtasks := by
    rw [hP]
    exact c8
  have htopo : ∃ T, IsTopoOrder P.subtasks T := by
    rw [hP]
    exact c9
  have hlenfm2 : (items.filterMap (fun j => match j with
      | Json.obj ob => some ob
      | _ => none)).length = items.length :=
    (filterMap_length_eq _ items).mpr (fun j hj => (json_isSome_obj j).mpr
      (by obtain ⟨ob, hob, -⟩ := hallobj j hj; exact ⟨ob, hob⟩))
  have hPlen : P.subtasks.length = items.length := by
    rw [hP]
    show (specSubtasks data).length = items.length
    unfold specSubtasks
    rw [hrawd, List.length_map]
    exact hlenfm2
  have hPne : P.subtasks ≠ [] := by
    intro h0
    rw [h0] at hPlen
    cases items with
    | nil => exact hne rfl
    | cons a t => cases hPlen
  obtain ⟨hRsp, hRof, hRemp⟩ := routing_to_dict_roundtrip P.routing hrwf
  -- the routing key of the serialized payload
  have hrkey : specOptionalDict (Plan.to_dict P) (str ("routing")) ∧
      specRoutingOk (specDict (Plan.to_dict P) (str ("routing"))) ∧
      specRouting (Plan.to_dict P) = P.routing := by
    cases hcase : (RoutingDefaults.to_dict P.routing).isEmpty with
    | true =>
        have hdict : Plan.to_dict P
            = [(str ("planId"), Json.string P.plan_id),
               (str ("repo"), Json.string P.repo),
               (str ("title"), Json.string P.title),
               (str ("requestedBy"), Json.string P.requested_by),
               (str ("requestedAt"), P.requested_at),
               (str ("objective"), Json.string P.objective),
               (str ("constraints"), Json.obj P.constraints),
               (str ("context"), Json.obj P.context),
               (str ("subtasks"), Json.arr (P.subtasks.map (fun s => Json.obj s.to_dict))),
               (str ("version"), Json.string P.version)] := by
          unfold Plan.to_dict
          rw [hcase]
          simp
        have hnullr : pyGet (Plan.to_dict P) (str ("routing")) = Json.null := by
          rw [hdict]
          rfl
        have hdr : specDict (Plan.to_dict P) (str ("routing")) = [] := by
          unfold specDict
          rw [hnullr]
        have hfix : specRouting (Plan.to_dict P) = P.routing := by
          unfold specRouting
          rw [hdr, hRemp hcase]
          rfl
        rw [hdr]
        exact ⟨Or.inl hnullr, specRoutingOk_nil, hfix⟩
    | false =>
        have hdict : Plan.to_dict P
            = [(str ("planId"), Json.string P.plan_id),
               (str ("repo"), Json.string P.repo),
               (str ("title"), Json.string P.title),
               (str ("requestedBy"), Json.string P.requested_by),
               (str ("requestedAt"), P.requested_at),
               (str ("objective"), Json.string P.objective),
               (str ("constraints"), Json.obj P.constraints),
               (str ("context"), Json.obj P.context),
               (str ("subtasks"), Json.arr (P.subtasks.map (fun s => Json.obj s.to_dict))),
               (str ("version"), Json.string P.version)] ++
              [(str ("routing"), Json.obj (RoutingDefaults.to_dict P.routing))] := by
          unfold Plan.to_dict
          rw [hcase]
          simp
        have hobjr : pyGet (Plan.to_dict P) (str ("routing"))
            = Json.obj (RoutingDefaults.to_dict P.routing) := by
          rw [hdict]
          rfl
        have hdr : specDict (Plan.to_dict P) (str ("routing"))
            = RoutingDefaults.to_dict P.routing := by
          unfold specDict
          rw [hobjr]
        have hfix : specRouting (Plan.to_dict P) = P.routing := by
          unfold specRouting
          rw [hdr, hRof]
        rw [hdr]
        exact ⟨Or.inr ⟨_, hobjr⟩, hRsp, hfix⟩
  obtain ⟨hOptD, hRok, hfix⟩ := hrkey
  have hraw0 : specSubtasksRaw (Plan.to_dict P)
      = (P.subtasks.map (fun s => Json.obj (Subtask.to_dict s))).filterMap
          (fun j => match j with
            | Json.obj o => some o
            | _ => none) := rfl
  have hsubsEq : specSubtasks (Plan.to_dict P) = P.subtasks := by
    unfold specSubtasks
    rw [hraw0, filterMap_obj_map, List.map_map]
    exact map_eq_self _ _ (fun s hs =>
      (subtask_to_dict_roundtrip s (hswf s hs) (specRouting (Plan.to_dict P))).2)
  have hPlanOk : specPlanOk (Plan.to_dict P) := by
    refine ⟨⟨P.plan_id, rfl, by rw [hpid.2]; exact hpid.1⟩,
      field_forall (Plan.to_dict P) (str ("planId"))
        (fun w => identifier_match w = true) P.plan_id rfl (by rw [hpid.2]; exact hpidm),
      hira,
      hOptD, hRok,
      ⟨P.subtasks.map (fun s => Json.obj (Subtask.to_dict s)), rfl, ?_, ?_⟩,
      by rw [hsubsEq]; exact hnd,
      by rw [hsubsEq]; exact hknown,
      by rw [hsubsEq]; exact htopo,
      ⟨P.repo, rfl, by rw [hrepo.2]; exact hrepo.1⟩,
      ⟨P.title, rfl, by rw [htitle.2]; exact htitle.1⟩,
      ⟨P.requested_by, rfl, by rw [hrby.2]; exact hrby.1⟩,
      ⟨P.objective, rfl, by rw [hobj.2]; exact hobj.1⟩,
      Or.inr ⟨P.constraints, rfl⟩,
      Or.inr ⟨P.context, rfl⟩,
      ⟨P.version, rfl, by rw [hver.2]; exact hver.1⟩⟩
    · intro h0
      rw [List.map_eq_nil] at h0
      exact hPne h0
    · intro j hj
      rw [List.mem_map] at hj
      obtain ⟨s, hs, rfl⟩ := hj
      exact ⟨Subtask.to_dict s, rfl,
        (subtask_to_dict_roundtrip s (hswf s hs) (specRouting (Plan.to_dict P))).1⟩
  have hS1 : specStr (Plan.to_dict P) (str ("planId")) = P.plan_id := by
    have h0 : specStr (Plan.to_dict P) (str ("planId")) = pyStrip P.plan_id := rfl
    rw [h0, hpid.2]
  have hS2 : specStr (Plan.to_dict P) (str ("repo")) = P.repo := by
    have h0 : specStr (Plan.to_dict P) (str ("repo")) = pyStrip P.repo := rfl
    rw [h0, hrepo.2]
  have hS3 : specStr (Plan.to_dict P) (str ("title")) = P.title := by
    have h0 : specStr (Plan.to_dict P) (str ("title")) = pyStrip P.title := rfl
    rw [h0, htitle.2]
  have hS4 : specStr (Plan.to_dict P) (str ("requestedBy")) = P.requested_by := by
    have h0 : specStr (Plan.to_dict P) (str ("requestedBy"))
        = pyStrip P.requested_by := rfl
    rw [h0, hrby.2]
  have hS5 : specStr (Plan.to_dict P) (str ("objective")) = P.objective := by
    have h0 : specStr (Plan.to_dict P) (str ("objective")) = pyStrip P.objective := rfl
    rw [h0, hobj.2]
  have hS6 : specStr (Plan.to_dict P) (str ("version")) = P.version := by
    have h0 : specStr (Plan.to_dict P) (str ("version")) = pyStrip P.version := rfl
    rw [h0, hver.2]
  have hParse : specParsePlan (Plan.to_dict P) = P := by
    unfold specParsePlan
    rw [hS1, hS2, hS3, hS4, hS5, hS6, hsubsEq, hfix]
    rfl
  exact (plan_from_dict_char (Plan.to_dict P) P).mpr ⟨hPlanOk, hParse.symm⟩

/-- Witness for C10 at the concrete two-subtask plan. -/
theorem claim_C10_witness :
    Plan.from_dict demoPlanPayload = Except.ok demoPlan ∧
    Plan.from_dict (Plan.to_dict demoPlan) = Except.ok demoPlan :=
  ⟨rfl, claim_C10 demoPlanPayload demoPlan rfl⟩

end AiDevops
